import Mathlib

/-!
# HISE sampler sounds: a verification development

Shallow embedding of `hi_sampler/sampler/ModulatorSamplerSound.cpp`.

* C++ `int` is `Int` (no wrap-around is modelled: the values are MIDI numbers, sample
  positions and small lengths).
* C++ `float` / `double` is `ℚ`: every arithmetic operation the sources spell out
  (subtraction, division, linear interpolation) is carried out exactly; the
  transcendental library calls (decibel conversion, pan law, `powf`) are the fields of
  a `FloatLib` that every operation calling them receives as its first argument.
* A `juce::BigInteger` is the natural number whose binary digits are its bits.
* Assets are held by value inside the sound that plays them.
-/

namespace HISE

/-! ## Library types -/

/-- Library calls on floating-point numbers whose results the sampler code only stores
and hands on: `Decibels::decibelsToGain`, `Decibels::gainToDecibels`,
`BalanceCalculator::getGainFactorForBalance`, `powf` and `String::getDoubleValue`. -/
structure FloatLib where
  decibelsToGain : ℚ → ℚ
  gainToDecibels : ℚ → ℚ
  getGainFactorForBalance : ℚ → Bool → ℚ
  powf : ℚ → ℚ → ℚ
  getDoubleValue : String → ℚ

/-- A piecewise-linear stand-in for the decibel conversions, used to run the embedding
on concrete sounds. It keeps the fixed points of the real conversions
(0 dB is gain 1, everything at or below -100 dB is gain 0, the two conversions are
mutually inverse above -100 dB). -/
def FloatLib.linear : FloatLib where
  decibelsToGain := fun dB => if -100 < dB then (dB + 100) / 100 else 0
  gainToDecibels := fun g => if 0 < g then max (-100) (100 * g - 100) else -100
  getGainFactorForBalance := fun b isLeft => if isLeft then (100 - b) / 100 else (100 + b) / 100
  powf := fun _ e => 1 + e
  getDoubleValue := fun _ => 0

/-- Three-argument `jmin`. -/
def jmin3 (a b c : Int) : Int := min a (min b c)

/-- Three-argument `jmax`. -/
def jmax3 (a b c : Int) : Int := max a (max b c)

/-- Conversion of a floating-point number to `int`: the fraction is dropped (rounding
towards zero). -/
def truncate (q : ℚ) : Int := if 0 ≤ q then ⌊q⌋ else ⌈q⌉

/-- Digits loop of `String::getIntValue`: accumulates decimal digits until the first
character that is not one. -/
def getIntValueDigits : List Char → ℕ → ℕ
  | [], acc => acc
  | c :: cs, acc => if c.isDigit then getIntValueDigits cs (acc * 10 + (c.toNat - 48)) else acc

/-- `String::getIntValue`: skips leading whitespace, reads an optional minus sign and the
decimal digits that follow. -/
def getIntValue (s : String) : Int :=
  match s.toList.dropWhile Char.isWhitespace with
  | '-' :: rest => -((getIntValueDigits rest 0 : ℕ) : Int)
  | cs => ((getIntValueDigits cs 0 : ℕ) : Int)

/-- A `juce::var`: the dynamically typed value of a property. -/
inductive Var where
  | void
  | undefined
  | int (i : Int)
  | bool (b : Bool)
  | double (d : ℚ)
  | string (s : String)
deriving DecidableEq

namespace Var

/-- `var::operator int`. -/
def toInt : Var → Int
  | void => 0
  | undefined => 0
  | int i => i
  | bool b => if b then 1 else 0
  | double d => truncate d
  | string s => getIntValue s

end Var

/-! ### `juce::BigInteger` -/

namespace BigInteger

/-- `BigInteger::clear`: no bit is set. -/
def clear : ℕ := 0

/-- `BigInteger::operator[]`: whether the bit with the given index is set (`false` for
a negative index). -/
def getBit (b : ℕ) (bit : Int) : Bool := decide (0 ≤ bit) && b.testBit bit.toNat

/-- `BigInteger::setBit (int)`: sets one bit; a negative index is ignored. -/
def setBit (b : ℕ) (bit : Int) : ℕ :=
  if 0 ≤ bit then b ||| (1 <<< bit.toNat) else b

/-- `BigInteger::clearBit`: clears one bit; a negative index is ignored. -/
def clearBit (b : ℕ) (bit : Int) : ℕ :=
  if getBit b bit then b ^^^ (1 <<< bit.toNat) else b

/-- `BigInteger::setBit (int, bool)`. -/
def setBitTo (b : ℕ) (bit : Int) (shouldBeSet : Bool) : ℕ :=
  if shouldBeSet then setBit b bit else clearBit b bit

/-- Number of binary digits of `v` (the fuel is only ever `v` itself, which is at
least the number of digits). -/
def numBitsLoop : ℕ → ℕ → ℕ
  | 0, _ => 0
  | fuel + 1, v => if v = 0 then 0 else numBitsLoop fuel (v / 2) + 1

/-- `BigInteger::getHighestBit`: index of the highest set bit, `-1` when no bit is set. -/
def getHighestBit (b : ℕ) : Int := (numBitsLoop b b : Int) - 1

/-- Loop of `findNextSetBit`: `for (; i <= highestBit; ++i) if (bit i is set) return i;`
followed by `return -1`. -/
def findNextSetBitLoop (b : ℕ) : ℕ → ℕ → Int
  | 0, _ => -1
  | fuel + 1, i => if b.testBit i then (i : Int) else findNextSetBitLoop b fuel (i + 1)

/-- `BigInteger::findNextSetBit (i)`: index of the first set bit at or above `i`, `-1`
when there is none. -/
def findNextSetBit (b : ℕ) (i : ℕ) : Int :=
  findNextSetBitLoop b ((getHighestBit b + 1).toNat - i) i

/-- Loop of `setRange`: `while (--numBits >= 0) setBit (startBit++, shouldBeSet);`. -/
def setRangeLoop (shouldBeSet : Bool) : ℕ → ℕ → Int → ℕ
  | 0, b, _ => b
  | n + 1, b, startBit => setRangeLoop shouldBeSet n (setBitTo b startBit shouldBeSet) (startBit + 1)

/-- `BigInteger::setRange (startBit, numBits, shouldBeSet)`. -/
def setRange (b : ℕ) (startBit numBits : Int) (shouldBeSet : Bool) : ℕ :=
  setRangeLoop shouldBeSet numBits.toNat b startBit

end BigInteger

/-- A `juce::Range<int>`: the half-open interval from `start` up to, not including,
`stop` (the member the library calls `end`). -/
structure Range where
  start : Int
  stop : Int
deriving DecidableEq

namespace Range

/-- The two-argument constructor `Range (start, end)`: an end below the start is
raised to the start. -/
def new (s e : Int) : Range := ⟨s, max s e⟩

/-- `Range::getStart`. -/
def getStart (r : Range) : Int := r.start

/-- `Range::getLength`. -/
def getLength (r : Range) : Int := r.stop - r.start

/-- `Range::contains (position)`: `start <= position && position < end`. -/
def contains (r : Range) (position : Int) : Bool :=
  decide (r.start ≤ position) && decide (position < r.stop)

end Range

/-- Modelled from the spec: `Interpolator::interpolateLinear` is declared outside the
given sources; it is the linear ramp between `lowValue` (at `delta = 0`) and
`highValue` (at `delta = 1`). -/
def interpolateLinear (lowValue highValue delta : ℚ) : ℚ :=
  (1 - delta) * lowValue + delta * highValue

/-- A `juce::ValueTree` node without children: a type name and an ordered list of named
properties. -/
structure ValueTreeNode where
  type : String
  properties : List (String × Var)
deriving DecidableEq

/-- A `juce::ValueTree` with one level of children, which is all an exported sample
uses. -/
structure ValueTree where
  type : String
  properties : List (String × Var)
  children : List ValueTreeNode
deriving DecidableEq

/-- `NamedValueSet::set`: overwrites the value of an existing name in place, appends a
new name at the end. -/
def setNamedValue (name : String) (value : Var) : List (String × Var) → List (String × Var)
  | [] => [(name, value)]
  | (n, x) :: rest =>
    if n = name then (n, value) :: rest else (n, x) :: setNamedValue name value rest

/-- `NamedValueSet::getWithDefault`. -/
def getNamedValue (name : String) (defaultValue : Var) : List (String × Var) → Var
  | [] => defaultValue
  | (n, x) :: rest => if n = name then x else getNamedValue name defaultValue rest

namespace ValueTree

/-- `ValueTree (type)`: a node with no properties and no children. -/
def new (type : String) : ValueTree := ⟨type, [], []⟩

/-- `ValueTree::setProperty`. -/
def setProperty (v : ValueTree) (name : String) (value : Var) : ValueTree :=
  { v with properties := setNamedValue name value v.properties }

/-- `ValueTree::removeProperty`. -/
def removeProperty (v : ValueTree) (name : String) : ValueTree :=
  { v with properties := v.properties.filter (fun nx => nx.1 ≠ name) }

/-- `ValueTree::getProperty (name, defaultValue)`. -/
def getProperty (v : ValueTree) (name : String) (defaultValue : Var) : Var :=
  getNamedValue name defaultValue v.properties

/-- `ValueTree::addChild (child, -1, nullptr)`: appends the child. -/
def addChild (v : ValueTree) (child : ValueTreeNode) : ValueTree :=
  { v with children := v.children ++ [child] }

end ValueTree

/-! ## Data model -/

/-- Modelled from the spec: `StreamingSamplerSound`, the asset class, is declared and
implemented outside the given sources. It is the record of the fields the spec lists
for a SoundAsset (file identity, content hash, sample window, loop window, monolith
offset/length/rate, reference count, missing flag, purge flag) together with the peak
of its audio data and the length of the file in samples. -/
structure StreamingSamplerSound where
  fileName : String := ""
  hashCode : Int := 0
  sampleStart : Int := 0
  sampleEnd : Int := 0
  sampleStartModulation : Int := 0
  loopEnabled : Bool := false
  loopStart : Int := 0
  loopEnd : Int := 0
  loopCrossfade : Int := 0
  monolithic : Bool := false
  monolithOffset : Int := 0
  monolithLength : Int := 0
  monolithSampleRate : ℚ := 0
  referenceCount : Int := 1
  missing : Bool := false
  purged : Bool := false
  peakValue : ℚ := 0
  lengthInSamples : Int := 0
deriving DecidableEq

namespace StreamingSamplerSound

/-- Modelled from the spec: `setSampleStart` stores the sample start. -/
def setSampleStart (a : StreamingSamplerSound) (v : Int) : StreamingSamplerSound :=
  { a with sampleStart := v }

/-- Modelled from the spec: `setSampleEnd` stores the sample end. -/
def setSampleEnd (a : StreamingSamplerSound) (v : Int) : StreamingSamplerSound :=
  { a with sampleEnd := v }

/-- Modelled from the spec: `setSampleStartModulation` stores the start modulation. -/
def setSampleStartModulation (a : StreamingSamplerSound) (v : Int) : StreamingSamplerSound :=
  { a with sampleStartModulation := v }

/-- Modelled from the spec: `setLoopEnabled` stores the loop switch. -/
def setLoopEnabled (a : StreamingSamplerSound) (b : Bool) : StreamingSamplerSound :=
  { a with loopEnabled := b }

/-- Modelled from the spec: `setLoopStart` stores the loop start. -/
def setLoopStart (a : StreamingSamplerSound) (v : Int) : StreamingSamplerSound :=
  { a with loopStart := v }

/-- Modelled from the spec: `setLoopEnd` stores the loop end. -/
def setLoopEnd (a : StreamingSamplerSound) (v : Int) : StreamingSamplerSound :=
  { a with loopEnd := v }

/-- Modelled from the spec: `setLoopCrossfade` stores the loop crossfade length. -/
def setLoopCrossfade (a : StreamingSamplerSound) (v : Int) : StreamingSamplerSound :=
  { a with loopCrossfade := v }

/-- Modelled from the spec: `setPurged` stores the per-asset purge flag. -/
def setPurged (a : StreamingSamplerSound) (b : Bool) : StreamingSamplerSound :=
  { a with purged := b }

end StreamingSamplerSound

/-- Modelled from the spec: the enumeration `ModulatorSamplerSound::Property` is
declared in a header outside the given sources. Its members are listed in the order in
which `getPropertyName`, `getProperty` and the spec enumerate them. -/
inductive Property where
  | ID | FileName | RootNote | KeyHigh | KeyLow | VeloLow | VeloHigh | RRGroup
  | Volume | Pan | Normalized | Pitch | SampleStart | SampleEnd | SampleStartMod
  | LoopEnabled | LoopStart | LoopEnd | LoopXFade | UpperVelocityXFade
  | LowerVelocityXFade | SampleState
deriving DecidableEq, Repr

namespace Property

/-- All properties in enumeration order, `ID` up to (excluding) `numProperties`. -/
def all : List Property :=
  [ID, FileName, RootNote, KeyHigh, KeyLow, VeloLow, VeloHigh, RRGroup, Volume, Pan,
   Normalized, Pitch, SampleStart, SampleEnd, SampleStartMod, LoopEnabled, LoopStart,
   LoopEnd, LoopXFade, UpperVelocityXFade, LowerVelocityXFade, SampleState]

/-- Position of a property in the enumeration (the integer value of the enumerator,
counted from `ID`). -/
def toNat : Property → ℕ
  | ID => 0 | FileName => 1 | RootNote => 2 | KeyHigh => 3 | KeyLow => 4 | VeloLow => 5
  | VeloHigh => 6 | RRGroup => 7 | Volume => 8 | Pan => 9 | Normalized => 10 | Pitch => 11
  | SampleStart => 12 | SampleEnd => 13 | SampleStartMod => 14 | LoopEnabled => 15
  | LoopStart => 16 | LoopEnd => 17 | LoopXFade => 18 | UpperVelocityXFade => 19
  | LowerVelocityXFade => 20 | SampleState => 21

end Property

/-- The state of a `ModulatorSamplerSound`. The member `firstSound` always points to the
first element of `soundArray` (both constructors set it so and nothing moves it), so
it is read off `soundArray`. -/
structure ModulatorSamplerSound where
  index : Int := 0
  soundArray : List StreamingSamplerSound := []
  isMultiMicSound : Bool := false
  rootNote : Int := 0
  midiNotes : ℕ := 0
  velocityRange : ℕ := 0
  rrGroup : Int := 1
  maxRRGroup : Int := 1
  gain : ℚ := 1
  pan : Int := 0
  leftBalanceGain : ℚ := 1
  rightBalanceGain : ℚ := 1
  centPitch : ℚ := 0
  pitchFactor : ℚ := 1
  normalizedPeak : ℚ := -1
  isNormalized : Bool := false
  upperVeloXFadeValue : Int := 0
  lowerVeloXFadeValue : Int := 0
  purged : Bool := false
  purgeChannels : ℕ := 0
  allFilesExist : Bool := true
  enableAsyncPropertyChange : Bool := true
deriving DecidableEq

/-- The value struct `MappingData` that `setMappingData` applies in bulk. -/
structure MappingData where
  rootNote : Int := 0
  loKey : Int := 0
  hiKey : Int := 0
  loVel : Int := 0
  hiVel : Int := 0
  rrGroup : Int := 0
  sampleStart : Int := 0
  sampleEnd : Int := 0
  sampleStartMod : Int := 0
  loopEnabled : Int := 0
  loopStart : Int := 0
  loopEnd : Int := 0
  loopXFade : Int := 0
  volume : Int := 0
  pan : Int := 0
  pitch : Int := 0
deriving DecidableEq

/-- What a call makes happen outside the sound, in the order it happens. -/
inductive Event where
  | killVoicesAndCall
  | killAllVoicesAndCall
  | changeMessage
deriving DecidableEq, Repr

/-! ## Operations of `ModulatorSamplerSound` -/

namespace ModulatorSamplerSound

/-- The member `firstSound`; `none` is the null pointer. -/
def firstSound (s : ModulatorSamplerSound) : Option StreamingSamplerSound :=
  s.soundArray.head?

/-- The macro `FOR_EVERY_SOUND (call)` (defined in the header): performs the call on
every asset of the sound. -/
def forEverySound (s : ModulatorSamplerSound)
    (f : StreamingSamplerSound → StreamingSamplerSound) : ModulatorSamplerSound :=
  { s with soundArray := s.soundArray.map f }

/-- `ModulatorSamplerSound::getPropertyName`. -/
def getPropertyName : Property → String
  | .ID => "ID"
  | .FileName => "FileName"
  | .RootNote => "Root"
  | .KeyHigh => "HiKey"
  | .KeyLow => "LoKey"
  | .VeloLow => "LoVel"
  | .VeloHigh => "HiVel"
  | .RRGroup => "RRGroup"
  | .Volume => "Volume"
  | .Pan => "Pan"
  | .Normalized => "Normalized"
  | .Pitch => "Pitch"
  | .SampleStart => "SampleStart"
  | .SampleEnd => "SampleEnd"
  | .SampleStartMod => "SampleStartMod"
  | .LoopEnabled => "LoopEnabled"
  | .LoopStart => "LoopStart"
  | .LoopEnd => "LoopEnd"
  | .LoopXFade => "LoopXFade"
  | .UpperVelocityXFade => "UpperVelocityXFade"
  | .LowerVelocityXFade => "LowerVelocityXFade"
  | .SampleState => "SampleState"

/-- `ModulatorSamplerSound::isAsyncProperty`: `return p >= SampleStart;`. -/
def isAsyncProperty (p : Property) : Bool :=
  decide (Property.SampleStart.toNat ≤ p.toNat)

/-- `ModulatorSamplerSound::isPurged` (inline in the header): the global purge flag. -/
def isPurged (s : ModulatorSamplerSound) : Bool := s.purged

/-- `ModulatorSamplerSound::getProperty`. -/
def getProperty (L : FloatLib) (s : ModulatorSamplerSound) (p : Property) : Var :=
  match s.soundArray.head? with
  | none => Var.void
  | some first =>
    match p with
    | .ID => Var.int s.index
    | .FileName => Var.string first.fileName
    | .RootNote => Var.int s.rootNote
    | .KeyHigh => Var.int (BigInteger.getHighestBit s.midiNotes)
    | .KeyLow => Var.int (BigInteger.findNextSetBit s.midiNotes 0)
    | .VeloHigh => Var.int (BigInteger.getHighestBit s.velocityRange)
    | .VeloLow => Var.int (BigInteger.findNextSetBit s.velocityRange 0)
    | .RRGroup => Var.int s.rrGroup
    | .Volume => Var.double (L.gainToDecibels s.gain)
    | .Pan => Var.int s.pan
    | .Normalized => Var.bool s.isNormalized
    | .Pitch => Var.double s.centPitch
    | .SampleStart => Var.int first.sampleStart
    | .SampleEnd => Var.int first.sampleEnd
    | .SampleStartMod => Var.int first.sampleStartModulation
    | .LoopEnabled => Var.bool first.loopEnabled
    | .LoopStart => Var.int first.loopStart
    | .LoopEnd => Var.int first.loopEnd
    | .LoopXFade => Var.int first.loopCrossfade
    | .UpperVelocityXFade => Var.int s.upperVeloXFadeValue
    | .LowerVelocityXFade => Var.int s.lowerVeloXFadeValue
    | .SampleState => Var.bool s.isPurged

/-- `ModulatorSamplerSound::calculateNormalizedPeak`. -/
def calculateNormalizedPeak (s : ModulatorSamplerSound) (forceScan : Bool) :
    ModulatorSamplerSound :=
  if forceScan ∨ s.normalizedPeak < 0 then
    let highestPeak : ℚ := s.soundArray.foldl (fun hp a => max hp a.peakValue) 0
    if highestPeak ≠ 0 then { s with normalizedPeak := 1 / highestPeak } else s
  else s

/-- `ModulatorSamplerSound::setVelocityXFade`. -/
def setVelocityXFade (s : ModulatorSamplerSound) (crossfadeLength : Int)
    ( isUpperSound : Bool) : ModulatorSamplerSound :=
  if isUpperSound then { s with lowerVeloXFadeValue := crossfadeLength }
  else { s with upperVeloXFadeValue := crossfadeLength }

/-- `ModulatorSamplerSound::setPurged`. -/
def setPurged (s : ModulatorSamplerSound) (shouldBePurged : Bool) : ModulatorSamplerSound :=
  ({ s with purged := shouldBePurged }).forEverySound (fun a => a.setPurged shouldBePurged)

/-- `ModulatorSamplerSound::setPropertyInternal`. The cases `ID` and `FileName` only
assert in debug builds. The `int` arithmetic of the four range bounds is exact here: it
is the 32-bit arithmetic of the program as long as no `int` overflows (`lowWriteFits`,
`highWriteFits`), as it is when the written value and the bits of the range lie in the
MIDI domain. -/
def setPropertyInternal (L : FloatLib) (s : ModulatorSamplerSound) (p : Property)
    (newValue : Int) : ModulatorSamplerSound :=
  match p with
  | .ID => s
  | .FileName => s
  | .RootNote => { s with rootNote := newValue }
  | .VeloHigh =>
    let low := jmin3 (BigInteger.findNextSetBit s.velocityRange 0) newValue 127
    { s with velocityRange := BigInteger.setRange BigInteger.clear low (newValue - low + 1) true }
  | .VeloLow =>
    let high := jmax3 (BigInteger.getHighestBit s.velocityRange) newValue 0
    { s with velocityRange :=
        BigInteger.setRange BigInteger.clear newValue (high - newValue + 1) true }
  | .KeyHigh =>
    let low := jmin3 (BigInteger.findNextSetBit s.midiNotes 0) newValue 127
    { s with midiNotes := BigInteger.setRange BigInteger.clear low (newValue - low + 1) true }
  | .KeyLow =>
    let high := jmax3 (BigInteger.getHighestBit s.midiNotes) newValue 0
    { s with midiNotes :=
        BigInteger.setRange BigInteger.clear newValue (high - newValue + 1) true }
  | .RRGroup => { s with rrGroup := newValue }
  | .Normalized =>
    let s1 := { s with isNormalized := decide (newValue = 1) }
    if s1.isNormalized ∧ s1.normalizedPeak < 0 then s1.calculateNormalizedPeak false else s1
  | .Volume => { s with gain := L.decibelsToGain (newValue : ℚ) }
  | .Pan =>
    { s with
      pan := newValue
      leftBalanceGain := L.getGainFactorForBalance (newValue : ℚ) true
      rightBalanceGain := L.getGainFactorForBalance (newValue : ℚ) false }
  | .Pitch =>
    { s with
      centPitch := (newValue : ℚ)
      pitchFactor := L.powf 2 ((newValue : ℚ) / 1200) }
  | .SampleStart => s.forEverySound (fun a => a.setSampleStart newValue)
  | .SampleEnd => s.forEverySound (fun a => a.setSampleEnd newValue)
  | .SampleStartMod => s.forEverySound (fun a => a.setSampleStartModulation newValue)
  | .LoopEnabled => s.forEverySound (fun a => a.setLoopEnabled (decide (newValue = 1)))
  | .LoopStart => s.forEverySound (fun a => a.setLoopStart newValue)
  | .LoopEnd => s.forEverySound (fun a => a.setLoopEnd newValue)
  | .LoopXFade => s.forEverySound (fun a => a.setLoopCrossfade newValue)
  | .LowerVelocityXFade => { s with lowerVeloXFadeValue := newValue }
  | .UpperVelocityXFade => { s with upperVeloXFadeValue := newValue }
  | .SampleState => s.setPurged (decide (newValue = 1))

/-- `ModulatorSamplerSound::setPreloadPropertyInternal`: hands the write to the first
sampler's `killAllVoicesAndCall`, which runs it once the voices are killed. -/
def setPreloadPropertyInternal (L : FloatLib) (s : ModulatorSamplerSound) (p : Property)
    (newValue : Int) : ModulatorSamplerSound × List Event :=
  (s.setPropertyInternal L p newValue, [Event.killAllVoicesAndCall])

/-- `ModulatorSamplerSound::setProperty`. In the asynchronous branch the lambda is handed
to `KillStateHandler::killVoicesAndCall` with the sample loading thread as target; the
result is the state once that lambda has run (it holds a counted reference to the
sound, so its null test succeeds). -/
def setProperty (L : FloatLib) (s : ModulatorSamplerSound) (p : Property) (newValue : Int)
    (notifyEditor : Bool) : ModulatorSamplerSound × List Event :=
  if s.enableAsyncPropertyChange ∧ isAsyncProperty p then
    let r := s.setPreloadPropertyInternal L p newValue
    (r.1, Event.killVoicesAndCall :: r.2 ++ (if notifyEditor then [Event.changeMessage] else []))
  else
    (s.setPropertyInternal L p newValue, if notifyEditor then [Event.changeMessage] else [])

/-- Runs `setProperty (p, v, dontSendNotification)` after the calls that produced `r`. -/
def thenSetProperty (L : FloatLib) (r : ModulatorSamplerSound × List Event) (p : Property)
    (v : Int) : ModulatorSamplerSound × List Event :=
  ((r.1.setProperty L p v false).1, r.2 ++ (r.1.setProperty L p v false).2)

/-- The single-mic constructor. Members without an initialiser in the constructor
(`rootNote`, the two key/velocity bit sets, `allFilesExist`,
`enableAsyncPropertyChange`) start as in the structure defaults: zero, empty, `true`. -/
def new (L : FloatLib) (sound : StreamingSamplerSound) (index : Int) : ModulatorSamplerSound :=
  (({ index := index, soundArray := [sound], isMultiMicSound := false }
      : ModulatorSamplerSound).setProperty L .Pan 0 false).1

/-- The multi-mic constructor. -/
def newMultiMic (L : FloatLib) (soundArray : List StreamingSamplerSound) (index : Int) :
    ModulatorSamplerSound :=
  (({ index := index, soundArray := soundArray, isMultiMicSound := true }
      : ModulatorSamplerSound).setProperty L .Pan 0 false).1

/-- `ModulatorSamplerSound::setMappingData`. -/
def setMappingData (L : FloatLib) (s : ModulatorSamplerSound) (newData : MappingData) :
    ModulatorSamplerSound × List Event :=
  let s1 : ModulatorSamplerSound :=
    { s with
      rootNote := newData.rootNote
      velocityRange :=
        BigInteger.setRange BigInteger.clear newData.loVel (newData.hiVel - newData.loVel + 1) true
      midiNotes :=
        BigInteger.setRange BigInteger.clear newData.loKey (newData.hiKey - newData.loKey + 1) true
      rrGroup := newData.rrGroup }
  let r0 : ModulatorSamplerSound × List Event := (s1, [])
  let r1 := thenSetProperty L r0 .SampleStart newData.sampleStart
  let r2 := thenSetProperty L r1 .SampleEnd newData.sampleEnd
  let r3 := thenSetProperty L r2 .SampleStartMod newData.sampleStartMod
  let r4 := thenSetProperty L r3 .LoopEnabled newData.loopEnabled
  let r5 := thenSetProperty L r4 .LoopStart newData.loopStart
  let r6 := thenSetProperty L r5 .LoopEnd newData.loopEnd
  let r7 := thenSetProperty L r6 .LoopXFade newData.loopXFade
  let r8 := thenSetProperty L r7 .Volume newData.volume
  let r9 := thenSetProperty L r8 .Pan newData.pan
  thenSetProperty L r9 .Pitch newData.pitch

/-- `ModulatorSamplerSound::getGainValueForVelocityXFade`. -/
def getGainValueForVelocityXFade (s : ModulatorSamplerSound) (velocity : Int) : ℚ :=
  if s.upperVeloXFadeValue = 0 ∧ s.lowerVeloXFadeValue = 0 then 1
  else
    let upperRange := Range.new
      (BigInteger.getHighestBit s.velocityRange - s.upperVeloXFadeValue)
      (BigInteger.getHighestBit s.velocityRange)
    let lowerRange := Range.new
      (BigInteger.findNextSetBit s.velocityRange 0)
      (BigInteger.findNextSetBit s.velocityRange 0 + s.lowerVeloXFadeValue)
    if upperRange.contains velocity then
      interpolateLinear 1 0
        (((velocity - upperRange.getStart : Int) : ℚ) / ((upperRange.getLength : Int) : ℚ))
    else if lowerRange.contains velocity then
      interpolateLinear 0 1
        (((velocity - lowerRange.getStart : Int) : ℚ) / ((lowerRange.getLength : Int) : ℚ))
    else 1

/-- `ModulatorSamplerSound::isChannelPurged`. -/
def isChannelPurged (s : ModulatorSamplerSound) (channelIndex : Int) : Bool :=
  BigInteger.getBit s.purgeChannels channelIndex

/-- The body of `if (auto s = soundArray[channelIndex]) s->setPurged (...)`: an index
outside the array yields the null pointer and nothing happens. -/
def purgeAsset (assets : List StreamingSamplerSound) (channelIndex : Int)
    (shouldBePurged : Bool) : List StreamingSamplerSound :=
  if 0 ≤ channelIndex then
    assets.modify (fun a => a.setPurged shouldBePurged) channelIndex.toNat
  else assets

/-- `ModulatorSamplerSound::setChannelPurged`. -/
def setChannelPurged (s : ModulatorSamplerSound) (channelIndex : Int)
    (shouldBePurged : Bool) : ModulatorSamplerSound :=
  if s.purged then s
  else
    { s with
      purgeChannels := BigInteger.setBitTo s.purgeChannels channelIndex shouldBePurged
      soundArray := purgeAsset s.soundArray channelIndex shouldBePurged }

/-- Loop of `exportAsValueTree` over the properties: one `setProperty` per property, in
enumeration order. -/
def exportProperties (L : FloatLib) (s : ModulatorSamplerSound) (v : ValueTree) :
    List Property → ValueTree
  | [] => v
  | p :: ps => exportProperties L s (v.setProperty (getPropertyName p) (s.getProperty L p)) ps

/-- The multi-mic branch of `exportAsValueTree`: the `FileName` property is removed and
one `file` child per asset is appended. -/
def exportFileChildren (s : ModulatorSamplerSound) (v : ValueTree) : ValueTree :=
  s.soundArray.foldl
    (fun t a => t.addChild ⟨"file", setNamedValue "FileName" (Var.string a.fileName) []⟩)
    (v.removeProperty (getPropertyName .FileName))

/-- Body of `exportAsValueTree` for a sound whose `firstSound` points to `first`. -/
def exportWithFirst (L : FloatLib) (s : ModulatorSamplerSound) (first : StreamingSamplerSound) :
    ValueTree :=
  let v0 := exportProperties L s (ValueTree.new "sample") Property.all
  let v1 := if s.isMultiMicSound then exportFileChildren s v0 else v0
  let v2 := v1.setProperty "NormalizedPeak" (Var.double s.normalizedPeak)
  let v3 :=
    if first.monolithic then
      ((v2.setProperty "MonolithOffset" (Var.int first.monolithOffset)).setProperty
        "MonolithLength" (Var.int first.monolithLength)).setProperty
        "SampleRate" (Var.double first.monolithSampleRate)
    else v2
  v3.setProperty "Duplicate" (Var.bool (decide (3 ≤ first.referenceCount)))

/-- `ModulatorSamplerSound::exportAsValueTree`. It dereferences `firstSound`, so a sound
without any asset has no export (`none`). -/
def exportAsValueTree (L : FloatLib) (s : ModulatorSamplerSound) : Option ValueTree :=
  match s.firstSound with
  | none => none
  | some first => some (exportWithFirst L s first)

end ModulatorSamplerSound

/-- The bit set `b` is exactly the range `[lo, hi]`: its set bits are the indices from
`lo` to `hi`, both included, its first set bit is `lo` and its highest set bit is `hi`. -/
def BigInteger.IsRange (b : ℕ) (lo hi : Int) : Prop :=
  (∀ k : ℕ, b.testBit k = true ↔ (lo ≤ (k : Int) ∧ (k : Int) ≤ hi)) ∧
    BigInteger.findNextSetBit b 0 = lo ∧ BigInteger.getHighestBit b = hi

/-- An asset for concrete sounds. -/
def exampleAsset : StreamingSamplerSound := { fileName := "a.wav" }

/-- A freshly constructed single-mic sound. -/
def freshSound : ModulatorSamplerSound := ModulatorSamplerSound.new FloatLib.linear exampleAsset 0

/-- A sound mapped to all keys and all velocities, `[0, 127]` each. -/
def fullRangeSound : ModulatorSamplerSound :=
  (freshSound.setMappingData FloatLib.linear { hiKey := 127, hiVel := 127 }).1

/-- The sound mapped to velocities `[0, 127]` whose upper fade length is 10. -/
def upperFadeSound : ModulatorSamplerSound := fullRangeSound.setVelocityXFade 10 false

/-- The sound mapped to velocities `[0, 127]` whose lower fade length is 5. -/
def lowerFadeSound : ModulatorSamplerSound := fullRangeSound.setVelocityXFade 5 true

/-- The sound mapped to velocities `[0, 127]` with upper fade length 10 and lower fade
length 5. -/
def bothFadeSound : ModulatorSamplerSound := upperFadeSound.setVelocityXFade 5 true

/-- The sound mapped to all keys and velocities with its global purge flag set. -/
def purgedSound : ModulatorSamplerSound := fullRangeSound.setPurged true

/-- The events a call of `setProperty` ends with: the change message when the editor is
to be notified. -/
def notifyEvents (notifyEditor : Bool) : List Event :=
  if notifyEditor then [Event.changeMessage] else []

/-- `ValueTree::hasProperty`. -/
def ValueTree.hasProperty (v : ValueTree) (name : String) : Bool :=
  v.properties.any (fun nx => decide (nx.1 = name))

/-- The `file` child node that `exportAsValueTree` appends for one asset of a multi-mic
sound. -/
def fileChild (a : StreamingSamplerSound) : ValueTreeNode :=
  ⟨"file", setNamedValue "FileName" (Var.string a.fileName) []⟩

namespace ModulatorSamplerSound

/-- Second loop of `checkFileReference`: `allFilesExist` is cleared at the first missing
asset (`break`), otherwise it keeps the value it had. -/
def checkFileReferenceLoop (allFilesExist : Bool) : List StreamingSamplerSound → Bool
  | [] => allFilesExist
  | a :: rest => if a.missing then false else checkFileReferenceLoop allFilesExist rest

/-- `ModulatorSamplerSound::checkFileReference`. The asset's own `checkFileReference`
(in `StreamingSamplerSound`, outside the given sources) is the parameter `assetCheck`. -/
def checkFileReference (assetCheck : StreamingSamplerSound → StreamingSamplerSound)
    (s : ModulatorSamplerSound) : ModulatorSamplerSound :=
  let s1 := ({ s with allFilesExist := true }).forEverySound assetCheck
  { s1 with allFilesExist := checkFileReferenceLoop s1.allFilesExist s1.soundArray }

end ModulatorSamplerSound

/-- An asset whose file is missing. -/
def missingAsset : StreamingSamplerSound := { fileName := "b.wav", missing := true }

/-- A multi-mic sound with two assets, the second of which is missing. -/
def twoMicSound : ModulatorSamplerSound :=
  ModulatorSamplerSound.newMultiMic FloatLib.linear [exampleAsset, missingAsset] 1

/-- A single-mic sound whose asset is part of a monolith and referenced three times. -/
def monolithSound : ModulatorSamplerSound :=
  ModulatorSamplerSound.new FloatLib.linear
    { fileName := "c.wav", monolithic := true, monolithOffset := 44, monolithLength := 1000,
      monolithSampleRate := 44100, referenceCount := 3 } 2

/-! ## The sample pool -/

/-- `StreamingSamplerSound::LoadingError`: the file name and the description of what went
wrong. -/
structure LoadingError where
  fileName : String
  errorDescription : String
deriving DecidableEq

/-- What the pool code calls outside the given sources: the project handler's path
resolution (`getFilePath (wildcard, Samples)`), `String::hashCode64`, the file system
test behind an asset's missing flag, the text of a floating-point `var`, the metadata
scan of a monolith container (`fillMetadataInfo`, which either throws a `LoadingError`
or returns), and the constructor of the asset for channel `j` of sample `i` of a
container. -/
structure PoolEnv where
  getFilePath : String → String
  hashCode64 : String → Int
  existsAsFile : String → Bool
  doubleToString : ℚ → String
  fillMetadataInfo : List String → List ValueTree → Option LoadingError
  monolithAsset : List String → Int → Int → StreamingSamplerSound

/-- `var::toString`. -/
def Var.toString (env : PoolEnv) : Var → String
  | .void => ""
  | .undefined => "undefined"
  | .int i => ToString.toString i
  | .bool b => if b then "1" else "0"
  | .double d => env.doubleToString d
  | .string s => s

/-- `var::operator bool`. -/
def Var.toBool : Var → Bool
  | .void => false
  | .undefined => false
  | .int i => decide (i ≠ 0)
  | .bool b => b
  | .double d => decide (d ≠ 0)
  | .string s =>
    decide (getIntValue s ≠ 0) || s.trim.toLower == "true" || s.trim.toLower == "yes"

/-- Modelled from the spec: the constructor `StreamingSamplerSound (fileName, pool)` is
outside the given sources. The asset it makes has the given file as identity, the hash
of that path as content hash, and the missing flag set when the file does not exist. -/
def StreamingSamplerSound.fromFile (env : PoolEnv) (fileName : String) : StreamingSamplerSound :=
  { fileName := fileName, hashCode := env.hashCode64 fileName,
    missing := !env.existsAsFile fileName }

/-- Modelled from the spec: a loaded monolith container (`MonolithInfoToUse`, declared
outside the given sources): the files it was opened from and its reference count as
`getReferenceCount` reports it when the pool inspects the container (the pool's own
list and the pointer used for the inspection account for 2). -/
structure MonolithInfo where
  files : List String := []
  referenceCount : Int := 2
deriving DecidableEq

/-- The state of a `ModulatorSamplerSoundPool`. An entry of `pool` is a weak pointer:
`none` once the asset it pointed to has been destroyed. -/
structure ModulatorSamplerSoundPool where
  pool : List (Option StreamingSamplerSound) := []
  loadedMonoliths : List MonolithInfo := []
  updatePool : Bool := true
  searchPool : Bool := true
  forcePoolSearch : Bool := false
  isCurrentlyLoading : Bool := false
deriving DecidableEq

/-- What `addSound` hands back: the pool afterwards, the new sound (`none` is the null
pointer), for every asset pointer put into the sound the pool index it was found at or
added at (`-1` for a failed lookup), and the number of change messages sent. -/
structure AddSoundResult where
  pool : ModulatorSamplerSoundPool
  sound : Option ModulatorSamplerSound
  poolIndices : List Int
  changeMessages : ℕ
deriving DecidableEq

/-- What `loadMonolithicData` hands back: its return value, the pool and the output
array afterwards, whether the entry assertion failed, the logged error messages and the
number of change messages sent. -/
structure LoadResult where
  ok : Bool
  pool : ModulatorSamplerSoundPool
  sounds : List ModulatorSamplerSound
  assertionFailed : Bool
  logged : List String
  changeMessages : ℕ
deriving DecidableEq

/-- The loop variables of `addSoundWithMultiMic`: the pool, the array of asset pointers
built so far (`none` is a null pointer), the pool index of each of them, and the number
of change messages sent. -/
structure MultiMicState where
  pool : ModulatorSamplerSoundPool
  multiMicArray : List (Option StreamingSamplerSound)
  poolIndices : List Int
  changeMessages : ℕ
deriving DecidableEq

namespace ModulatorSamplerSoundPool

/-- `pool[i]` followed by `get ()`: the asset at an index, the null pointer for an index
outside the array and for a dead entry. -/
def entry (p : ModulatorSamplerSoundPool) (i : Int) : Option StreamingSamplerSound :=
  if 0 ≤ i then (p.pool.get? i.toNat).join else none

/-- `if (updatePool) sendChangeMessage ();`: the number of messages this sends. -/
def updateMessages (p : ModulatorSamplerSoundPool) : ℕ := if p.updatePool then 1 else 0

/-- `ModulatorSamplerSoundPool::getNumSoundsInPool`. -/
def getNumSoundsInPool (p : ModulatorSamplerSoundPool) : Int := p.pool.length

/-- Loop of `getSoundIndexFromPool` over the entries from index `i` on. -/
def getSoundIndexLoop (hashCode otherPossibleHashCode : Int) :
    List (Option StreamingSamplerSound) → Int → Int
  | [], _ => -1
  | none :: _, _ => -1
  | some s :: rest, i =>
    if s.hashCode = hashCode then i
    else if otherPossibleHashCode ≠ -1 ∧ s.hashCode = otherPossibleHashCode then i
    else getSoundIndexLoop hashCode otherPossibleHashCode rest (i + 1)

/-- `ModulatorSamplerSoundPool::getSoundIndexFromPool`. -/
def getSoundIndexFromPool (p : ModulatorSamplerSoundPool)
    (hashCode otherPossibleHashCode : Int) : Int :=
  if !p.searchPool then -1
  else getSoundIndexLoop hashCode otherPossibleHashCode p.pool 0

/-- `pool.add (s)`. -/
def add (p : ModulatorSamplerSoundPool) (s : StreamingSamplerSound) :
    ModulatorSamplerSoundPool :=
  { p with pool := p.pool ++ [some s] }

/-- `ModulatorSamplerSoundPool::addSoundWithSingleMic`. -/
def addSoundWithSingleMic (env : PoolEnv) (L : FloatLib) (p : ModulatorSamplerSoundPool)
    (soundDescription : ValueTree) (index : Int) (forceReuse : Bool) : AddSoundResult :=
  let fileNameWildcard :=
    (soundDescription.getProperty (ModulatorSamplerSound.getPropertyName .FileName)
      Var.void).toString env
  let fileName := env.getFilePath fileNameWildcard
  let hash := env.hashCode64 fileName
  let hashWildcard := env.hashCode64 fileNameWildcard
  if forceReuse then
    let i := p.getSoundIndexFromPool hash hashWildcard
    if i ≠ -1 then
      { pool := p, sound := (p.entry i).map (fun a => ModulatorSamplerSound.new L a index),
        poolIndices := [i], changeMessages := p.updateMessages }
    else { pool := p, sound := none, poolIndices := [], changeMessages := 0 }
  else
    let isDuplicate := (soundDescription.getProperty "Duplicate" (Var.bool true)).toBool
    let searchThisSampleInPool := p.forcePoolSearch || isDuplicate
    let i := if searchThisSampleInPool then p.getSoundIndexFromPool hash hashWildcard else -1
    if searchThisSampleInPool ∧ i ≠ -1 then
      { pool := p, sound := (p.entry i).map (fun a => ModulatorSamplerSound.new L a index),
        poolIndices := [i], changeMessages := p.updateMessages }
    else
      let s := StreamingSamplerSound.fromFile env fileName
      { pool := p.add s, sound := some (ModulatorSamplerSound.new L s index),
        poolIndices := [(p.pool.length : Int)], changeMessages := p.updateMessages }

/-- One pass of the loop of `addSoundWithMultiMic`, for one child of the description. -/
def addMultiMicChild (env : PoolEnv) (soundDescription : ValueTree) (forceReuse : Bool)
    (st : MultiMicState) (child : ValueTreeNode) : MultiMicState :=
  let fileNameWildcard :=
    (getNamedValue (ModulatorSamplerSound.getPropertyName .FileName) Var.void
      child.properties).toString env
  let fileName := env.getFilePath fileNameWildcard
  let hash := env.hashCode64 fileName
  let hashWildcard := env.hashCode64 fileNameWildcard
  if forceReuse then
    let j := st.pool.getSoundIndexFromPool hash hashWildcard
    { st with
      multiMicArray := st.multiMicArray ++ [st.pool.entry j]
      poolIndices := st.poolIndices ++ [j]
      changeMessages := st.changeMessages + st.pool.updateMessages }
  else
    let isDuplicate := (soundDescription.getProperty "Duplicate" (Var.bool true)).toBool
    let searchThisSampleInPool := st.pool.forcePoolSearch || isDuplicate
    let j :=
      if searchThisSampleInPool then st.pool.getSoundIndexFromPool hash hashWildcard else -1
    if searchThisSampleInPool ∧ j ≠ -1 then
      { st with
        multiMicArray := st.multiMicArray ++ [st.pool.entry j]
        poolIndices := st.poolIndices ++ [j] }
    else
      let s := StreamingSamplerSound.fromFile env fileName
      { st with
        pool := st.pool.add s
        multiMicArray := st.multiMicArray ++ [some s]
        poolIndices := st.poolIndices ++ [(st.pool.pool.length : Int)] }

/-- `ModulatorSamplerSoundPool::addSoundWithMultiMic`. When a forced lookup failed the
array holds a null pointer, which the constructor of the sound and every later
`FOR_EVERY_SOUND` would dereference: there is no sound to return (`none`). -/
def addSoundWithMultiMic (env : PoolEnv) (L : FloatLib) (p : ModulatorSamplerSoundPool)
    (soundDescription : ValueTree) (index : Int) (forceReuse : Bool) : AddSoundResult :=
  let st := soundDescription.children.foldl (addMultiMicChild env soundDescription forceReuse)
    { pool := p, multiMicArray := [], poolIndices := [], changeMessages := 0 }
  { pool := st.pool
    sound :=
      if st.multiMicArray.all Option.isSome then
        some (ModulatorSamplerSound.newMultiMic L (st.multiMicArray.filterMap id) index)
      else none
    poolIndices := st.poolIndices
    changeMessages := st.changeMessages + st.pool.updateMessages }

/-- `ModulatorSamplerSoundPool::addSound`. -/
def addSound (env : PoolEnv) (L : FloatLib) (p : ModulatorSamplerSoundPool)
    (soundDescription : ValueTree) (index : Int) (forceReuse : Bool) : AddSoundResult :=
  if soundDescription.children.length > 1 then
    addSoundWithMultiMic env L p soundDescription index forceReuse
  else addSoundWithSingleMic env L p soundDescription index forceReuse

/-- Loop of `clearUnreferencedSamplesInternal`: every entry whose asset still exists is
added to `currentList`. -/
def collectLive :
    List (Option StreamingSamplerSound) → List (Option StreamingSamplerSound) →
      List (Option StreamingSamplerSound)
  | [], currentList => currentList
  | e :: rest, currentList =>
    if e.isSome then collectLive rest (currentList ++ [e]) else collectLive rest currentList

/-- `ModulatorSamplerSoundPool::clearUnreferencedSamplesInternal`: the collected list
replaces the pool (`swapWith`). -/
def clearUnreferencedSamplesInternal (p : ModulatorSamplerSoundPool) :
    ModulatorSamplerSoundPool × ℕ :=
  ({ p with pool := collectLive p.pool [] }, p.updateMessages)

/-- Loop of `clearUnreferencedMonoliths`:
`for (i; i < size; i++) if (list[i] has reference count 2) list.remove (i--);`.
Every pass costs one unit of fuel; `none` means the fuel ran out before the loop ended. -/
def clearMonolithsLoop : ℕ → ℕ → List MonolithInfo → Option (List MonolithInfo)
  | 0, i, l => if i < l.length then none else some l
  | fuel + 1, i, l =>
    match l.get? i with
    | none => some l
    | some m =>
      if m.referenceCount = 2 then clearMonolithsLoop fuel i (l.eraseIdx i)
      else clearMonolithsLoop fuel (i + 1) l

/-- `ModulatorSamplerSoundPool::clearUnreferencedMonoliths`; the loop gets one unit of
fuel per container. -/
def clearUnreferencedMonoliths (p : ModulatorSamplerSoundPool) :
    Option (ModulatorSamplerSoundPool × ℕ) :=
  (clearMonolithsLoop p.loadedMonoliths.length 0 p.loadedMonoliths).map
    (fun l => ({ p with loadedMonoliths := l }, p.updateMessages))

end ModulatorSamplerSoundPool

namespace ModulatorSamplerSoundPool

/-- An asset made from the container most recently added to `loadedMonoliths` keeps a
counted reference to it: the reference count of the last container goes up by one. -/
def retainLast : List MonolithInfo → List MonolithInfo
  | [] => []
  | [m] => [{ m with referenceCount := m.referenceCount + 1 }]
  | m :: rest => m :: retainLast rest

/-- `new StreamingSamplerSound (hmaf, j, i)` followed by `pool.add (sound)`. -/
def addMonolithAsset (p : ModulatorSamplerSoundPool) (a : StreamingSamplerSound) :
    ModulatorSamplerSoundPool :=
  { p with pool := p.pool ++ [some a], loadedMonoliths := retainLast p.loadedMonoliths }

/-- Inner loop of `loadMonolithicData` for a sample with children: one asset per child
index `j`, added to the pool and to the multi-mic array. -/
def loadMultiMicAssets (env : PoolEnv) (files : List String) (i : Int) :
    List ℕ → ModulatorSamplerSoundPool → List StreamingSamplerSound →
      ModulatorSamplerSoundPool × List StreamingSamplerSound
  | [], p, multiMicArray => (p, multiMicArray)
  | j :: js, p, multiMicArray =>
    loadMultiMicAssets env files i js (p.addMonolithAsset (env.monolithAsset files j i))
      (multiMicArray ++ [env.monolithAsset files j i])

/-- Loop of `loadMonolithicData` over the samples of the map, from index `i` on. -/
def loadSamples (env : PoolEnv) (L : FloatLib) (files : List String) :
    ℕ → List ValueTree → ModulatorSamplerSoundPool → List ModulatorSamplerSound →
      ModulatorSamplerSoundPool × List ModulatorSamplerSound
  | _, [], p, sounds => (p, sounds)
  | i, sample :: rest, p, sounds =>
    if sample.children.length = 0 then
      loadSamples env L files (i + 1) rest
        (p.addMonolithAsset (env.monolithAsset files 0 i))
        (sounds ++ [ModulatorSamplerSound.new L (env.monolithAsset files 0 i) i])
    else
      loadSamples env L files (i + 1) rest
        (loadMultiMicAssets env files i (List.range sample.children.length) p []).1
        (sounds ++ [ModulatorSamplerSound.newMultiMic L
          (loadMultiMicAssets env files i (List.range sample.children.length) p []).2 i])

/-- `ModulatorSamplerSoundPool::loadMonolithicData`. `voicesActive` is what
`areVoicesActive ()` returns at the call; the `jassert` on it is recorded and has no
other effect. `none` only if the loop of `clearUnreferencedMonoliths` ran out of fuel. -/
def loadMonolithicData (env : PoolEnv) (L : FloatLib) (p : ModulatorSamplerSoundPool)
    (voicesActive : Bool) (sampleMap : List ValueTree) (monolithicFiles : List String)
    (sounds : List ModulatorSamplerSound) : Option LoadResult :=
  match p.clearUnreferencedMonoliths with
  | none => none
  | some (p1, cleared) =>
    let p2 : ModulatorSamplerSoundPool :=
      { p1 with loadedMonoliths := p1.loadedMonoliths ++ [{ files := monolithicFiles }] }
    match env.fillMetadataInfo monolithicFiles sampleMap with
    | some l =>
      some
        { ok := false, pool := p2, sounds := sounds, assertionFailed := voicesActive,
          logged := ["Error at loading sample " ++ l.fileName ++ ": " ++ l.errorDescription],
          changeMessages := cleared }
    | none =>
      some
        { ok := true
          pool := (loadSamples env L monolithicFiles 0 sampleMap p2 sounds).1
          sounds := (loadSamples env L monolithicFiles 0 sampleMap p2 sounds).2
          assertionFailed := voicesActive
          logged := []
          changeMessages := cleared + 1 }

end ModulatorSamplerSoundPool

/-- The wildcard file name of a descriptor node: its `FileName` property as text. -/
def fileNameOf (env : PoolEnv) (properties : List (String × Var)) : String :=
  (getNamedValue (ModulatorSamplerSound.getPropertyName .FileName) Var.void
    properties).toString env

/-- The wildcard file names a descriptor refers to, in channel order: one per child for
a descriptor with more than one child, otherwise the one of the node itself. -/
def fileNamesOf (env : PoolEnv) (d : ValueTree) : List String :=
  if d.children.length > 1 then d.children.map (fun c => fileNameOf env c.properties)
  else [fileNameOf env d.properties]

/-- An environment for concrete pools: samples live under `/samples/`, the hash of a
path is the polynomial hash of its characters (multiplier 101), every file exists,
the container `corrupt.ch1` fails its metadata scan, and the asset for channel `j` of
sample `i` of a container is the monolithic asset named after the container's first file. -/
def exampleEnv : PoolEnv where
  getFilePath := fun w => "/samples/" ++ w
  hashCode64 := fun s => ((s.toList.foldl (fun h c => 101 * h + c.toNat) 0 : ℕ) : Int)
  existsAsFile := fun _ => true
  doubleToString := fun _ => "0.0"
  fillMetadataInfo := fun files _ =>
    if files = ["corrupt.ch1"] then
      some { fileName := "corrupt.ch1", errorDescription := "truncated container" }
    else none
  monolithAsset := fun files j i =>
    { fileName := files.headD "", monolithic := true, monolithOffset := 1000 * i + j,
      hashCode := 1000 * i + j }

/-- A single-mic descriptor for `a.wav` without a `Duplicate` hint. -/
def plainDescriptor : ValueTree :=
  { type := "sample", properties := [("FileName", Var.string "a.wav")], children := [] }

/-- A single-mic descriptor for `a.wav` marked `Duplicate = false`. -/
def uniqueDescriptor : ValueTree :=
  { type := "sample",
    properties := [("FileName", Var.string "a.wav"), ("Duplicate", Var.bool false)],
    children := [] }

/-- A single-mic descriptor for `a.wav` marked `Duplicate = true`. -/
def duplicateDescriptor : ValueTree :=
  { type := "sample",
    properties := [("FileName", Var.string "a.wav"), ("Duplicate", Var.bool true)],
    children := [] }

/-- A descriptor with exactly one child entry. -/
def oneChildDescriptor : ValueTree :=
  { type := "sample", properties := [],
    children := [⟨"file", [("FileName", Var.string "a.wav")]⟩] }

/-- A descriptor with two child entries, marked `Duplicate = true`. -/
def twoChildDescriptor : ValueTree :=
  { type := "sample", properties := [("Duplicate", Var.bool true)],
    children := [⟨"file", [("FileName", Var.string "a.wav")]⟩,
      ⟨"file", [("FileName", Var.string "b.wav")]⟩] }

/-- A pool that already holds the asset of `/samples/a.wav`. -/
def poolWithA : ModulatorSamplerSoundPool :=
  { pool := [some (StreamingSamplerSound.fromFile exampleEnv "/samples/a.wav")] }

/-- Outcome of resolving one file reference against the pool: the pool afterwards, the
pool index of the asset and the asset pointer (`none` is the null pointer). -/
structure Resolved where
  pool : ModulatorSamplerSoundPool
  index : Int
  asset : Option StreamingSamplerSound
deriving DecidableEq

namespace ModulatorSamplerSoundPool

/-- The step that `addSoundWithSingleMic` and `addSoundWithMultiMic` both spell out for
one file reference when reuse is not forced: search the pool if the description is a
duplicate or pool search is forced, take the entry found, otherwise create the asset and
add it to the pool. -/
def resolveReference (env : PoolEnv) (isDuplicate : Bool) (p : ModulatorSamplerSoundPool)
    (fileNameWildcard : String) : Resolved :=
  let fileName := env.getFilePath fileNameWildcard
  let searchThisSampleInPool := p.forcePoolSearch || isDuplicate
  let i :=
    if searchThisSampleInPool then
      p.getSoundIndexFromPool (env.hashCode64 fileName) (env.hashCode64 fileNameWildcard)
    else -1
  if searchThisSampleInPool ∧ i ≠ -1 then { pool := p, index := i, asset := p.entry i }
  else
    { pool := p.add (StreamingSamplerSound.fromFile env fileName)
      index := (p.pool.length : Int)
      asset := some (StreamingSamplerSound.fromFile env fileName) }

/-- The step above for a list of file references, one after the other; for each the
pool index and the asset pointer are handed back. -/
def resolveReferences (env : PoolEnv) (isDuplicate : Bool) :
    ModulatorSamplerSoundPool → List String →
      ModulatorSamplerSoundPool × List (Int × Option StreamingSamplerSound)
  | p, [] => (p, [])
  | p, w :: ws =>
    ((resolveReferences env isDuplicate (resolveReference env isDuplicate p w).pool ws).1,
      ((resolveReference env isDuplicate p w).index, (resolveReference env isDuplicate p w).asset)
        :: (resolveReferences env isDuplicate (resolveReference env isDuplicate p w).pool ws).2)

end ModulatorSamplerSoundPool

/-- Whether a description counts as a duplicate: its `Duplicate` property, `true` when
it has none. -/
def isDuplicate (d : ValueTree) : Bool := (d.getProperty "Duplicate" (Var.bool true)).toBool

/-- An asset matches a file reference when its content hash is the hash of the resolved
path or the hash of the wildcard path. -/
def matchesReference (env : PoolEnv) (fileNameWildcard : String) (a : StreamingSamplerSound) :
    Prop :=
  a.hashCode = env.hashCode64 (env.getFilePath fileNameWildcard) ∨
    a.hashCode = env.hashCode64 fileNameWildcard

/-! ## Legal ranges of the properties -/

namespace StreamingSamplerSound

/-- Modelled from the spec: `getSampleLength`, the length of the sample window. -/
def getSampleLength (a : StreamingSamplerSound) : Int := a.sampleEnd - a.sampleStart

/-- Modelled from the spec: `getLoopLength`, the length of the loop window. -/
def getLoopLength (a : StreamingSamplerSound) : Int := a.loopEnd - a.loopStart

/-- Modelled from the spec: `getLengthInSamples`, the length of the whole file. -/
def getLengthInSamples (a : StreamingSamplerSound) : Int := a.lengthInSamples

/-- Modelled from the spec: the enumerator `numSampleStates` of the asset class, the
number of sample states (normal, disabled, purged). -/
def numSampleStates : Int := 3

end StreamingSamplerSound

/-- The constant `INT_MAX` of a 32-bit `int`. -/
def INT_MAX : Int := 2147483647

/-- The constant `INT_MIN` of a 32-bit `int`. -/
def INT_MIN : Int := -2147483648

/-- The value a 32-bit `int` holds after a computation whose exact result is `x`: the
result modulo 2^32, taken from `INT_MIN` to `INT_MAX` (wrap-around). -/
def int32 (x : Int) : Int := (x + 2147483648) % 4294967296 - 2147483648

namespace ModulatorSamplerSound

/-- No `int` of the write of a low bound overflows: the written value and the highest
bit of the range lie below `INT_MAX`, and so does the bit count
`high - newValue + 1` that `setPropertyInternal` hands to `setRange`. -/
def lowWriteFits (bits : ℕ) (newValue : Int) : Prop :=
  INT_MIN ≤ newValue ∧ newValue < INT_MAX ∧ BigInteger.getHighestBit bits < INT_MAX ∧
    jmax3 (BigInteger.getHighestBit bits) newValue 0 - newValue + 1 ≤ INT_MAX

/-- No `int` of the write of a high bound overflows: the written value lies below
`INT_MAX`, and so does the bit count `newValue - low + 1` that `setPropertyInternal`
hands to `setRange`. -/
def highWriteFits (bits : ℕ) (newValue : Int) : Prop :=
  INT_MIN ≤ newValue ∧ newValue < INT_MAX ∧
    newValue - jmin3 (BigInteger.findNextSetBit bits 0) newValue 127 + 1 ≤ INT_MAX

instance (bits : ℕ) (newValue : Int) : Decidable (lowWriteFits bits newValue) := by
  unfold lowWriteFits
  infer_instance

instance (bits : ℕ) (newValue : Int) : Decidable (highWriteFits bits newValue) := by
  unfold highWriteFits
  infer_instance

end ModulatorSamplerSound

namespace ModulatorSamplerSound

/-- `ModulatorSamplerSound::getPropertyRange`. The default-constructed `Range<int>` is the
empty range at 0. -/
def getPropertyRange (L : FloatLib) (s : ModulatorSamplerSound) (p : Property) : Range :=
  match s.soundArray.head? with
  | none => ⟨0, 0⟩
  | some firstSound =>
    match p with
    | .ID => Range.new 0 INT_MAX
    | .FileName => ⟨0, 0⟩
    | .RootNote => Range.new 0 127
    | .KeyHigh => Range.new (s.getProperty L .KeyLow).toInt 127
    | .KeyLow => Range.new 0 (s.getProperty L .KeyHigh).toInt
    | .VeloLow => Range.new 0 ((s.getProperty L .VeloHigh).toInt - 1)
    | .VeloHigh => Range.new ((s.getProperty L .VeloLow).toInt + 1) 127
    | .Volume => Range.new (-100) 18
    | .Pan => Range.new (-100) 100
    | .Normalized => Range.new 0 1
    | .RRGroup => Range.new 1 s.maxRRGroup
    | .Pitch => Range.new (-100) 100
    | .SampleStart =>
      if firstSound.loopEnabled then
        Range.new 0 (min (firstSound.loopStart - firstSound.loopCrossfade)
          (firstSound.sampleEnd - firstSound.sampleStartModulation))
      else Range.new 0 (firstSound.sampleEnd - firstSound.sampleStartModulation)
    | .SampleEnd =>
      let sampleStartMinimum := firstSound.sampleStart + firstSound.sampleStartModulation
      let upperLimit := firstSound.getLengthInSamples
      if firstSound.loopEnabled then
        let lowerLimit := max sampleStartMinimum firstSound.loopEnd
        Range.new lowerLimit upperLimit
      else
        let lowerLimit := sampleStartMinimum
        Range.new lowerLimit upperLimit
    | .SampleStartMod => Range.new 0 firstSound.getSampleLength
    | .LoopEnabled => Range.new 0 1
    | .LoopStart =>
      Range.new (firstSound.sampleStart + firstSound.loopCrossfade)
        (firstSound.loopEnd - firstSound.loopCrossfade)
    | .LoopEnd =>
      Range.new (firstSound.loopStart + firstSound.loopCrossfade) firstSound.sampleEnd
    | .LoopXFade =>
      Range.new 0 (min (firstSound.loopStart - firstSound.sampleStart) firstSound.getLoopLength)
    | .UpperVelocityXFade =>
      Range.new 0
        ((s.getProperty L .VeloHigh).toInt
          - ((s.getProperty L .VeloLow).toInt + s.lowerVeloXFadeValue))
    | .LowerVelocityXFade =>
      Range.new 0
        ((s.getProperty L .VeloHigh).toInt - s.upperVeloXFadeValue
          - (s.getProperty L .VeloLow).toInt)
    | .SampleState => Range.new 0 (StreamingSamplerSound.numSampleStates - 1)

end ModulatorSamplerSound

/-- The states a sound can be in: what the two constructors make, and what `setProperty`,
`setVelocityXFade` and `setMappingData` make of such a state. -/
inductive Reachable (L : FloatLib) : ModulatorSamplerSound → Prop where
  | construct (sound : StreamingSamplerSound) (index : Int) :
      Reachable L (ModulatorSamplerSound.new L sound index)
  | constructMultiMic (soundArray : List StreamingSamplerSound) (index : Int) :
      Reachable L (ModulatorSamplerSound.newMultiMic L soundArray index)
  | setProperty (s : ModulatorSamplerSound) (p : Property) (newValue : Int)
      (notifyEditor : Bool) :
      Reachable L s → Reachable L (s.setProperty L p newValue notifyEditor).1
  | setVelocityXFade (s : ModulatorSamplerSound) (crossfadeLength : Int)
      ( isUpperSound : Bool) :
      Reachable L s → Reachable L (s.setVelocityXFade crossfadeLength isUpperSound)
  | setMappingData (s : ModulatorSamplerSound) (newData : MappingData) :
      Reachable L s → Reachable L (s.setMappingData L newData).1

/-- The bound of the data model on the two velocity-crossfade lengths:
`upperVeloXFade + lowerVeloXFade <= VeloHigh - VeloLow`. -/
def fadesFitVelocityRange (s : ModulatorSamplerSound) : Prop :=
  s.upperVeloXFadeValue + s.lowerVeloXFadeValue
    ≤ BigInteger.getHighestBit s.velocityRange - BigInteger.findNextSetBit s.velocityRange 0

instance (s : ModulatorSamplerSound) : Decidable (fadesFitVelocityRange s) := by
  unfold fadesFitVelocityRange
  infer_instance

/-- A sound mapped to all keys and velocities whose asset has the sample window
`[0, 1000]` and an enabled loop `[100, 900]` with a crossfade of 50 samples. -/
def loopedSound : ModulatorSamplerSound :=
  (freshSound.setMappingData FloatLib.linear
    { hiKey := 127, hiVel := 127, sampleEnd := 1000, loopEnabled := 1, loopStart := 100,
      loopEnd := 900, loopXFade := 50 }).1

/-- The sound mapped to velocities `[0, 127]` whose two fade lengths are both 200, longer
than the velocity range. -/
def wideFadeSound : ModulatorSamplerSound :=
  (fullRangeSound.setVelocityXFade 200 false).setVelocityXFade 200 true

namespace ModulatorSamplerSoundPool

/-- The test the loop of `getSoundIndexFromPool` makes on a live entry: its hash is
`hashCode`, or `otherPossibleHashCode` is not -1 and its hash is that. -/
def hashMatches (hashCode otherPossibleHashCode : Int) (a : StreamingSamplerSound) : Bool :=
  decide (a.hashCode = hashCode) ||
    (decide (otherPossibleHashCode ≠ -1) && decide (a.hashCode = otherPossibleHashCode))

/-- The assets `loadMonolithicData` creates for entry `i` of the sample map, in the order
it creates them: channel 0 for an entry without children, else one per child index. -/
def monolithAssetsOf (env : PoolEnv) (files : List String) (i : ℕ) (sample : ValueTree) :
    List StreamingSamplerSound :=
  if sample.children.length = 0 then [env.monolithAsset files 0 (i : Int)]
  else (List.range sample.children.length).map
    (fun (j : ℕ) => env.monolithAsset files (j : Int) (i : Int))

/-- The assets `loadMonolithicData` creates for the entries of a sample map, numbered from
`i` on, entry after entry. -/
def monolithAssetsFrom (env : PoolEnv) (files : List String) :
    ℕ → List ValueTree → List StreamingSamplerSound
  | _, [] => []
  | i, sample :: rest =>
    monolithAssetsOf env files i sample ++ monolithAssetsFrom env files (i + 1) rest

end ModulatorSamplerSoundPool

/-! ## Conversions of the scripting engine -/

/-- The calls of the C maths library on `double` that the conversions of
`ScriptingApi::Engine` hand their arguments to: `pow` and `log2`. -/
structure DoubleLib where
  pow : ℚ → ℚ → ℚ
  log2 : ℚ → ℚ

/-- A rational stand-in for `pow (2.0, x)` and `log2`, used to run the conversions on
concrete numbers: it agrees with the real functions at the exponents -1, 0 and 1
(`pow (2, -1) = 1/2`, `pow (2, 0) = 1`, `pow (2, 1) = 2`), is strictly increasing, and
its `log2` undoes its `pow (2, .)` everywhere. -/
def DoubleLib.rational : DoubleLib where
  pow := fun _ x => if 0 ≤ x then x + 1 else 1 / (1 - x)
  log2 := fun y => if 1 ≤ y then y - 1 else 1 - 1 / y

namespace ScriptingApi.Engine

/-- `ScriptingApi::Engine::getPitchRatioFromSemitones`:
`return pow (2.0, semiTones / 12.0);`. -/
def getPitchRatioFromSemitones (M : DoubleLib) (semiTones : ℚ) : ℚ :=
  M.pow 2 (semiTones / 12)

/-- `ScriptingApi::Engine::getSemitonesFromPitchRatio`:
`return 1200.0 * log2 (pitchRatio);`. -/
def getSemitonesFromPitchRatio (M : DoubleLib) (pitchRatio : ℚ) : ℚ :=
  1200 * M.log2 pitchRatio

end ScriptingApi.Engine

/-! ## Strings, regular expressions and the selection -/

namespace JuceString

/-- Comparison of two characters, after `toLowerCase` when the case is ignored. -/
def sameChar (ignoreCase : Bool) (a b : Char) : Bool :=
  if ignoreCase then a.toLower == b.toLower else a == b

/-- Whether the characters of `sub` stand at the beginning of `text`
(`CharPointer::compareUpTo (..) == 0`, or its variant that ignores the case). -/
def matchesAt (ignoreCase : Bool) : List Char → List Char → Bool
  | [], _ => true
  | _ :: _, [] => false
  | a :: sub, b :: text => sameChar ignoreCase b a && matchesAt ignoreCase sub text

/-- `String::startsWith`. -/
def startsWith (s other : String) : Bool := matchesAt false other.data s.data

/-- Scan of `String::indexOf` and `String::indexOfIgnoreCase` from position `i` on: the
first position at which `sub` stands; `none` is the result -1. -/
def indexOfLoop (ignoreCase : Bool) (sub : List Char) : List Char → ℕ → Option ℕ
  | [], i => if sub = [] then some i else none
  | c :: text, i =>
    if matchesAt ignoreCase sub (c :: text) then some i
    else indexOfLoop ignoreCase sub text (i + 1)

/-- `String::fromFirstOccurrenceOf`: the part from the first occurrence of `sub` on, with
or without `sub` itself; the empty string if `sub` does not occur. -/
def fromFirstOccurrenceOf (s sub : String) (includeSubString ignoreCase : Bool) : String :=
  match indexOfLoop ignoreCase sub.data s.data 0 with
  | none => ""
  | some i => ⟨s.data.drop (if includeSubString then i else i + sub.data.length)⟩

end JuceString

/-- The text conversions that `getPropertyAsString` hands values to: `String (int)`,
`String (float, decimals)`, `MidiMessage::getMidiNoteName (n, true, true, 3)`,
`BalanceCalculator::getBalanceAsString`, the asset's `getSampleStateAsString` and the
short file name that the asset's `getFileName (false)` makes of its path. -/
structure TextLib where
  intToString : Int → String
  floatToString : ℚ → ℕ → String
  getMidiNoteName : Int → String
  getBalanceAsString : Int → String
  getSampleStateAsString : StreamingSamplerSound → String
  shortFileName : String → String

/-- Modelled from the spec: the asset's `getFileName (getFullPath)`, the stored path or
the short file name made of it. -/
def StreamingSamplerSound.getFileName (T : TextLib) (a : StreamingSamplerSound)
    (getFullPath : Bool) : String :=
  if getFullPath then a.fileName else T.shortFileName a.fileName

/-- `ModulatorSamplerSound::getPropertyAsString`. -/
def ModulatorSamplerSound.getPropertyAsString (L : FloatLib) (T : TextLib)
    (s : ModulatorSamplerSound) (p : Property) : String :=
  match s.soundArray.head? with
  | none => ""
  | some firstSound =>
    match p with
    | .ID => T.intToString s.index
    | .FileName => firstSound.getFileName T false
    | .RootNote => T.getMidiNoteName s.rootNote
    | .KeyHigh => T.getMidiNoteName (BigInteger.getHighestBit s.midiNotes)
    | .KeyLow => T.getMidiNoteName (BigInteger.findNextSetBit s.midiNotes 0)
    | .VeloHigh => T.intToString (BigInteger.getHighestBit s.velocityRange)
    | .VeloLow => T.intToString (BigInteger.findNextSetBit s.velocityRange 0)
    | .RRGroup => T.intToString s.rrGroup
    | .Volume => T.floatToString (L.gainToDecibels s.gain) 1 ++ " dB"
    | .Pan => T.getBalanceAsString s.pan
    | .Normalized => if s.isNormalized then "Enabled" else "Disabled"
    | .Pitch => T.floatToString s.centPitch 0 ++ " ct"
    | .SampleStart => T.intToString firstSound.sampleStart
    | .SampleEnd => T.intToString firstSound.sampleEnd
    | .SampleStartMod => T.intToString firstSound.sampleStartModulation
    | .LoopEnabled => if firstSound.loopEnabled then "Enabled" else "Disabled"
    | .LoopStart => T.intToString firstSound.loopStart
    | .LoopEnd => T.intToString firstSound.loopEnd
    | .LoopXFade => T.intToString firstSound.loopCrossfade
    | .UpperVelocityXFade => T.intToString s.upperVeloXFadeValue
    | .LowerVelocityXFade => T.intToString s.lowerVeloXFadeValue
    | .SampleState => T.getSampleStateAsString firstSound

/-- The constructor of `std::regex` together with `std::regex_search`: a pattern either
is malformed (the constructor throws `std::regex_error`, whose `what ()` is the text) or
gives the test that tells whether a text contains a match. -/
structure RegexLib where
  compile : String → Except String (String → Bool)

/-- A `juce::SelectedItemSet` of sounds: the selected sounds in the order of their
selection, each once. A sound is named by its position in the sampler's list. -/
abbrev SelectedItemSet := List ℕ

namespace SelectedItemSet

/-- `SelectedItemSet::deselectAll`. -/
def deselectAll (_ : SelectedItemSet) : SelectedItemSet := []

/-- `SelectedItemSet::addToSelection`: adds the item unless it is selected already. -/
def addToSelection (set : SelectedItemSet) (item : ℕ) : SelectedItemSet :=
  if item ∈ set then set else set ++ [item]

/-- `SelectedItemSet::deselect`: removes the item if it is selected. -/
def deselect (set : SelectedItemSet) (item : ℕ) : SelectedItemSet := List.erase set item

end SelectedItemSet

/-- Modelled from the spec: the `ModulatorSampler`, as far as the selection needs it: the
list of its sounds, which `SoundIterator` hands out one after the other. -/
structure ModulatorSampler where
  sounds : List ModulatorSamplerSound := []

namespace ModulatorSamplerSound

/-- The `while` loop of `selectSoundsBasedOnRegex` over the sounds the iterator still has
to hand out, each with its position. -/
def selectLoop (L : FloatLib) (T : TextLib) (reg : String → Bool) (subtractMode : Bool) :
    List (ℕ × ModulatorSamplerSound) → SelectedItemSet → SelectedItemSet
  | [], set => set
  | (i, sound) :: rest, set =>
    if reg (sound.getPropertyAsString L T .FileName) then
      if subtractMode then selectLoop L T reg subtractMode rest (set.deselect i)
      else selectLoop L T reg subtractMode rest (set.addToSelection i)
    else selectLoop L T reg subtractMode rest set

/-- `ModulatorSamplerSound::selectSoundsBasedOnRegex`: the selection afterwards and what
`debugError` was given. -/
def selectSoundsBasedOnRegex (L : FloatLib) (T : TextLib) (R : RegexLib)
    (regexWildcard : String) (sampler : ModulatorSampler) (set : SelectedItemSet) :
    SelectedItemSet × List String :=
  let subtractMode := JuceString.startsWith regexWildcard "sub:"
  let addMode := !subtractMode && JuceString.startsWith regexWildcard "add:"
  let wildcard :=
    if subtractMode then JuceString.fromFirstOccurrenceOf regexWildcard "sub:" false true
    else if addMode then JuceString.fromFirstOccurrenceOf regexWildcard "add:" false true
    else regexWildcard
  let set1 := if subtractMode || addMode then set else set.deselectAll
  match R.compile wildcard with
  | .ok reg => (selectLoop L T reg subtractMode sampler.sounds.enum set1, [])
  | .error what => (set1, [what])

end ModulatorSamplerSound

/-- A stand-in for `std::regex` on concrete patterns: the pattern `(` is malformed (an
unbalanced parenthesis), every other pattern is taken as literal text to search for. -/
def exampleRegex : RegexLib where
  compile := fun pattern =>
    if pattern = "(" then .error "regex_error"
    else .ok (fun text => (JuceString.indexOfLoop false pattern.data text.data 0).isSome)

/-- Text conversions for concrete sounds: numbers are not written out, the short file
name is the path itself. -/
def exampleText : TextLib where
  intToString := fun _ => "0"
  floatToString := fun _ _ => "0.0"
  getMidiNoteName := fun _ => "C3"
  getBalanceAsString := fun _ => "C"
  getSampleStateAsString := fun _ => "Normal"
  shortFileName := fun path => path

/-- A sampler with three sounds: `kick.wav`, `snare.wav`, `kick2.wav`. -/
def exampleSampler : ModulatorSampler :=
  { sounds :=
      [ModulatorSamplerSound.new FloatLib.linear { fileName := "kick.wav" } 0,
       ModulatorSamplerSound.new FloatLib.linear { fileName := "snare.wav" } 1,
       ModulatorSamplerSound.new FloatLib.linear { fileName := "kick2.wav" } 2] }

/-- The sounds of the sampler that a compiled pattern matches: the sound at position `j`
belongs to them when its display name (the FileName property as text) contains a match. -/
def ModulatorSampler.matched (L : FloatLib) (T : TextLib) (reg : String → Bool)
    (sampler : ModulatorSampler) (j : ℕ) : Prop :=
  ∃ sound : ModulatorSamplerSound, sampler.sounds.get? j = some sound ∧
    reg (sound.getPropertyAsString L T .FileName) = true

/-! ## Threads and the voice-killing path -/

/-- The threads of the engine: the render (audio) thread, the sample loading thread, and
the message and scripting threads that issue property writes. -/
inductive ThreadId where
  | audioThread
  | sampleLoadingThread
  | messageThread
  | scriptingThread
deriving DecidableEq, Repr

/-- One run of `setPropertyInternal` as the render thread could meet it: what was written,
on which thread the write ran, and whether a voice was still sounding while it ran. -/
structure WriteRecord where
  property : Property
  value : Int
  thread : ThreadId
  voicesActive : Bool
deriving DecidableEq

/-- The engine around one sound: the sound, the thread that is running the current code,
whether a voice is sounding, the writes done so far and the events sent so far. -/
structure Engine where
  sound : ModulatorSamplerSound
  currentThread : ThreadId := .messageThread
  voicesActive : Bool := false
  writes : List WriteRecord := []
  events : List Event := []
deriving DecidableEq

namespace Engine

/-- Modelled from the spec: `KillStateHandler::killVoicesAndCall (chain, f, target)`, the
voice-suspension service `suspendVoicesAndRun (unitOfWork, targetContext)`: every active
voice is suspended, the unit of work runs on the target thread, then playback resumes
and the caller goes on. -/
def killVoicesAndCall (f : Engine → Engine) (targetThread : ThreadId) (e : Engine) : Engine :=
  let e1 := f { e with
    voicesActive := false
    currentThread := targetThread
    events := e.events ++ [Event.killVoicesAndCall] }
  { e1 with voicesActive := e.voicesActive, currentThread := e.currentThread }

/-- Modelled from the spec: `ModulatorSampler::killAllVoicesAndCall (f)`: the function
runs on the sample loading thread once no voice of the sampler is sounding. -/
def killAllVoicesAndCall (f : Engine → Engine) (e : Engine) : Engine :=
  let e1 := f { e with
    voicesActive := false
    currentThread := .sampleLoadingThread
    events := e.events ++ [Event.killAllVoicesAndCall] }
  { e1 with voicesActive := e.voicesActive, currentThread := e.currentThread }

/-- `ModulatorSamplerSound::setPropertyInternal`, run inside the engine: the write is
recorded with the thread it runs on and with whether a voice is sounding. -/
def setPropertyInternal (L : FloatLib) (p : Property) (newValue : Int) (e : Engine) : Engine :=
  { e with
    sound := e.sound.setPropertyInternal L p newValue
    writes := e.writes ++ [⟨p, newValue, e.currentThread, e.voicesActive⟩] }

/-- `sendChangeMessage ()`. -/
def sendChangeMessage (e : Engine) : Engine :=
  { e with events := e.events ++ [Event.changeMessage] }

/-- `ModulatorSamplerSound::setPreloadPropertyInternal`, run inside the engine: the lambda
that calls `setPropertyInternal` is handed to the first sampler's `killAllVoicesAndCall`. -/
def setPreloadPropertyInternal (L : FloatLib) (p : Property) (newValue : Int) (e : Engine) :
    Engine :=
  killAllVoicesAndCall (setPropertyInternal L p newValue) e

/-- `ModulatorSamplerSound::setProperty`, run inside the engine. In the asynchronous
branch the lambda (which holds a counted reference to the sound, so its null test
succeeds) is handed to `killVoicesAndCall` with `SampleLoadingThread` as target. -/
def setProperty (L : FloatLib) (p : Property) (newValue : Int) (notifyEditor : Bool)
    (e : Engine) : Engine :=
  if e.sound.enableAsyncPropertyChange ∧ ModulatorSamplerSound.isAsyncProperty p then
    killVoicesAndCall
      (fun e1 =>
        let e2 := setPreloadPropertyInternal L p newValue e1
        if notifyEditor then e2.sendChangeMessage else e2)
      .sampleLoadingThread e
  else
    let e1 := setPropertyInternal L p newValue e
    if notifyEditor then e1.sendChangeMessage else e1

end Engine

/-! ## Script callbacks -/

/-- A `JavascriptProcessor::SnippetDocument`: the code document of one callback. `content`
is what `getAllContent ()` returns; `isActive` is the flag `checkIfScriptActive` sets. -/
structure SnippetDocument where
  callbackName : String
  parameters : List String := []
  emptyText : String := ""
  content : String := ""
  isActive : Bool := false
deriving DecidableEq

namespace SnippetDocument

/-- Loop of `StringArray::addTokens` with the blank as only break character: `token` holds
the characters of the token being read. -/
def addTokens : List Char → List Char → List String
  | [], token => [⟨token⟩]
  | c :: rest, token =>
    if c = ' ' then ⟨token⟩ :: addTokens rest [] else addTokens rest (token ++ [c])

/-- `StringArray::fromTokens (text, " ", "")`: no token for the empty text. -/
def fromTokens (text : String) : List String :=
  if text.data = [] then [] else addTokens text.data []

/-- The loop of the constructor that writes the parameters, separated by `", "`. -/
def writeParameters : List String → String
  | [] => ""
  | [parameter] => parameter
  | parameter :: rest => parameter ++ ", " ++ writeParameters rest

/-- The constructor `SnippetDocument (callbackName, parameters)`: every callback but
`onInit` gets the text of an empty function as its empty text; the document starts with
that text. -/
def new (callbackName parameters_ : String) : SnippetDocument :=
  let parameters := fromTokens parameters_
  let emptyText :=
    if callbackName ≠ "onInit" then
      "function " ++ callbackName ++ "(" ++ writeParameters parameters ++ ")\n" ++ "\x7b\n"
        ++ "\t\n" ++ "\x7d\n"
    else ""
  { callbackName := callbackName, parameters := parameters, emptyText := emptyText,
    content := emptyText, isActive := false }

/-- The marker `"function " + callbackName + "("` that `parseSnippetsFromString` looks
for. -/
def filter (s : SnippetDocument) : String := "function " ++ s.callbackName ++ "("

end SnippetDocument

namespace JavascriptProcessor

end JavascriptProcessor

namespace BigInteger

theorem testBit_setBit (b : ℕ) (i : Int) (k : ℕ) :
    (setBit b i).testBit k = (b.testBit k || decide (i = (k : Int))) := by
  unfold setBit
  split
  · rename_i h
    rw [Nat.testBit_or, Nat.one_shiftLeft, Nat.testBit_two_pow]
    congr 1
    simp only [decide_eq_decide]
    omega
  · rename_i h
    have : ¬ i = (k : Int) := by omega
    simp [this]

theorem testBit_setRangeLoop (n : ℕ) (b : ℕ) (s : Int) (k : ℕ) :
    (setRangeLoop true n b s).testBit k
      = (b.testBit k || decide (s ≤ (k : Int) ∧ (k : Int) < s + n)) := by
  induction n generalizing b s with
  | zero =>
    have : ¬ (s ≤ (k : Int) ∧ (k : Int) < s + (0 : ℕ)) := by omega
    simp [setRangeLoop, this]
  | succ n ih =>
    rw [setRangeLoop, ih]
    simp only [setBitTo, if_true, testBit_setBit, Bool.or_assoc]
    congr 1
    rw [← Bool.decide_or, decide_eq_decide]
    push_cast
    omega

theorem testBit_setRange_clear (s n : Int) (k : ℕ) :
    (setRange clear s n true).testBit k = decide (s ≤ (k : Int) ∧ (k : Int) < s + n) := by
  unfold setRange clear
  rw [testBit_setRangeLoop]
  simp only [Nat.zero_testBit, Bool.false_or, decide_eq_decide]
  omega

theorem numBitsLoop_spec (fuel v : ℕ) (h : v ≤ fuel) :
    v < 2 ^ numBitsLoop fuel v ∧ (v ≠ 0 → 2 ^ (numBitsLoop fuel v - 1) ≤ v) := by
  induction fuel generalizing v with
  | zero =>
    have : v = 0 := by omega
    subst this
    simp [numBitsLoop]
  | succ f ih =>
    unfold numBitsLoop
    by_cases hv : v = 0
    · simp [hv]
    · simp only [hv, if_false]
      have h2 : v / 2 ≤ f := by omega
      obtain ⟨h3, h4⟩ := ih (v / 2) h2
      constructor
      · rw [pow_succ]; omega
      · intro _
        simp only [Nat.add_sub_cancel]
        by_cases hv2 : v / 2 = 0
        · have : numBitsLoop f (v / 2) = 0 := by
            cases f <;> simp [numBitsLoop, hv2]
          rw [this]; simp; omega
        · have h5 := h4 hv2
          have h6 : 0 < numBitsLoop f (v / 2) := by
            by_contra hc
            have : numBitsLoop f (v / 2) = 0 := by omega
            rw [this] at h3
            simp at h3
            exact hv2 h3
          have : numBitsLoop f (v / 2) = (numBitsLoop f (v / 2) - 1) + 1 := by omega
          rw [this, pow_succ]
          omega

theorem getHighestBit_zero : getHighestBit 0 = -1 := by decide

theorem le_getHighestBit (b k : ℕ) (h : b.testBit k = true) : (k : Int) ≤ getHighestBit b := by
  unfold getHighestBit
  have h1 := (numBitsLoop_spec b b le_rfl).1
  have h2 := Nat.testBit_implies_ge h
  have h3 : 2 ^ k < 2 ^ numBitsLoop b b := lt_of_le_of_lt h2 h1
  have h4 : k < numBitsLoop b b := (Nat.pow_lt_pow_iff_right (by norm_num)).1 h3
  omega

theorem testBit_getHighestBit (b : ℕ) (h : b ≠ 0) :
    0 ≤ getHighestBit b ∧ b.testBit (getHighestBit b).toNat = true := by
  unfold getHighestBit
  obtain ⟨h1, h2⟩ := numBitsLoop_spec b b le_rfl
  have h3 := h2 h
  have hpos : 0 < numBitsLoop b b := by
    by_contra hc
    have : numBitsLoop b b = 0 := by omega
    rw [this] at h1
    simp at h1
    exact h h1
  refine ⟨by omega, ?_⟩
  have e : ((numBitsLoop b b : Int) - 1).toNat = numBitsLoop b b - 1 := by omega
  rw [e, Nat.testBit_to_div_mod]
  have h4 : b / 2 ^ (numBitsLoop b b - 1) = 1 := by
    apply Nat.div_eq_of_lt_le
    · simpa using h3
    · have : numBitsLoop b b = (numBitsLoop b b - 1) + 1 := by omega
      rw [this, pow_succ] at h1
      omega
  simp [h4]

theorem getHighestBit_eq (b m : ℕ) (hm : b.testBit m = true)
    (hmax : ∀ k, b.testBit k = true → k ≤ m) : getHighestBit b = (m : Int) := by
  have hb : b ≠ 0 := by
    rintro rfl
    simp at hm
  obtain ⟨h0, h1⟩ := testBit_getHighestBit b hb
  have h2 := le_getHighestBit b m hm
  have h3 := hmax _ h1
  omega

theorem findNextSetBitLoop_eq (b : ℕ) (fuel i m : ℕ) (hm : b.testBit m = true)
    (him : i ≤ m) (hfuel : m < i + fuel) (hmin : ∀ k, i ≤ k → b.testBit k = true → m ≤ k) :
    findNextSetBitLoop b fuel i = (m : Int) := by
  induction fuel generalizing i with
  | zero => omega
  | succ f ih =>
    unfold findNextSetBitLoop
    by_cases hi : b.testBit i = true
    · have h1 := hmin i le_rfl hi
      have h2 : i = m := by omega
      rw [if_pos hi, h2]
    · simp only [hi]
      have hne : i ≠ m := by
        rintro rfl
        exact hi hm
      exact ih (i + 1) (by omega) (by omega) (fun k hk hb => hmin k (by omega) hb)

theorem findNextSetBitLoop_none (b : ℕ) (fuel i : ℕ)
    (hnone : ∀ k, i ≤ k → b.testBit k = false) : findNextSetBitLoop b fuel i = -1 := by
  induction fuel generalizing i with
  | zero => rfl
  | succ f ih =>
    unfold findNextSetBitLoop
    simp only [hnone i le_rfl]
    exact ih (i + 1) (fun k hk => hnone k (by omega))

theorem findNextSetBit_zero_eq (b m : ℕ) (hm : b.testBit m = true)
    (hmin : ∀ k, b.testBit k = true → m ≤ k) : findNextSetBit b 0 = (m : Int) := by
  unfold findNextSetBit
  have h := le_getHighestBit b m hm
  apply findNextSetBitLoop_eq b _ 0 m hm (Nat.zero_le _) (by omega) (fun k _ hb => hmin k hb)

theorem findNextSetBit_zero_empty : findNextSetBit 0 0 = -1 := by decide

theorem exists_first_bit (b : ℕ) (h : b ≠ 0) :
    ∃ m : ℕ, b.testBit m = true ∧ (∀ k, b.testBit k = true → m ≤ k) ∧
      findNextSetBit b 0 = (m : Int) := by
  classical
  have hex := Nat.ne_zero_implies_bit_true h
  refine ⟨Nat.find hex, Nat.find_spec hex, fun k hk => Nat.find_min' hex hk, ?_⟩
  exact findNextSetBit_zero_eq b _ (Nat.find_spec hex) (fun k hk => Nat.find_min' hex hk)

theorem ne_zero_of_testBit (b k : ℕ) (h : b.testBit k = true) : b ≠ 0 := by
  rintro rfl
  simp at h

end BigInteger

open BigInteger ModulatorSamplerSound

/-! ### Key and velocity ranges (C1, C2) -/

theorem BigInteger.setRange_clear_bounds (lo hi : Int) (h0 : 0 ≤ hi) (hle : lo ≤ hi) :
    setRange clear lo (hi - lo + 1) true ≠ 0 ∧
      findNextSetBit (setRange clear lo (hi - lo + 1) true) 0 = max lo 0 ∧
      getHighestBit (setRange clear lo (hi - lo + 1) true) = hi := by
  have hbit : ∀ k : ℕ, (setRange clear lo (hi - lo + 1) true).testBit k = true ↔
      (lo ≤ (k : Int) ∧ (k : Int) ≤ hi) := by
    intro k
    rw [testBit_setRange_clear, decide_eq_true_eq]
    omega
  have hhi : (setRange clear lo (hi - lo + 1) true).testBit hi.toNat = true :=
    (hbit _).2 (by omega)
  have hlo : (setRange clear lo (hi - lo + 1) true).testBit (max lo 0).toNat = true :=
    (hbit _).2 (by omega)
  refine ⟨ne_zero_of_testBit _ _ hhi, ?_, ?_⟩
  · rw [findNextSetBit_zero_eq _ _ hlo (fun k hk => by have := (hbit k).1 hk; omega)]
    omega
  · rw [getHighestBit_eq _ _ hhi (fun k hk => by have := (hbit k).1 hk; omega)]
    omega

theorem BigInteger.isRange_setRange (lo hi : Int) (h0 : 0 ≤ lo) (hle : lo ≤ hi) :
    IsRange (setRange clear lo (hi - lo + 1) true) lo hi := by
  obtain ⟨_, h2, h3⟩ := setRange_clear_bounds lo hi (by omega) hle
  refine ⟨fun k => ?_, by rw [h2]; omega, h3⟩
  rw [testBit_setRange_clear, decide_eq_true_eq]
  omega

theorem BigInteger.setRange_clear_empty (lo n : Int) (h : lo + n ≤ 0 ∨ n ≤ 0) :
    setRange clear lo n true = 0 := by
  apply Nat.eq_of_testBit_eq
  intro k
  rw [testBit_setRange_clear, Nat.zero_testBit, decide_eq_false_iff_not]
  omega

theorem BigInteger.first_bit_nonneg (b : ℕ) (h : b ≠ 0) :
    0 ≤ findNextSetBit b 0 ∧ findNextSetBit b 0 ≤ getHighestBit b := by
  obtain ⟨m, hm, _, he⟩ := exists_first_bit b h
  rw [he]
  exact ⟨by omega, le_getHighestBit b m hm⟩

theorem ModulatorSamplerSound.setProperty_fst (L : FloatLib) (s : ModulatorSamplerSound)
    (p : Property) (v : Int) (notify : Bool) :
    (s.setProperty L p v notify).1 = s.setPropertyInternal L p v := by
  unfold setProperty setPreloadPropertyInternal
  split <;> rfl

theorem int32_of_fits (x : Int) (h0 : INT_MIN ≤ x) (h1 : x ≤ INT_MAX) : int32 x = x := by
  unfold int32
  unfold INT_MIN at h0
  unfold INT_MAX at h1
  omega

/-- C1 (amended): for every state of a sound, every `int` `l` written with setProperty to
KeyLow or VeloLow and every `int` `h >= 0` written to KeyHigh or VeloHigh such that no
`int` of the write overflows (the written value and the bit count handed to setRange,
`high - l + 1` resp. `h - low + 1`, stay below `INT_MAX`), the range that was written is
the one the 32-bit computation gives, it is non-empty, and its low bound (first set bit)
is at least 0 and at most its high bound (highest set bit). -/
theorem setProperty_range_nonempty (L : FloatLib) (s : ModulatorSamplerSound) (l h : Int)
    (notify : Bool) (hh : 0 ≤ h)
    (hkl : lowWriteFits s.midiNotes l) (hvl : lowWriteFits s.velocityRange l)
    (hkh : highWriteFits s.midiNotes h) (hvh : highWriteFits s.velocityRange h) :
    ((s.setProperty L .KeyLow l notify).1.midiNotes
        = setRange clear l (int32 (jmax3 (getHighestBit s.midiNotes) l 0 - l + 1)) true ∧
      (s.setProperty L .KeyLow l notify).1.midiNotes ≠ 0 ∧
      0 ≤ findNextSetBit (s.setProperty L .KeyLow l notify).1.midiNotes 0 ∧
      findNextSetBit (s.setProperty L .KeyLow l notify).1.midiNotes 0
        ≤ getHighestBit (s.setProperty L .KeyLow l notify).1.midiNotes) ∧
    ((s.setProperty L .VeloLow l notify).1.velocityRange
        = setRange clear l (int32 (jmax3 (getHighestBit s.velocityRange) l 0 - l + 1)) true ∧
      (s.setProperty L .VeloLow l notify).1.velocityRange ≠ 0 ∧
      0 ≤ findNextSetBit (s.setProperty L .VeloLow l notify).1.velocityRange 0 ∧
      findNextSetBit (s.setProperty L .VeloLow l notify).1.velocityRange 0
        ≤ getHighestBit (s.setProperty L .VeloLow l notify).1.velocityRange) ∧
    ((s.setProperty L .KeyHigh h notify).1.midiNotes
        = setRange clear (jmin3 (findNextSetBit s.midiNotes 0) h 127)
            (int32 (h - jmin3 (findNextSetBit s.midiNotes 0) h 127 + 1)) true ∧
      (s.setProperty L .KeyHigh h notify).1.midiNotes ≠ 0 ∧
      0 ≤ findNextSetBit (s.setProperty L .KeyHigh h notify).1.midiNotes 0 ∧
      findNextSetBit (s.setProperty L .KeyHigh h notify).1.midiNotes 0
        ≤ getHighestBit (s.setProperty L .KeyHigh h notify).1.midiNotes) ∧
    ((s.setProperty L .VeloHigh h notify).1.velocityRange
        = setRange clear (jmin3 (findNextSetBit s.velocityRange 0) h 127)
            (int32 (h - jmin3 (findNextSetBit s.velocityRange 0) h 127 + 1)) true ∧
      (s.setProperty L .VeloHigh h notify).1.velocityRange ≠ 0 ∧
      0 ≤ findNextSetBit (s.setProperty L .VeloHigh h notify).1.velocityRange 0 ∧
      findNextSetBit (s.setProperty L .VeloHigh h notify).1.velocityRange 0
        ≤ getHighestBit (s.setProperty L .VeloHigh h notify).1.velocityRange) := by
  have ekl : int32 (jmax3 (getHighestBit s.midiNotes) l 0 - l + 1)
      = jmax3 (getHighestBit s.midiNotes) l 0 - l + 1 :=
    int32_of_fits _ (by unfold jmax3 INT_MIN; omega) hkl.2.2.2
  have evl : int32 (jmax3 (getHighestBit s.velocityRange) l 0 - l + 1)
      = jmax3 (getHighestBit s.velocityRange) l 0 - l + 1 :=
    int32_of_fits _ (by unfold jmax3 INT_MIN; omega) hvl.2.2.2
  have ekh : int32 (h - jmin3 (findNextSetBit s.midiNotes 0) h 127 + 1)
      = h - jmin3 (findNextSetBit s.midiNotes 0) h 127 + 1 :=
    int32_of_fits _ (by unfold jmin3 INT_MIN; omega) hkh.2.2
  have evh : int32 (h - jmin3 (findNextSetBit s.velocityRange 0) h 127 + 1)
      = h - jmin3 (findNextSetBit s.velocityRange 0) h 127 + 1 :=
    int32_of_fits _ (by unfold jmin3 INT_MIN; omega) hvh.2.2
  rw [ekl, evl, ekh, evh]
  simp only [setProperty_fst, setPropertyInternal]
  refine ⟨?_, ?_, ?_, ?_⟩
  · obtain ⟨h1, _, _⟩ := setRange_clear_bounds l (jmax3 (getHighestBit s.midiNotes) l 0)
      (by unfold jmax3; omega) (by unfold jmax3; omega)
    exact ⟨trivial, h1, first_bit_nonneg _ h1⟩
  · obtain ⟨h1, _, _⟩ := setRange_clear_bounds l (jmax3 (getHighestBit s.velocityRange) l 0)
      (by unfold jmax3; omega) (by unfold jmax3; omega)
    exact ⟨trivial, h1, first_bit_nonneg _ h1⟩
  · obtain ⟨h1, _, _⟩ := setRange_clear_bounds (jmin3 (findNextSetBit s.midiNotes 0) h 127) h
      hh (by unfold jmin3; omega)
    exact ⟨trivial, h1, first_bit_nonneg _ h1⟩
  · obtain ⟨h1, _, _⟩ := setRange_clear_bounds (jmin3 (findNextSetBit s.velocityRange 0) h 127) h
      hh (by unfold jmin3; omega)
    exact ⟨trivial, h1, first_bit_nonneg _ h1⟩

set_option maxRecDepth 100000 in
theorem setProperty_range_nonempty_witness :
    (0 : Int) ≤ 60 ∧
      lowWriteFits fullRangeSound.midiNotes (-7) ∧
      lowWriteFits fullRangeSound.velocityRange (-7) ∧
      highWriteFits fullRangeSound.midiNotes 60 ∧
      highWriteFits fullRangeSound.velocityRange 60 ∧
      (fullRangeSound.setProperty FloatLib.linear .KeyHigh 60 true).1.midiNotes ≠ 0 ∧
      (fullRangeSound.setProperty FloatLib.linear .VeloLow (-7) true).1.velocityRange ≠ 0 :=
  ⟨by decide, by decide, by decide, by decide, by decide,
    (setProperty_range_nonempty FloatLib.linear fullRangeSound (-7) 60 true (by decide)
      (by decide) (by decide) (by decide) (by decide)).2.2.1.2.1,
    (setProperty_range_nonempty FloatLib.linear fullRangeSound (-7) 60 true (by decide)
      (by decide) (by decide) (by decide) (by decide)).2.1.2.1⟩

set_option maxRecDepth 100000 in
/-- C1 (as stated) fails: on the sound mapped to velocities `[0, 127]`, writing
VeloHigh = -1 with setProperty leaves no velocity at all in the range (no bit is set,
first and highest set bit are both reported as -1); writing KeyHigh = -1 does the same
to the key range. At the ends of the `int` range the bit count overflows: for
VeloLow = INT_MIN the 32-bit count `127 - INT_MIN + 1` is -2147483520, for
KeyHigh = INT_MAX the 32-bit count `INT_MAX - 0 + 1` is INT_MIN, and setRange with a
negative count sets no bit. -/
theorem setProperty_range_nonempty_counterexample :
    fullRangeSound.velocityRange ≠ 0 ∧
    (fullRangeSound.setProperty FloatLib.linear .VeloHigh (-1) true).1.velocityRange = 0 ∧
    findNextSetBit
      (fullRangeSound.setProperty FloatLib.linear .VeloHigh (-1) true).1.velocityRange 0 = -1 ∧
    getHighestBit
      (fullRangeSound.setProperty FloatLib.linear .VeloHigh (-1) true).1.velocityRange = -1 ∧
    (fullRangeSound.setProperty FloatLib.linear .KeyHigh (-1) true).1.midiNotes = 0 ∧
    ¬ lowWriteFits fullRangeSound.velocityRange INT_MIN ∧
    int32 (jmax3 (getHighestBit fullRangeSound.velocityRange) INT_MIN 0 - INT_MIN + 1)
      = -2147483520 ∧
    setRange clear INT_MIN
      (int32 (jmax3 (getHighestBit fullRangeSound.velocityRange) INT_MIN 0 - INT_MIN + 1))
      true = 0 ∧
    ¬ highWriteFits fullRangeSound.midiNotes INT_MAX ∧
    int32 (INT_MAX - jmin3 (findNextSetBit fullRangeSound.midiNotes 0) INT_MAX 127 + 1)
      = INT_MIN ∧
    setRange clear (jmin3 (findNextSetBit fullRangeSound.midiNotes 0) INT_MAX 127)
      (int32 (INT_MAX - jmin3 (findNextSetBit fullRangeSound.midiNotes 0) INT_MAX 127 + 1))
      true = 0 := by
  decide

/-- C2: for a sound with a (non-empty) key range whose first set bit is `lo` and highest
set bit is `hi`, writing KeyHigh = h with 0 <= h <= 127 yields exactly the range
`[min lo h, h]` and writing KeyLow = l with 0 <= l <= 127 yields exactly
`[l, max hi l]`; the same holds for VeloHigh and VeloLow on the velocity range. -/
theorem setProperty_bound_moves_opposite (L : FloatLib) (s : ModulatorSamplerSound)
    (l h : Int) (notify : Bool) (hkey : s.midiNotes ≠ 0) (hvel : s.velocityRange ≠ 0)
    (hl : 0 ≤ l ∧ l ≤ 127) (hh : 0 ≤ h ∧ h ≤ 127) :
    IsRange (s.setProperty L .KeyHigh h notify).1.midiNotes
      (min (findNextSetBit s.midiNotes 0) h) h ∧
    IsRange (s.setProperty L .KeyLow l notify).1.midiNotes
      l (max (getHighestBit s.midiNotes) l) ∧
    IsRange (s.setProperty L .VeloHigh h notify).1.velocityRange
      (min (findNextSetBit s.velocityRange 0) h) h ∧
    IsRange (s.setProperty L .VeloLow l notify).1.velocityRange
      l (max (getHighestBit s.velocityRange) l) := by
  simp only [setProperty_fst, setPropertyInternal]
  have hk := first_bit_nonneg _ hkey
  have hv := first_bit_nonneg _ hvel
  have e1 : jmin3 (findNextSetBit s.midiNotes 0) h 127 = min (findNextSetBit s.midiNotes 0) h := by
    unfold jmin3; omega
  have e2 : jmax3 (getHighestBit s.midiNotes) l 0 = max (getHighestBit s.midiNotes) l := by
    unfold jmax3; omega
  have e3 : jmin3 (findNextSetBit s.velocityRange 0) h 127
      = min (findNextSetBit s.velocityRange 0) h := by
    unfold jmin3; omega
  have e4 : jmax3 (getHighestBit s.velocityRange) l 0 = max (getHighestBit s.velocityRange) l := by
    unfold jmax3; omega
  rw [e1, e2, e3, e4]
  exact ⟨isRange_setRange _ _ (by omega) (by omega), isRange_setRange _ _ (by omega) (by omega),
    isRange_setRange _ _ (by omega) (by omega), isRange_setRange _ _ (by omega) (by omega)⟩

set_option maxRecDepth 100000 in
theorem setProperty_bound_moves_opposite_witness :
    fullRangeSound.midiNotes ≠ 0 ∧ fullRangeSound.velocityRange ≠ 0 ∧
      ((0 : Int) ≤ 72 ∧ (72 : Int) ≤ 127) ∧ ((0 : Int) ≤ 60 ∧ (60 : Int) ≤ 127) ∧
      IsRange (fullRangeSound.setProperty FloatLib.linear .KeyHigh 60 false).1.midiNotes
        (min (findNextSetBit fullRangeSound.midiNotes 0) 60) 60 :=
  ⟨by decide, by decide, by decide, by decide,
    (setProperty_bound_moves_opposite FloatLib.linear fullRangeSound 72 60 false
      (by decide) (by decide) (by decide) (by decide)).1⟩

/-! ### Velocity crossfade gain (C4 to C7) -/

theorem ModulatorSamplerSound.gain_top_ramp (s : ModulatorSamplerSound) (v : Int)
    (hv : getHighestBit s.velocityRange - s.upperVeloXFadeValue ≤ v ∧
      v < getHighestBit s.velocityRange) :
    s.getGainValueForVelocityXFade v
      = 1 - ((v - (getHighestBit s.velocityRange - s.upperVeloXFadeValue) : Int) : ℚ)
          / (s.upperVeloXFadeValue : ℚ) := by
  have hu : s.upperVeloXFadeValue ≠ 0 := by omega
  have hmax : max (getHighestBit s.velocityRange - s.upperVeloXFadeValue)
      (getHighestBit s.velocityRange) = getHighestBit s.velocityRange := by omega
  unfold getGainValueForVelocityXFade
  rw [if_neg (fun h => hu h.1)]
  simp only [Range.new, Range.contains, Range.getStart, Range.getLength, hmax,
    interpolateLinear]
  rw [if_pos (by simp [hv.1, hv.2])]
  have e : getHighestBit s.velocityRange
      - (getHighestBit s.velocityRange - s.upperVeloXFadeValue) = s.upperVeloXFadeValue := by
    omega
  rw [e]
  ring

theorem ModulatorSamplerSound.gain_outside_top (s : ModulatorSamplerSound) (v : Int)
    (hv : ¬ (getHighestBit s.velocityRange - s.upperVeloXFadeValue ≤ v ∧
      v < getHighestBit s.velocityRange)) :
    (Range.new (getHighestBit s.velocityRange - s.upperVeloXFadeValue)
      (getHighestBit s.velocityRange)).contains v = false := by
  simp only [Range.new, Range.contains, Bool.and_eq_false_imp, decide_eq_true_eq,
    decide_eq_false_iff_not]
  intro h1
  omega

theorem ModulatorSamplerSound.gain_bottom_ramp (s : ModulatorSamplerSound) (v : Int)
    (htop : ¬ (getHighestBit s.velocityRange - s.upperVeloXFadeValue ≤ v ∧
      v < getHighestBit s.velocityRange))
    (hv : findNextSetBit s.velocityRange 0 ≤ v ∧
      v < findNextSetBit s.velocityRange 0 + s.lowerVeloXFadeValue) :
    s.getGainValueForVelocityXFade v
      = ((v - findNextSetBit s.velocityRange 0 : Int) : ℚ) / (s.lowerVeloXFadeValue : ℚ) := by
  have hd : s.lowerVeloXFadeValue ≠ 0 := by omega
  have hmax : max (findNextSetBit s.velocityRange 0)
      (findNextSetBit s.velocityRange 0 + s.lowerVeloXFadeValue)
      = findNextSetBit s.velocityRange 0 + s.lowerVeloXFadeValue := by omega
  unfold getGainValueForVelocityXFade
  rw [if_neg (fun h => hd h.2)]
  simp only [gain_outside_top s v htop]
  simp only [Range.new, Range.contains, Range.getStart, Range.getLength, hmax,
    interpolateLinear]
  rw [if_neg (by simp), if_pos (by simp [hv.1, hv.2])]
  have e : findNextSetBit s.velocityRange 0 + s.lowerVeloXFadeValue
      - findNextSetBit s.velocityRange 0 = s.lowerVeloXFadeValue := by omega
  rw [e]
  ring

theorem ModulatorSamplerSound.gain_outside_both (s : ModulatorSamplerSound) (v : Int)
    (htop : ¬ (getHighestBit s.velocityRange - s.upperVeloXFadeValue ≤ v ∧
      v < getHighestBit s.velocityRange))
    (hbot : ¬ (findNextSetBit s.velocityRange 0 ≤ v ∧
      v < findNextSetBit s.velocityRange 0 + s.lowerVeloXFadeValue)) :
    s.getGainValueForVelocityXFade v = 1 := by
  unfold getGainValueForVelocityXFade
  split
  · rfl
  · simp only [gain_outside_top s v htop]
    have : (Range.new (findNextSetBit s.velocityRange 0)
        (findNextSetBit s.velocityRange 0 + s.lowerVeloXFadeValue)).contains v = false := by
      simp only [Range.new, Range.contains, Bool.and_eq_false_imp, decide_eq_true_eq,
        decide_eq_false_iff_not]
      intro h1
      omega
    simp [this]

set_option maxRecDepth 100000 in
theorem upperFadeSound_facts :
    getHighestBit upperFadeSound.velocityRange = 127 ∧
    findNextSetBit upperFadeSound.velocityRange 0 = 0 ∧
    upperFadeSound.upperVeloXFadeValue = 10 ∧ upperFadeSound.lowerVeloXFadeValue = 0 := by
  decide

set_option maxRecDepth 100000 in
theorem lowerFadeSound_facts :
    getHighestBit lowerFadeSound.velocityRange = 127 ∧
    findNextSetBit lowerFadeSound.velocityRange 0 = 0 ∧
    lowerFadeSound.upperVeloXFadeValue = 0 ∧ lowerFadeSound.lowerVeloXFadeValue = 5 := by
  decide

set_option maxRecDepth 100000 in
theorem bothFadeSound_facts :
    getHighestBit bothFadeSound.velocityRange = 127 ∧
    findNextSetBit bothFadeSound.velocityRange 0 = 0 ∧
    bothFadeSound.upperVeloXFadeValue = 10 ∧ bothFadeSound.lowerVeloXFadeValue = 5 := by
  decide

/-- C4 (the code at the failing input): on the sound with velocity range `[0, 127]` and
upper fade length 10 the gain follows the falling ramp inside the zone (1/2 at velocity
122, 1/10 at velocity 126) but at the top end of the zone, velocity 127 = highBit, the
gain is 1 and not the 0 the ramp reaches there. -/
theorem gain_at_highest_velocity :
    upperFadeSound.getGainValueForVelocityXFade 122 = 1 / 2 ∧
    upperFadeSound.getGainValueForVelocityXFade 126 = 1 / 10 ∧
    upperFadeSound.getGainValueForVelocityXFade 127 = 1 := by
  obtain ⟨h1, h2, h3, h4⟩ := upperFadeSound_facts
  refine ⟨?_, ?_, ?_⟩
  · rw [gain_top_ramp _ _ (by rw [h1, h3]; omega), h1, h3]
    norm_num
  · rw [gain_top_ramp _ _ (by rw [h1, h3]; omega), h1, h3]
    norm_num
  · exact gain_outside_both _ _ (by rw [h1, h3]; omega) (by rw [h2, h4]; omega)

/-- C5: for a sound with lower fade length `d > 0` whose bottom zone
`[lowBit, lowBit + d]` shares no velocity with its top zone
`[highBit - upperFade, highBit]`, the gain at every velocity `v` of the bottom zone, both
ends included, is the rising ramp `(v - lowBit) / d`. -/
theorem gain_bottom_zone (s : ModulatorSamplerSound) (v : Int)
    (hd : 0 < s.lowerVeloXFadeValue)
    (hdisjoint : ∀ w : Int,
      ¬ ((getHighestBit s.velocityRange - s.upperVeloXFadeValue ≤ w ∧
            w ≤ getHighestBit s.velocityRange) ∧
          (findNextSetBit s.velocityRange 0 ≤ w ∧
            w ≤ findNextSetBit s.velocityRange 0 + s.lowerVeloXFadeValue)))
    (hv : findNextSetBit s.velocityRange 0 ≤ v ∧
      v ≤ findNextSetBit s.velocityRange 0 + s.lowerVeloXFadeValue) :
    s.getGainValueForVelocityXFade v
      = ((v - findNextSetBit s.velocityRange 0 : Int) : ℚ) / (s.lowerVeloXFadeValue : ℚ) := by
  have htop : ¬ (getHighestBit s.velocityRange - s.upperVeloXFadeValue ≤ v ∧
      v < getHighestBit s.velocityRange) := by
    intro h
    exact hdisjoint v ⟨⟨h.1, by omega⟩, hv⟩
  by_cases hlt : v < findNextSetBit s.velocityRange 0 + s.lowerVeloXFadeValue
  · exact gain_bottom_ramp s v htop ⟨hv.1, hlt⟩
  · have hveq : v = findNextSetBit s.velocityRange 0 + s.lowerVeloXFadeValue := by omega
    rw [gain_outside_both s v htop (by omega), hveq]
    have hne : (s.lowerVeloXFadeValue : ℚ) ≠ 0 := by
      exact_mod_cast (ne_of_gt hd)
    rw [add_sub_cancel_left, div_self hne]

theorem gain_bottom_zone_witness :
    0 < lowerFadeSound.lowerVeloXFadeValue ∧
      (findNextSetBit lowerFadeSound.velocityRange 0 ≤ 3 ∧
        3 ≤ findNextSetBit lowerFadeSound.velocityRange 0
          + lowerFadeSound.lowerVeloXFadeValue) ∧
      lowerFadeSound.getGainValueForVelocityXFade 3 = 3 / 5 := by
  obtain ⟨h1, h2, h3, h4⟩ := lowerFadeSound_facts
  have hd : 0 < lowerFadeSound.lowerVeloXFadeValue := by rw [h4]; decide
  have hv : findNextSetBit lowerFadeSound.velocityRange 0 ≤ 3 ∧
      3 ≤ findNextSetBit lowerFadeSound.velocityRange 0
        + lowerFadeSound.lowerVeloXFadeValue := by rw [h2, h4]; decide
  refine ⟨hd, hv, ?_⟩
  rw [gain_bottom_zone lowerFadeSound 3 hd (by intro w; rw [h1, h2, h3, h4]; omega) hv, h2, h4]
  norm_num

/-- C6: the gain is exactly 1 at every velocity that lies in neither the top zone
`[highBit - upperFade, highBit]` nor the bottom zone `[lowBit, lowBit + lowerFade]`, and
at every velocity when both fade lengths are 0. -/
theorem gain_one_outside_zones (s : ModulatorSamplerSound) (v : Int)
    (h : (s.upperVeloXFadeValue = 0 ∧ s.lowerVeloXFadeValue = 0) ∨
      (¬ (getHighestBit s.velocityRange - s.upperVeloXFadeValue ≤ v ∧
            v ≤ getHighestBit s.velocityRange) ∧
        ¬ (findNextSetBit s.velocityRange 0 ≤ v ∧
            v ≤ findNextSetBit s.velocityRange 0 + s.lowerVeloXFadeValue))) :
    s.getGainValueForVelocityXFade v = 1 := by
  rcases h with h | h
  · unfold getGainValueForVelocityXFade
    rw [if_pos h]
  · exact gain_outside_both s v (by omega) (by omega)

theorem gain_one_outside_zones_witness :
    ((bothFadeSound.upperVeloXFadeValue = 0 ∧ bothFadeSound.lowerVeloXFadeValue = 0) ∨
      (¬ (getHighestBit bothFadeSound.velocityRange - bothFadeSound.upperVeloXFadeValue ≤ 64 ∧
            64 ≤ getHighestBit bothFadeSound.velocityRange) ∧
        ¬ (findNextSetBit bothFadeSound.velocityRange 0 ≤ 64 ∧
            64 ≤ findNextSetBit bothFadeSound.velocityRange 0
              + bothFadeSound.lowerVeloXFadeValue))) ∧
      bothFadeSound.getGainValueForVelocityXFade 64 = 1 := by
  obtain ⟨h1, h2, h3, h4⟩ := bothFadeSound_facts
  have h : (bothFadeSound.upperVeloXFadeValue = 0 ∧ bothFadeSound.lowerVeloXFadeValue = 0) ∨
      (¬ (getHighestBit bothFadeSound.velocityRange - bothFadeSound.upperVeloXFadeValue ≤ 64 ∧
            64 ≤ getHighestBit bothFadeSound.velocityRange) ∧
        ¬ (findNextSetBit bothFadeSound.velocityRange 0 ≤ 64 ∧
            64 ≤ findNextSetBit bothFadeSound.velocityRange 0
              + bothFadeSound.lowerVeloXFadeValue)) := by
    right
    rw [h1, h2, h3, h4]
    omega
  exact ⟨h, gain_one_outside_zones bothFadeSound 64 h⟩

/-- C7: where a fade zone meets the un-faded part of the velocity range the gain is 1:
for upperFade > 0 at velocity `highBit - upperFade`, and for lowerFade > 0 with a bottom
zone that shares no velocity with the top zone at velocity `lowBit + lowerFade`. The
neighbouring velocity just outside the zone has the same gain 1: `highBit - upperFade - 1`
when it is not in the bottom zone, and `lowBit + lowerFade + 1`. -/
theorem gain_continuous_at_zone_start (s : ModulatorSamplerSound) :
    (0 < s.upperVeloXFadeValue →
      s.getGainValueForVelocityXFade
        (getHighestBit s.velocityRange - s.upperVeloXFadeValue) = 1) ∧
    (0 < s.lowerVeloXFadeValue →
      (∀ w : Int,
        ¬ ((getHighestBit s.velocityRange - s.upperVeloXFadeValue ≤ w ∧
              w ≤ getHighestBit s.velocityRange) ∧
            (findNextSetBit s.velocityRange 0 ≤ w ∧
              w ≤ findNextSetBit s.velocityRange 0 + s.lowerVeloXFadeValue))) →
      s.getGainValueForVelocityXFade
        (findNextSetBit s.velocityRange 0 + s.lowerVeloXFadeValue) = 1) ∧
    (0 < s.upperVeloXFadeValue →
      ¬ (findNextSetBit s.velocityRange 0
            ≤ getHighestBit s.velocityRange - s.upperVeloXFadeValue - 1 ∧
          getHighestBit s.velocityRange - s.upperVeloXFadeValue - 1
            ≤ findNextSetBit s.velocityRange 0 + s.lowerVeloXFadeValue) →
      s.getGainValueForVelocityXFade
        (getHighestBit s.velocityRange - s.upperVeloXFadeValue - 1) = 1) ∧
    (0 < s.lowerVeloXFadeValue →
      (∀ w : Int,
        ¬ ((getHighestBit s.velocityRange - s.upperVeloXFadeValue ≤ w ∧
              w ≤ getHighestBit s.velocityRange) ∧
            (findNextSetBit s.velocityRange 0 ≤ w ∧
              w ≤ findNextSetBit s.velocityRange 0 + s.lowerVeloXFadeValue))) →
      s.getGainValueForVelocityXFade
        (findNextSetBit s.velocityRange 0 + s.lowerVeloXFadeValue + 1) = 1) := by
  refine ⟨?_, ?_, ?_, ?_⟩
  · intro hu
    rw [gain_top_ramp s _ (by omega)]
    simp
  · intro hd hdisjoint
    refine gain_outside_both s _ (fun h => ?_) (by omega)
    exact hdisjoint _ ⟨⟨h.1, by omega⟩, ⟨by omega, le_refl _⟩⟩
  · intro hu hout
    exact gain_outside_both s _ (by omega) (by omega)
  · intro hd hdisjoint
    have h0 := hdisjoint (findNextSetBit s.velocityRange 0 + s.lowerVeloXFadeValue)
    by_cases htop : getHighestBit s.velocityRange - s.upperVeloXFadeValue
          ≤ findNextSetBit s.velocityRange 0 + s.lowerVeloXFadeValue + 1 ∧
        findNextSetBit s.velocityRange 0 + s.lowerVeloXFadeValue + 1
          < getHighestBit s.velocityRange
    · have hstart : findNextSetBit s.velocityRange 0 + s.lowerVeloXFadeValue + 1
          = getHighestBit s.velocityRange - s.upperVeloXFadeValue := by omega
      rw [gain_top_ramp s _ htop, hstart]
      simp
    · exact gain_outside_both s _ htop (by omega)

theorem gain_continuous_at_zone_start_witness :
    0 < bothFadeSound.upperVeloXFadeValue ∧ 0 < bothFadeSound.lowerVeloXFadeValue ∧
      bothFadeSound.getGainValueForVelocityXFade 117 = 1 ∧
      bothFadeSound.getGainValueForVelocityXFade 5 = 1 ∧
      bothFadeSound.getGainValueForVelocityXFade 116 = 1 ∧
      bothFadeSound.getGainValueForVelocityXFade 6 = 1 := by
  obtain ⟨h1, h2, h3, h4⟩ := bothFadeSound_facts
  have hu : 0 < bothFadeSound.upperVeloXFadeValue := by rw [h3]; decide
  have hd : 0 < bothFadeSound.lowerVeloXFadeValue := by rw [h4]; decide
  have e1 := (gain_continuous_at_zone_start bothFadeSound).1 hu
  have e2 := (gain_continuous_at_zone_start bothFadeSound).2.1 hd
    (by intro w; rw [h1, h2, h3, h4]; omega)
  have e3 := (gain_continuous_at_zone_start bothFadeSound).2.2.1 hu
    (by rw [h1, h2, h3, h4]; omega)
  have e4 := (gain_continuous_at_zone_start bothFadeSound).2.2.2 hd
    (by intro w; rw [h1, h2, h3, h4]; omega)
  rw [h1, h3] at e1 e3
  rw [h2, h4] at e2 e4
  exact ⟨hu, hd, e1, e2, e3, e4⟩

/-! ### Fade lengths, channel purge and property classes (C8 to C10) -/

theorem BigInteger.testBit_clearBit (b : ℕ) (i : Int) (k : ℕ) :
    (clearBit b i).testBit k = (b.testBit k && !decide (i = (k : Int))) := by
  unfold clearBit getBit
  by_cases hi : 0 ≤ i
  · obtain ⟨j, rfl⟩ := Int.eq_ofNat_of_zero_le hi
    simp only [Int.toNat_ofNat, Int.ofNat_zero_le, decide_True, Bool.true_and, Nat.cast_inj]
    by_cases hb : b.testBit j = true
    · rw [if_pos hb, Nat.testBit_xor, Nat.one_shiftLeft, Nat.testBit_two_pow]
      by_cases hk : j = k
      · subst hk
        simp [hb]
      · simp [hk]
    · rw [if_neg hb]
      by_cases hk : j = k
      · subst hk
        simp [hb]
      · simp [hk]
  · have h1 : ¬ i = (k : Int) := by omega
    simp [hi, h1]

theorem BigInteger.getBit_setBitTo (b : ℕ) (i : Int) (v : Bool) (hi : 0 ≤ i) (c : Int) :
    getBit (setBitTo b i v) c = if c = i then v else getBit b c := by
  unfold getBit setBitTo
  by_cases hc : 0 ≤ c
  · obtain ⟨k, rfl⟩ := Int.eq_ofNat_of_zero_le hc
    obtain ⟨j, rfl⟩ := Int.eq_ofNat_of_zero_le hi
    simp only [Int.toNat_ofNat, Int.ofNat_zero_le, decide_True, Bool.true_and, Nat.cast_inj]
    cases v
    · simp only [Bool.false_eq_true, if_false, testBit_clearBit, Nat.cast_inj]
      by_cases hkj : k = j
      · subst hkj
        simp
      · have : ¬ j = k := fun h => hkj h.symm
        simp [hkj, this]
    · simp only [if_true, testBit_setBit, Nat.cast_inj]
      by_cases hkj : k = j
      · subst hkj
        simp
      · have : ¬ j = k := fun h => hkj h.symm
        simp [hkj, this]
  · have h1 : c ≠ i := by omega
    simp [hc, h1]

/-- C8: setVelocityXFade (length, isUpperSound) on a sound writes `length` into that
sound's lower fade field when isUpperSound is true and into its upper fade field when
isUpperSound is false; the other fade field and every other member of the sound keep
their values. -/
theorem setVelocityXFade_writes_complementary_field (s : ModulatorSamplerSound) (length : Int) :
    (s.setVelocityXFade length true).lowerVeloXFadeValue = length ∧
    (s.setVelocityXFade length true).upperVeloXFadeValue = s.upperVeloXFadeValue ∧
    s.setVelocityXFade length true = { s with lowerVeloXFadeValue := length } ∧
    (s.setVelocityXFade length false).upperVeloXFadeValue = length ∧
    (s.setVelocityXFade length false).lowerVeloXFadeValue = s.lowerVeloXFadeValue ∧
    s.setVelocityXFade length false = { s with upperVeloXFadeValue := length } ∧
    (∀ (L : FloatLib) (p : Property), p ≠ .LowerVelocityXFade →
      (s.setVelocityXFade length true).getProperty L p = s.getProperty L p) ∧
    (∀ (L : FloatLib) (p : Property), p ≠ .UpperVelocityXFade →
      (s.setVelocityXFade length false).getProperty L p = s.getProperty L p) := by
  refine ⟨rfl, rfl, rfl, rfl, rfl, rfl, ?_, ?_⟩
  · intro L p hp
    cases p <;> first | exact absurd rfl hp | rfl
  · intro L p hp
    cases p <;> first | exact absurd rfl hp | rfl

/-- C10: while the global purge flag of a sound is set, setChannelPurged changes nothing
(bit mask, assets and every other member stay as they were) for every channel index and
every flag; while it is clear, setChannelPurged (channel, b) for a channel index
`channel >= 0` makes isChannelPurged (channel) return `b` and leaves the purge bit of
every other channel as it was. -/
theorem setChannelPurged_respects_global_purge (s : ModulatorSamplerSound) (channel : Int)
    (b : Bool) :
    (s.purged = true → s.setChannelPurged channel b = s) ∧
    (s.purged = false → 0 ≤ channel →
      (s.setChannelPurged channel b).isChannelPurged channel = b ∧
      ∀ other : Int, other ≠ channel →
        (s.setChannelPurged channel b).isChannelPurged other = s.isChannelPurged other) := by
  constructor
  · intro hp
    simp [setChannelPurged, hp]
  · intro hp hc
    simp only [setChannelPurged, hp, isChannelPurged, Bool.false_eq_true, if_false]
    refine ⟨?_, fun other ho => ?_⟩
    · rw [getBit_setBitTo _ _ _ hc, if_pos rfl]
    · rw [getBit_setBitTo _ _ _ hc, if_neg ho]

theorem setVelocityXFade_writes_complementary_field_witness :
    Property.Pitch ≠ Property.LowerVelocityXFade ∧
      (fullRangeSound.setVelocityXFade 10 true).lowerVeloXFadeValue = 10 ∧
      (fullRangeSound.setVelocityXFade 10 true).getProperty FloatLib.linear .Pitch
        = fullRangeSound.getProperty FloatLib.linear .Pitch :=
  ⟨by decide, (setVelocityXFade_writes_complementary_field fullRangeSound 10).1,
    (setVelocityXFade_writes_complementary_field fullRangeSound 10).2.2.2.2.2.2.1
      FloatLib.linear .Pitch (by decide)⟩

set_option maxRecDepth 100000 in
theorem setChannelPurged_respects_global_purge_witness :
    purgedSound.purged = true ∧ fullRangeSound.purged = false ∧ (0 : Int) ≤ 1 ∧
      purgedSound.setChannelPurged 1 true = purgedSound ∧
      (fullRangeSound.setChannelPurged 1 true).isChannelPurged 1 = true :=
  ⟨by decide, by decide, by decide,
    (setChannelPurged_respects_global_purge purgedSound 1 true).1 (by decide),
    ((setChannelPurged_respects_global_purge fullRangeSound 1 true).2 (by decide)
      (by decide)).1⟩

/-- C9 (as stated) fails: isAsyncProperty classifies both velocity-crossfade lengths as
deferred, and with asynchronous change enabled setProperty sends a write to
UpperVelocityXFade through the voice-killing path. -/
theorem isAsyncProperty_counterexample :
    isAsyncProperty .UpperVelocityXFade = true ∧ isAsyncProperty .LowerVelocityXFade = true ∧
    fullRangeSound.enableAsyncPropertyChange = true ∧
    (fullRangeSound.setProperty FloatLib.linear .UpperVelocityXFade 10 false).2
      = [Event.killVoicesAndCall, Event.killAllVoicesAndCall] := by
  decide

/-- C9 (amended): in enumeration order isAsyncProperty classifies as deferred exactly the
properties from SampleStart on (SampleStart, SampleEnd, SampleStartMod, LoopEnabled,
LoopStart, LoopEnd, LoopXFade, UpperVelocityXFade, LowerVelocityXFade, SampleState) and
as synchronous exactly the ones before it (ID, FileName, RootNote, the key and velocity
bounds, RRGroup, Volume, Pan, Normalized, Pitch). setProperty applies a synchronous
property immediately (setPropertyInternal, then the change message if asked for); it
sends a deferred one through killVoicesAndCall and killAllVoicesAndCall before applying
it when asynchronous change is enabled, and applies it immediately when it is not. -/
theorem isAsyncProperty_classification (L : FloatLib) (s : ModulatorSamplerSound)
    (p : Property) (v : Int) (notify : Bool) :
    (isAsyncProperty p = true ↔
      p ∈ [Property.SampleStart, .SampleEnd, .SampleStartMod, .LoopEnabled, .LoopStart,
        .LoopEnd, .LoopXFade, .UpperVelocityXFade, .LowerVelocityXFade, .SampleState]) ∧
    (isAsyncProperty p = false ↔
      p ∈ [Property.ID, .FileName, .RootNote, .KeyHigh, .KeyLow, .VeloLow, .VeloHigh,
        .RRGroup, .Volume, .Pan, .Normalized, .Pitch]) ∧
    (isAsyncProperty p = false →
      s.setProperty L p v notify = (s.setPropertyInternal L p v, notifyEvents notify)) ∧
    (isAsyncProperty p = true → s.enableAsyncPropertyChange = true →
      s.setProperty L p v notify
        = (s.setPropertyInternal L p v,
            Event.killVoicesAndCall :: Event.killAllVoicesAndCall :: notifyEvents notify)) ∧
    (s.enableAsyncPropertyChange = false →
      s.setProperty L p v notify = (s.setPropertyInternal L p v, notifyEvents notify)) := by
  refine ⟨by cases p <;> decide, by cases p <;> decide, ?_, ?_, ?_⟩
  · intro hp
    simp [setProperty, hp, notifyEvents]
  · intro hp he
    simp [setProperty, setPreloadPropertyInternal, hp, he, notifyEvents]
  · intro he
    simp [setProperty, he, notifyEvents]

theorem isAsyncProperty_classification_witness :
    isAsyncProperty .Volume = false ∧ isAsyncProperty .LoopStart = true ∧
      fullRangeSound.enableAsyncPropertyChange = true ∧
      fullRangeSound.setProperty FloatLib.linear .Volume (-6) true
        = (fullRangeSound.setPropertyInternal FloatLib.linear .Volume (-6),
            notifyEvents true) ∧
      fullRangeSound.setProperty FloatLib.linear .LoopStart 100 true
        = (fullRangeSound.setPropertyInternal FloatLib.linear .LoopStart 100,
            Event.killVoicesAndCall :: Event.killAllVoicesAndCall :: notifyEvents true) :=
  ⟨by decide, by decide, by decide,
    (isAsyncProperty_classification FloatLib.linear fullRangeSound .Volume (-6) true).2.2.1
      (by decide),
    (isAsyncProperty_classification FloatLib.linear fullRangeSound .LoopStart 100 true).2.2.2.1
      (by decide) (by decide)⟩

/-! ### Export and restore (C3) -/

theorem getNamedValue_set_same (n : String) (x d : Var) (l : List (String × Var)) :
    getNamedValue n d (setNamedValue n x l) = x := by
  induction l with
  | nil => simp [setNamedValue, getNamedValue]
  | cons h t ih =>
    obtain ⟨m, y⟩ := h
    by_cases hm : m = n
    · simp [setNamedValue, getNamedValue, hm]
    · simp [setNamedValue, getNamedValue, hm, ih]

theorem getNamedValue_set_other (n m : String) (x d : Var) (l : List (String × Var))
    (hnm : n ≠ m) : getNamedValue m d (setNamedValue n x l) = getNamedValue m d l := by
  induction l with
  | nil => simp [setNamedValue, getNamedValue, hnm]
  | cons h t ih =>
    obtain ⟨k, y⟩ := h
    by_cases hk : k = n
    · subst hk
      simp only [setNamedValue, getNamedValue, if_true, if_neg hnm]
    · simp only [setNamedValue, getNamedValue, if_neg hk]
      by_cases hkm : k = m
      · simp only [if_pos hkm]
      · simp only [if_neg hkm, ih]

theorem ModulatorSamplerSound.getPropertyName_injective (p q : Property)
    (h : getPropertyName p = getPropertyName q) : p = q := by
  cases p <;> cases q <;> first | rfl | (exact absurd h (by decide))

theorem ModulatorSamplerSound.exportProperties_lookup (L : FloatLib) (s : ModulatorSamplerSound)
    (ps : List Property) (v : ValueTree) (p : Property) (d : Var) :
    (exportProperties L s v ps).getProperty (getPropertyName p) d
      = if p ∈ ps then s.getProperty L p else v.getProperty (getPropertyName p) d := by
  induction ps generalizing v with
  | nil => simp [exportProperties]
  | cons q ps ih =>
    rw [exportProperties, ih]
    by_cases hp : p ∈ ps
    · simp [hp]
    · by_cases hpq : p = q
      · subst hpq
        simp [hp, ValueTree.getProperty, ValueTree.setProperty, getNamedValue_set_same]
      · have hn : getPropertyName q ≠ getPropertyName p :=
          fun h => hpq (getPropertyName_injective _ _ h).symm
        simp [hp, hpq, ValueTree.getProperty, ValueTree.setProperty,
          getNamedValue_set_other _ _ _ _ _ hn]

theorem ModulatorSamplerSound.exportProperties_other (L : FloatLib) (s : ModulatorSamplerSound)
    (ps : List Property) (v : ValueTree) (n : String) (d : Var)
    (hn : ∀ p : Property, getPropertyName p ≠ n) :
    (exportProperties L s v ps).getProperty n d = v.getProperty n d := by
  induction ps generalizing v with
  | nil => simp [exportProperties]
  | cons q ps ih =>
    rw [exportProperties, ih]
    simp [ValueTree.getProperty, ValueTree.setProperty, getNamedValue_set_other _ _ _ _ _ (hn q)]

theorem ModulatorSamplerSound.exportFileChildren_properties (s : ModulatorSamplerSound)
    (v : ValueTree) :
    (exportFileChildren s v).properties
      = v.properties.filter (fun nx => nx.1 ≠ getPropertyName .FileName) := by
  unfold exportFileChildren
  have : ∀ (l : List StreamingSamplerSound) (w : ValueTree),
      (l.foldl (fun t a =>
        t.addChild ⟨"file", setNamedValue "FileName" (Var.string a.fileName) []⟩) w).properties
        = w.properties := by
    intro l
    induction l with
    | nil => intro w; rfl
    | cons a l ih => intro w; rw [List.foldl_cons, ih]; rfl
  rw [this]
  rfl

theorem ModulatorSamplerSound.mem_all (p : Property) : p ∈ Property.all := by
  cases p <;> decide

theorem ValueTree.getProperty_setProperty_other (v : ValueTree) (n m : String) (x d : Var)
    (h : n ≠ m) : (v.setProperty n x).getProperty m d = v.getProperty m d := by
  simp only [ValueTree.getProperty, ValueTree.setProperty, getNamedValue_set_other _ _ _ _ _ h]

theorem ValueTree.getProperty_setProperty_same (v : ValueTree) (n : String) (x d : Var) :
    (v.setProperty n x).getProperty n d = x := by
  simp only [ValueTree.getProperty, ValueTree.setProperty, getNamedValue_set_same]

theorem ModulatorSamplerSound.exportWithFirst_peak (L : FloatLib) (s : ModulatorSamplerSound)
    (a : StreamingSamplerSound) (d : Var) :
    (exportWithFirst L s a).getProperty "NormalizedPeak" d = Var.double s.normalizedPeak := by
  have h2 : "MonolithOffset" ≠ "NormalizedPeak" := by decide
  have h3 : "MonolithLength" ≠ "NormalizedPeak" := by decide
  have h4 : "SampleRate" ≠ "NormalizedPeak" := by decide
  have h5 : "Duplicate" ≠ "NormalizedPeak" := by decide
  unfold exportWithFirst
  generalize exportProperties L s (ValueTree.new "sample") Property.all = v0
  dsimp only
  rw [ValueTree.getProperty_setProperty_other _ _ _ _ _ h5]
  split
  · rw [ValueTree.getProperty_setProperty_other _ _ _ _ _ h4,
      ValueTree.getProperty_setProperty_other _ _ _ _ _ h3,
      ValueTree.getProperty_setProperty_other _ _ _ _ _ h2,
      ValueTree.getProperty_setProperty_same]
  · rw [ValueTree.getProperty_setProperty_same]

theorem ModulatorSamplerSound.checkFileReferenceLoop_true (l : List StreamingSamplerSound) :
    checkFileReferenceLoop true l = !(l.any (fun a => a.missing)) := by
  induction l with
  | nil => rfl
  | cons a rest ih =>
    cases h : a.missing <;> simp [checkFileReferenceLoop, h, ih]

/-- C11 (as stated) fails: for the sound whose only asset is not missing, the logical OR
of the missing flags is `false` but checkFileReference sets allFilesExist to `true`; for
the two-mic sound with one missing asset the OR is `true` and allFilesExist is `false`. -/
theorem checkFileReference_counterexample :
    (fullRangeSound.checkFileReference id).soundArray.any (fun a => a.missing) = false ∧
    (fullRangeSound.checkFileReference id).allFilesExist = true ∧
    (twoMicSound.checkFileReference id).soundArray.any (fun a => a.missing) = true ∧
    (twoMicSound.checkFileReference id).allFilesExist = false := by
  decide

/-- C11 (amended): after checkFileReference on a sound, whatever the assets' own check
does to them, the sound's assets are the checked assets and its allFilesExist flag is the
negation of the logical OR of their missing flags: it is `true` exactly when no asset is
missing. -/
theorem checkFileReference_all_files_exist
    (assetCheck : StreamingSamplerSound → StreamingSamplerSound) (s : ModulatorSamplerSound) :
    (s.checkFileReference assetCheck).soundArray = s.soundArray.map assetCheck ∧
    (s.checkFileReference assetCheck).allFilesExist
      = !((s.checkFileReference assetCheck).soundArray.any (fun a => a.missing)) ∧
    ((s.checkFileReference assetCheck).allFilesExist = true ↔
      ∀ a ∈ (s.checkFileReference assetCheck).soundArray, a.missing = false) := by
  have h1 : (s.checkFileReference assetCheck).soundArray = s.soundArray.map assetCheck := rfl
  have h2 : (s.checkFileReference assetCheck).allFilesExist
      = !((s.checkFileReference assetCheck).soundArray.any (fun a => a.missing)) := by
    rw [h1]
    simp only [checkFileReference, forEverySound]
    exact checkFileReferenceLoop_true _
  refine ⟨h1, h2, ?_⟩
  rw [h2]
  simp

theorem any_setNamedValue_same (n : String) (x : Var) (l : List (String × Var)) :
    (setNamedValue n x l).any (fun nx => decide (nx.1 = n)) = true := by
  induction l with
  | nil => simp [setNamedValue]
  | cons h t ih =>
    obtain ⟨k, y⟩ := h
    by_cases hk : k = n
    · simp [setNamedValue, hk]
    · simp only [setNamedValue, if_neg hk, List.any_cons, ih, Bool.or_true]

theorem any_setNamedValue_other (n m : String) (x : Var) (l : List (String × Var))
    (hnm : n ≠ m) :
    (setNamedValue n x l).any (fun nx => decide (nx.1 = m))
      = l.any (fun nx => decide (nx.1 = m)) := by
  induction l with
  | nil => simp [setNamedValue, hnm]
  | cons h t ih =>
    obtain ⟨k, y⟩ := h
    by_cases hk : k = n
    · subst hk
      simp only [setNamedValue, if_true, List.any_cons]
    · simp only [setNamedValue, if_neg hk, List.any_cons, ih]

theorem any_filter_removed (n : String) (l : List (String × Var)) :
    (l.filter (fun nx => nx.1 ≠ n)).any (fun nx => decide (nx.1 = n)) = false := by
  induction l with
  | nil => rfl
  | cons h t ih =>
    obtain ⟨k, y⟩ := h
    by_cases hk : k = n
    · subst hk
      rw [List.filter_cons_of_neg (by simp), ih]
    · rw [List.filter_cons_of_pos (by simpa using hk)]
      simp only [List.any_cons, ih, Bool.or_false, decide_eq_false_iff_not]
      exact hk

theorem any_filter_other (n m : String) (l : List (String × Var)) (hnm : n ≠ m) :
    (l.filter (fun nx => nx.1 ≠ n)).any (fun nx => decide (nx.1 = m))
      = l.any (fun nx => decide (nx.1 = m)) := by
  induction l with
  | nil => rfl
  | cons h t ih =>
    obtain ⟨k, y⟩ := h
    by_cases hk : k = n
    · subst hk
      rw [List.filter_cons_of_neg (by simp), ih]
      simp only [List.any_cons, decide_eq_false hnm, Bool.false_or]
    · rw [List.filter_cons_of_pos (by simpa using hk)]
      simp only [List.any_cons, ih]

theorem ValueTree.hasProperty_setProperty_same (v : ValueTree) (n : String) (x : Var) :
    (v.setProperty n x).hasProperty n = true := by
  simp only [ValueTree.hasProperty, ValueTree.setProperty, any_setNamedValue_same]

theorem ValueTree.hasProperty_setProperty_other (v : ValueTree) (n m : String) (x : Var)
    (h : n ≠ m) : (v.setProperty n x).hasProperty m = v.hasProperty m := by
  simp only [ValueTree.hasProperty, ValueTree.setProperty, any_setNamedValue_other _ _ _ _ h]

theorem ValueTree.children_setProperty (v : ValueTree) (n : String) (x : Var) :
    (v.setProperty n x).children = v.children := rfl

theorem ModulatorSamplerSound.exportProperties_hasProperty (L : FloatLib)
    (s : ModulatorSamplerSound) (ps : List Property) (v : ValueTree) (n : String) :
    (exportProperties L s v ps).hasProperty n
      = (v.hasProperty n || ps.any (fun p => decide (getPropertyName p = n))) := by
  induction ps generalizing v with
  | nil => simp [exportProperties]
  | cons q ps ih =>
    rw [exportProperties, ih]
    by_cases hq : getPropertyName q = n
    · subst hq
      simp [ValueTree.hasProperty_setProperty_same]
    · simp [ValueTree.hasProperty_setProperty_other _ _ _ _ hq, hq]

theorem ModulatorSamplerSound.exportProperties_children (L : FloatLib)
    (s : ModulatorSamplerSound) (ps : List Property) (v : ValueTree) :
    (exportProperties L s v ps).children = v.children := by
  induction ps generalizing v with
  | nil => rfl
  | cons q ps ih => rw [exportProperties, ih]; rfl

theorem ModulatorSamplerSound.exportFileChildren_children (s : ModulatorSamplerSound)
    (v : ValueTree) :
    (exportFileChildren s v).children = v.children ++ s.soundArray.map fileChild := by
  unfold exportFileChildren
  have : ∀ (l : List StreamingSamplerSound) (w : ValueTree),
      (l.foldl (fun t a =>
        t.addChild ⟨"file", setNamedValue "FileName" (Var.string a.fileName) []⟩) w).children
        = w.children ++ l.map fileChild := by
    intro l
    induction l with
    | nil => intro w; simp
    | cons a l ih =>
      intro w
      rw [List.foldl_cons, ih]
      simp [ValueTree.addChild, fileChild]
  rw [this]
  rfl

theorem ModulatorSamplerSound.exportFileChildren_hasProperty (s : ModulatorSamplerSound)
    (v : ValueTree) (n : String) :
    (exportFileChildren s v).hasProperty n
      = (decide (n ≠ "FileName") && v.hasProperty n) := by
  simp only [ValueTree.hasProperty, exportFileChildren_properties, getPropertyName]
  by_cases hn : n = "FileName"
  · subst hn
    rw [any_filter_removed]
    simp
  · have h : "FileName" ≠ n := fun h => hn h.symm
    rw [any_filter_other _ _ _ h, decide_eq_true (show n ≠ "FileName" from hn), Bool.true_and]

theorem ModulatorSamplerSound.exportBase_hasProperty (L : FloatLib) (s : ModulatorSamplerSound)
    (n : String) :
    (exportProperties L s (ValueTree.new "sample") Property.all).hasProperty n
      = Property.all.any (fun p => decide (getPropertyName p = n)) := by
  rw [exportProperties_hasProperty]
  simp [ValueTree.hasProperty, ValueTree.new]

/-- C12: for every sound with at least one asset the tree returned by exportAsValueTree
contains the derived fields NormalizedPeak (the sound's normalized peak) and Duplicate,
where Duplicate is true exactly when the first asset's reference count is >= 3, and it
contains MonolithOffset, MonolithLength and SampleRate exactly when the first asset is
monolithic. -/
theorem export_derived_fields (L : FloatLib) (s : ModulatorSamplerSound)
    (hs : s.soundArray ≠ []) :
    ∃ (tree : ValueTree) (first : StreamingSamplerSound),
      s.firstSound = some first ∧ s.exportAsValueTree L = some tree ∧
      tree.hasProperty "NormalizedPeak" = true ∧
      tree.getProperty "NormalizedPeak" Var.undefined = Var.double s.normalizedPeak ∧
      tree.hasProperty "Duplicate" = true ∧
      tree.getProperty "Duplicate" Var.undefined
        = Var.bool (decide (3 ≤ first.referenceCount)) ∧
      tree.hasProperty "MonolithOffset" = first.monolithic ∧
      tree.hasProperty "MonolithLength" = first.monolithic ∧
      tree.hasProperty "SampleRate" = first.monolithic := by
  obtain ⟨a, rest, has⟩ := List.exists_cons_of_ne_nil hs
  refine ⟨exportWithFirst L s a, a, by simp [firstSound, has],
    by simp only [exportAsValueTree, firstSound, has, List.head?_cons],
    ?_, exportWithFirst_peak L s a _, ?_, ?_, ?_, ?_, ?_⟩
  all_goals
    have hb1 := exportBase_hasProperty L s "NormalizedPeak"
    have hb2 := exportBase_hasProperty L s "MonolithOffset"
    have hb3 := exportBase_hasProperty L s "MonolithLength"
    have hb4 := exportBase_hasProperty L s "SampleRate"
    unfold exportWithFirst
    generalize exportProperties L s (ValueTree.new "sample") Property.all = v0 at *
    dsimp only
  · rw [ValueTree.hasProperty_setProperty_other _ _ _ _ (by decide)]
    split
    · rw [ValueTree.hasProperty_setProperty_other _ _ _ _ (by decide),
        ValueTree.hasProperty_setProperty_other _ _ _ _ (by decide),
        ValueTree.hasProperty_setProperty_other _ _ _ _ (by decide),
        ValueTree.hasProperty_setProperty_same]
    · rw [ValueTree.hasProperty_setProperty_same]
  · rw [ValueTree.hasProperty_setProperty_same]
  · rw [ValueTree.getProperty_setProperty_same]
  · rw [ValueTree.hasProperty_setProperty_other _ _ _ _ (by decide)]
    cases hm : a.monolithic
    · simp only [Bool.false_eq_true, if_false]
      rw [ValueTree.hasProperty_setProperty_other _ _ _ _ (by decide)]
      split
      · rw [exportFileChildren_hasProperty, hb2]; decide
      · rw [hb2]; decide
    · simp only [if_true]
      rw [ValueTree.hasProperty_setProperty_other _ _ _ _ (by decide),
        ValueTree.hasProperty_setProperty_other _ _ _ _ (by decide),
        ValueTree.hasProperty_setProperty_same]
  · rw [ValueTree.hasProperty_setProperty_other _ _ _ _ (by decide)]
    cases hm : a.monolithic
    · simp only [Bool.false_eq_true, if_false]
      rw [ValueTree.hasProperty_setProperty_other _ _ _ _ (by decide)]
      split
      · rw [exportFileChildren_hasProperty, hb3]; decide
      · rw [hb3]; decide
    · simp only [if_true]
      rw [ValueTree.hasProperty_setProperty_other _ _ _ _ (by decide),
        ValueTree.hasProperty_setProperty_same]
  · rw [ValueTree.hasProperty_setProperty_other _ _ _ _ (by decide)]
    cases hm : a.monolithic
    · simp only [Bool.false_eq_true, if_false]
      rw [ValueTree.hasProperty_setProperty_other _ _ _ _ (by decide)]
      split
      · rw [exportFileChildren_hasProperty, hb4]; decide
      · rw [hb4]; decide
    · simp only [if_true]
      rw [ValueTree.hasProperty_setProperty_same]

theorem export_derived_fields_witness :
    monolithSound.soundArray ≠ [] ∧
      ∃ (tree : ValueTree) (first : StreamingSamplerSound),
        monolithSound.firstSound = some first ∧
        monolithSound.exportAsValueTree FloatLib.linear = some tree ∧
        tree.hasProperty "NormalizedPeak" = true ∧
        tree.getProperty "NormalizedPeak" Var.undefined
          = Var.double monolithSound.normalizedPeak ∧
        tree.hasProperty "Duplicate" = true ∧
        tree.getProperty "Duplicate" Var.undefined
          = Var.bool (decide (3 ≤ first.referenceCount)) ∧
        tree.hasProperty "MonolithOffset" = first.monolithic ∧
        tree.hasProperty "MonolithLength" = first.monolithic ∧
        tree.hasProperty "SampleRate" = first.monolithic :=
  ⟨by decide, export_derived_fields FloatLib.linear monolithSound (by decide)⟩

theorem ModulatorSamplerSound.exportWithFirst_children (L : FloatLib)
    (s : ModulatorSamplerSound) (a : StreamingSamplerSound) :
    (exportWithFirst L s a).children
      = if s.isMultiMicSound then s.soundArray.map fileChild else [] := by
  have hb := exportProperties_children L s Property.all (ValueTree.new "sample")
  unfold exportWithFirst
  generalize exportProperties L s (ValueTree.new "sample") Property.all = v0 at *
  dsimp only
  rw [ValueTree.children_setProperty]
  have hv1 : (if s.isMultiMicSound = true then exportFileChildren s v0 else v0).children
      = if s.isMultiMicSound then s.soundArray.map fileChild else [] := by
    split
    · rw [exportFileChildren_children, hb]; rfl
    · exact hb
  split
  · rw [ValueTree.children_setProperty, ValueTree.children_setProperty,
      ValueTree.children_setProperty, ValueTree.children_setProperty, hv1]
  · rw [ValueTree.children_setProperty, hv1]

theorem ModulatorSamplerSound.exportWithFirst_hasFileName (L : FloatLib)
    (s : ModulatorSamplerSound) (a : StreamingSamplerSound) :
    (exportWithFirst L s a).hasProperty "FileName" = !s.isMultiMicSound := by
  have hb := exportBase_hasProperty L s "FileName"
  unfold exportWithFirst
  generalize exportProperties L s (ValueTree.new "sample") Property.all = v0 at *
  dsimp only
  rw [ValueTree.hasProperty_setProperty_other _ _ _ _ (by decide)]
  have hv1 : ((if s.isMultiMicSound = true then exportFileChildren s v0 else v0).setProperty
      "NormalizedPeak" (Var.double s.normalizedPeak)).hasProperty "FileName"
      = !s.isMultiMicSound := by
    rw [ValueTree.hasProperty_setProperty_other _ _ _ _ (by decide)]
    cases hm : s.isMultiMicSound
    · simp only [Bool.false_eq_true, if_false, hb]; decide
    · simp only [if_true, exportFileChildren_hasProperty]
      simp
  split
  · rw [ValueTree.hasProperty_setProperty_other _ _ _ _ (by decide),
      ValueTree.hasProperty_setProperty_other _ _ _ _ (by decide),
      ValueTree.hasProperty_setProperty_other _ _ _ _ (by decide), hv1]
  · exact hv1

/-- C13: for every multi-mic sound with `n >= 1` assets the tree returned by
exportAsValueTree has no FileName property on the sample node and its children are
exactly `n` nodes named "file", the k-th carrying the file name of the k-th asset in
channel order; for every single-mic sound (with its asset) the tree carries the FileName
property, holding the first asset's file name, and has no child nodes. -/
theorem export_file_entries (L : FloatLib) (s : ModulatorSamplerSound)
    (hs : s.soundArray ≠ []) :
    ∃ (tree : ValueTree) (first : StreamingSamplerSound),
      s.firstSound = some first ∧ s.exportAsValueTree L = some tree ∧
      (s.isMultiMicSound = true →
        tree.hasProperty "FileName" = false ∧
        tree.children.length = s.soundArray.length ∧
        tree.children
          = s.soundArray.map (fun a => ⟨"file", [("FileName", Var.string a.fileName)]⟩)) ∧
      (s.isMultiMicSound = false →
        tree.hasProperty "FileName" = true ∧
        tree.getProperty "FileName" Var.undefined = Var.string first.fileName ∧
        tree.children = []) := by
  obtain ⟨a, rest, has⟩ := List.exists_cons_of_ne_nil hs
  refine ⟨exportWithFirst L s a, a, by simp [firstSound, has],
    by simp only [exportAsValueTree, firstSound, has, List.head?_cons], ?_, ?_⟩
  · intro hm
    have hc : (exportWithFirst L s a).children
        = s.soundArray.map (fun a => ⟨"file", [("FileName", Var.string a.fileName)]⟩) := by
      rw [exportWithFirst_children, hm, if_pos rfl]
      rfl
    refine ⟨by rw [exportWithFirst_hasFileName, hm]; rfl, ?_, hc⟩
    rw [hc, List.length_map]
  · intro hm
    refine ⟨by rw [exportWithFirst_hasFileName, hm]; rfl, ?_, ?_⟩
    · unfold exportWithFirst
      have hb := exportProperties_lookup L s Property.all (ValueTree.new "sample") .FileName
        Var.undefined
      rw [if_pos (mem_all _)] at hb
      have hfn : s.getProperty L .FileName = Var.string a.fileName := by
        simp [getProperty, has]
      rw [hfn] at hb
      generalize exportProperties L s (ValueTree.new "sample") Property.all = v0 at *
      have hb' : v0.getProperty "FileName" Var.undefined = Var.string a.fileName := hb
      dsimp only
      rw [ValueTree.getProperty_setProperty_other _ _ _ _ _ (by decide)]
      simp only [hm, Bool.false_eq_true, if_false]
      split
      · rw [ValueTree.getProperty_setProperty_other _ _ _ _ _ (by decide),
          ValueTree.getProperty_setProperty_other _ _ _ _ _ (by decide),
          ValueTree.getProperty_setProperty_other _ _ _ _ _ (by decide),
          ValueTree.getProperty_setProperty_other _ _ _ _ _ (by decide), hb']
      · rw [ValueTree.getProperty_setProperty_other _ _ _ _ _ (by decide), hb']
    · rw [exportWithFirst_children, hm]
      rfl

theorem export_file_entries_witness :
    twoMicSound.soundArray ≠ [] ∧ twoMicSound.isMultiMicSound = true ∧
      fullRangeSound.soundArray ≠ [] ∧ fullRangeSound.isMultiMicSound = false ∧
      (∃ tree : ValueTree, twoMicSound.exportAsValueTree FloatLib.linear = some tree ∧
        tree.hasProperty "FileName" = false ∧ tree.children.length = 2) ∧
      (∃ tree : ValueTree, fullRangeSound.exportAsValueTree FloatLib.linear = some tree ∧
        tree.hasProperty "FileName" = true ∧ tree.children = []) := by
  obtain ⟨t1, _, _, e1, m1, _⟩ := export_file_entries FloatLib.linear twoMicSound (by decide)
  obtain ⟨t2, _, _, e2, _, m2⟩ := export_file_entries FloatLib.linear fullRangeSound (by decide)
  exact ⟨by decide, by decide, by decide, by decide,
    ⟨t1, e1, (m1 (by decide)).1, (m1 (by decide)).2.1⟩,
    ⟨t2, e2, (m2 (by decide)).1, (m2 (by decide)).2.2⟩⟩

open BigInteger ModulatorSamplerSound ModulatorSamplerSoundPool

/-! ### Pool sweep and monolith containers (C17 to C20) -/

theorem ModulatorSamplerSoundPool.collectLive_eq (l cur : List (Option StreamingSamplerSound)) :
    collectLive l cur = cur ++ l.filter (fun e => e.isSome) := by
  induction l generalizing cur with
  | nil => simp [collectLive]
  | cons e rest ih =>
    cases h : e.isSome <;> simp [collectLive, h, ih]

/-- C17: one sweep (clearUnreferencedSamplesInternal) leaves in the pool list exactly the
entries whose asset still exists, in their original relative order: every entry left is
live, every live entry is kept and none that is dead; afterwards getNumSoundsInPool is
the number of live entries, which is strictly smaller than before whenever at least one
entry was dead. -/
theorem clearUnreferencedSamplesInternal_sweeps (p : ModulatorSamplerSoundPool) :
    (p.clearUnreferencedSamplesInternal).1.pool = p.pool.filter (fun e => e.isSome) ∧
    (∀ e, e ∈ (p.clearUnreferencedSamplesInternal).1.pool ↔ (e ∈ p.pool ∧ e.isSome = true)) ∧
    List.Sublist (p.clearUnreferencedSamplesInternal).1.pool p.pool ∧
    (p.clearUnreferencedSamplesInternal).1.getNumSoundsInPool
      = (p.pool.countP (fun e => e.isSome) : ℕ) ∧
    ((∃ e ∈ p.pool, e = none) →
      (p.clearUnreferencedSamplesInternal).1.getNumSoundsInPool < p.getNumSoundsInPool) := by
  have h : (p.clearUnreferencedSamplesInternal).1.pool = p.pool.filter (fun e => e.isSome) := by
    simp [clearUnreferencedSamplesInternal, collectLive_eq]
  refine ⟨h, ?_, ?_, ?_, ?_⟩
  · intro e
    rw [h, List.mem_filter]
  · rw [h]
    exact List.filter_sublist _
  · simp only [getNumSoundsInPool, h, List.countP_eq_length_filter]
  · rintro ⟨e, he, rfl⟩
    simp only [getNumSoundsInPool, h]
    have hlt : (p.pool.filter (fun e => e.isSome)).length < p.pool.length := by
      have hle := List.length_filter_le (fun e : Option StreamingSamplerSound => e.isSome) p.pool
      rcases Nat.lt_or_ge (p.pool.filter (fun e => e.isSome)).length p.pool.length with hl | hg
      · exact hl
      · have heq := List.filter_eq_self.1
          (List.Sublist.eq_of_length_le (List.filter_sublist p.pool) hg)
        have := heq none he
        simp at this
    exact_mod_cast hlt

theorem clearUnreferencedSamplesInternal_sweeps_witness :
    (∃ e ∈ ({ pool := [some exampleAsset, none, some missingAsset] } :
        ModulatorSamplerSoundPool).pool, e = none) ∧
      (({ pool := [some exampleAsset, none, some missingAsset] } :
        ModulatorSamplerSoundPool).clearUnreferencedSamplesInternal).1.getNumSoundsInPool
        < ({ pool := [some exampleAsset, none, some missingAsset] } :
            ModulatorSamplerSoundPool).getNumSoundsInPool :=
  ⟨⟨none, by decide, rfl⟩,
    (clearUnreferencedSamplesInternal_sweeps
      { pool := [some exampleAsset, none, some missingAsset] }).2.2.2.2 ⟨none, by decide, rfl⟩⟩

theorem ModulatorSamplerSoundPool.clearMonolithsLoop_eq (fuel : ℕ)
    (pre suf : List MonolithInfo) (hfuel : suf.length ≤ fuel) :
    clearMonolithsLoop fuel pre.length (pre ++ suf)
      = some (pre ++ suf.filter (fun m => decide (m.referenceCount ≠ 2))) := by
  induction fuel generalizing pre suf with
  | zero =>
    have hs : suf = [] := List.length_eq_zero.1 (Nat.le_zero.1 hfuel)
    subst hs
    simp [clearMonolithsLoop]
  | succ fuel ih =>
    cases suf with
    | nil => simp [clearMonolithsLoop]
    | cons m suf =>
      have hget : (pre ++ m :: suf).get? pre.length = some m := by
        rw [List.get?_eq_getElem?, List.getElem?_append_right (le_refl _)]
        simp
      have herase : (pre ++ m :: suf).eraseIdx pre.length = pre ++ suf := by
        rw [List.eraseIdx_append_of_length_le (le_refl _)]
        simp
      have hlen : suf.length ≤ fuel := by
        simp only [List.length_cons] at hfuel
        omega
      rw [clearMonolithsLoop, hget]
      by_cases hm : m.referenceCount = 2
      · simp only [hm, if_true, herase]
        rw [ih pre suf hlen]
        simp [hm]
      · simp only [hm, if_false]
        have h1 := ih (pre ++ [m]) suf hlen
        simp only [List.length_append, List.length_singleton, List.append_assoc,
          List.singleton_append] at h1
        rw [h1]
        simp [hm]

theorem ModulatorSamplerSoundPool.clearUnreferencedMonoliths_eq (p : ModulatorSamplerSoundPool) :
    p.clearUnreferencedMonoliths
      = some ({ p with loadedMonoliths :=
                p.loadedMonoliths.filter (fun m => decide (m.referenceCount ≠ 2)) },
              p.updateMessages) := by
  have h := clearMonolithsLoop_eq p.loadedMonoliths.length [] p.loadedMonoliths (le_refl _)
  simp only [List.length_nil, List.nil_append] at h
  simp only [clearUnreferencedMonoliths, h, Option.map_some']

/-- C20: clearUnreferencedMonoliths ends (the loop needs no more passes than there are
containers) and removes from the list of loaded monolith containers exactly those whose
reference count is 2; every container with another reference count is kept, in its
original order, also when several removable containers are adjacent, as in the list
with counts 2, 2, 3, 2. -/
theorem clearUnreferencedMonoliths_removes_count_two (p : ModulatorSamplerSoundPool) :
    (∃ r, p.clearUnreferencedMonoliths = some r ∧
      r.1.loadedMonoliths = p.loadedMonoliths.filter (fun m => decide (m.referenceCount ≠ 2)) ∧
      (∀ m, m ∈ r.1.loadedMonoliths ↔ (m ∈ p.loadedMonoliths ∧ m.referenceCount ≠ 2)) ∧
      List.Sublist r.1.loadedMonoliths p.loadedMonoliths ∧
      r.1.pool = p.pool) ∧
    (clearUnreferencedMonoliths
        { loadedMonoliths := [{ files := ["a"] }, { files := ["b"] },
            { files := ["c"], referenceCount := 3 }, { files := ["d"] }] }).map
        (fun r => r.1.loadedMonoliths)
      = some [{ files := ["c"], referenceCount := 3 }] := by
  refine ⟨⟨_, clearUnreferencedMonoliths_eq p, rfl, ?_, ?_, rfl⟩, by decide⟩
  · intro m
    simp [List.mem_filter]
  · exact List.filter_sublist _

theorem ModulatorSamplerSoundPool.loadMonolithicData_failure (env : PoolEnv) (L : FloatLib)
    (p : ModulatorSamplerSoundPool) (voicesActive : Bool) (sampleMap : List ValueTree)
    (files : List String) (sounds : List ModulatorSamplerSound) (l : LoadingError)
    (hscan : env.fillMetadataInfo files sampleMap = some l) :
    loadMonolithicData env L p voicesActive sampleMap files sounds
      = some
        { ok := false
          pool :=
            { p with loadedMonoliths :=
                p.loadedMonoliths.filter (fun m => decide (m.referenceCount ≠ 2))
                  ++ [{ files := files }] }
          sounds := sounds
          assertionFailed := voicesActive
          logged := ["Error at loading sample " ++ l.fileName ++ ": " ++ l.errorDescription]
          changeMessages := p.updateMessages } := by
  simp only [loadMonolithicData, clearUnreferencedMonoliths_eq, hscan]

theorem ModulatorSamplerSoundPool.loadMonolithicData_success (env : PoolEnv) (L : FloatLib)
    (p : ModulatorSamplerSoundPool) (voicesActive : Bool) (sampleMap : List ValueTree)
    (files : List String) (sounds : List ModulatorSamplerSound)
    (hscan : env.fillMetadataInfo files sampleMap = none) :
    loadMonolithicData env L p voicesActive sampleMap files sounds
      = some
        { ok := true
          pool := (loadSamples env L files 0 sampleMap
            { p with loadedMonoliths :=
                p.loadedMonoliths.filter (fun m => decide (m.referenceCount ≠ 2))
                  ++ [{ files := files }] } sounds).1
          sounds := (loadSamples env L files 0 sampleMap
            { p with loadedMonoliths :=
                p.loadedMonoliths.filter (fun m => decide (m.referenceCount ≠ 2))
                  ++ [{ files := files }] } sounds).2
          assertionFailed := voicesActive
          logged := []
          changeMessages := p.updateMessages + 1 } := by
  simp only [loadMonolithicData, clearUnreferencedMonoliths_eq, hscan]

set_option maxRecDepth 100000 in
/-- C18 (as stated) fails: with a voice sounding at the call, loadMonolithicData on a
container whose metadata scan succeeds returns true, logs no error, and adds an asset to
the pool and a sound to the output array; only the entry assertion is violated. -/
theorem loadMonolithicData_voices_counterexample :
    (loadMonolithicData exampleEnv FloatLib.linear {} true [plainDescriptor] ["m.ch1"] []).map
        (fun r => (r.ok, r.assertionFailed, r.logged, r.pool.pool.length, r.sounds.length))
      = some (true, true, [], 1, 1) := by
  decide

/-- C18 (amended): loadMonolithicData always returns; that no voice of the main synth
chain is sounding is only asserted at its entry, and a sounding voice changes nothing
else: return value, pool, sounds and log are the same as with no voice sounding. The call
fails (returns false) exactly when the metadata scan of the container raises a
LoadingError; it then logs the error's file name and description, creates no asset and
adds no sound. -/
theorem loadMonolithicData_voices_only_asserted (env : PoolEnv) (L : FloatLib)
    (p : ModulatorSamplerSoundPool) (voicesActive : Bool) (sampleMap : List ValueTree)
    (files : List String) (sounds : List ModulatorSamplerSound) :
    ∃ r r0 : LoadResult,
      loadMonolithicData env L p voicesActive sampleMap files sounds = some r ∧
      loadMonolithicData env L p false sampleMap files sounds = some r0 ∧
      r.assertionFailed = voicesActive ∧
      r.ok = r0.ok ∧ r.pool = r0.pool ∧ r.sounds = r0.sounds ∧ r.logged = r0.logged ∧
      (r.ok = false ↔ (env.fillMetadataInfo files sampleMap).isSome = true) ∧
      (∀ l : LoadingError, env.fillMetadataInfo files sampleMap = some l →
        r.logged = ["Error at loading sample " ++ l.fileName ++ ": " ++ l.errorDescription] ∧
        r.pool.pool = p.pool ∧ r.sounds = sounds) := by
  cases hscan : env.fillMetadataInfo files sampleMap with
  | some l =>
    refine ⟨_, _, loadMonolithicData_failure env L p voicesActive sampleMap files sounds l hscan,
      loadMonolithicData_failure env L p false sampleMap files sounds l hscan,
      rfl, rfl, rfl, rfl, rfl, by simp, ?_⟩
    intro l' hl'
    cases hl'
    exact ⟨rfl, rfl, rfl⟩
  | none =>
    refine ⟨_, _, loadMonolithicData_success env L p voicesActive sampleMap files sounds hscan,
      loadMonolithicData_success env L p false sampleMap files sounds hscan,
      rfl, rfl, rfl, rfl, rfl, by simp, ?_⟩
    intro l' hl'
    cases hl'

theorem loadMonolithicData_voices_only_asserted_witness :
    exampleEnv.fillMetadataInfo ["corrupt.ch1"] [plainDescriptor]
        = some { fileName := "corrupt.ch1", errorDescription := "truncated container" } ∧
      ∃ r : LoadResult,
        loadMonolithicData exampleEnv FloatLib.linear poolWithA true [plainDescriptor]
          ["corrupt.ch1"] [] = some r ∧
        r.logged = ["Error at loading sample " ++ "corrupt.ch1" ++ ": " ++ "truncated container"] ∧
        r.pool.pool = poolWithA.pool ∧ r.sounds = [] := by
  obtain ⟨r, _, hr, _, _, _, _, _, _, _, h⟩ :=
    loadMonolithicData_voices_only_asserted exampleEnv FloatLib.linear poolWithA true
      [plainDescriptor] ["corrupt.ch1"] []
  exact ⟨by decide, r, hr,
    h { fileName := "corrupt.ch1", errorDescription := "truncated container" } (by decide)⟩

/-- C19: when the metadata scan of the container raises a LoadingError, loadMonolithicData
returns false and leaves the pool's asset list and the output array of sounds exactly as
they were; a later call on the resulting pool with a container whose scan succeeds
returns true. -/
theorem loadMonolithicData_failure_leaves_pool (env : PoolEnv) (L : FloatLib)
    (p : ModulatorSamplerSoundPool) (voicesActive laterVoicesActive : Bool)
    (sampleMap laterMap : List ValueTree) (files laterFiles : List String)
    (sounds : List ModulatorSamplerSound) (l : LoadingError)
    (hcorrupt : env.fillMetadataInfo files sampleMap = some l)
    (hvalid : env.fillMetadataInfo laterFiles laterMap = none) :
    ∃ r : LoadResult,
      loadMonolithicData env L p voicesActive sampleMap files sounds = some r ∧
      r.ok = false ∧ r.pool.pool = p.pool ∧ r.sounds = sounds ∧
      ∃ r2 : LoadResult,
        loadMonolithicData env L r.pool laterVoicesActive laterMap laterFiles r.sounds
          = some r2 ∧
        r2.ok = true := by
  exact ⟨_, loadMonolithicData_failure env L p voicesActive sampleMap files sounds l hcorrupt,
    rfl, rfl, rfl, _,
    loadMonolithicData_success env L _ laterVoicesActive laterMap laterFiles _ hvalid, rfl⟩

theorem loadMonolithicData_failure_leaves_pool_witness :
    exampleEnv.fillMetadataInfo ["corrupt.ch1"] [plainDescriptor]
        = some { fileName := "corrupt.ch1", errorDescription := "truncated container" } ∧
      exampleEnv.fillMetadataInfo ["m.ch1"] [plainDescriptor] = none ∧
      ∃ r : LoadResult,
        loadMonolithicData exampleEnv FloatLib.linear poolWithA false [plainDescriptor]
          ["corrupt.ch1"] [fullRangeSound] = some r ∧
        r.ok = false ∧ r.pool.pool = poolWithA.pool ∧ r.sounds = [fullRangeSound] ∧
        ∃ r2 : LoadResult,
          loadMonolithicData exampleEnv FloatLib.linear r.pool false [plainDescriptor]
            ["m.ch1"] r.sounds = some r2 ∧
          r2.ok = true :=
  ⟨by decide, by decide,
    loadMonolithicData_failure_leaves_pool exampleEnv FloatLib.linear poolWithA false false
      [plainDescriptor] [plainDescriptor] ["corrupt.ch1"] ["m.ch1"] [fullRangeSound]
      { fileName := "corrupt.ch1", errorDescription := "truncated container" }
      (by decide) (by decide)⟩

/-! ### Adding sounds to the pool (C14 to C16) -/

theorem ModulatorSamplerSoundPool.getSoundIndexLoop_found (h o : Int)
    (l : List (Option StreamingSamplerSound)) (i0 : Int) (hi0 : 0 ≤ i0)
    (hr : getSoundIndexLoop h o l i0 ≠ -1) :
    ∃ (k : ℕ) (a : StreamingSamplerSound), getSoundIndexLoop h o l i0 = i0 + k ∧
      l.get? k = some (some a) ∧ (a.hashCode = h ∨ a.hashCode = o) := by
  induction l generalizing i0 with
  | nil => exact absurd rfl hr
  | cons e rest ih =>
    cases e with
    | none => exact absurd rfl hr
    | some s =>
      unfold getSoundIndexLoop at hr ⊢
      by_cases h1 : s.hashCode = h
      · exact ⟨0, s, by simp [h1], rfl, Or.inl h1⟩
      · by_cases h2 : o ≠ -1 ∧ s.hashCode = o
        · exact ⟨0, s, by simp [h1, h2], rfl, Or.inr h2.2⟩
        · rw [if_neg h1, if_neg h2] at hr
          obtain ⟨k, a, hk, hget, hm⟩ := ih (i0 + 1) (by omega) hr
          refine ⟨k + 1, a, ?_, hget, hm⟩
          rw [if_neg h1, if_neg h2, hk]
          push_cast
          omega

theorem ModulatorSamplerSoundPool.getSoundIndexLoop_append_found (h o : Int)
    (l ext : List (Option StreamingSamplerSound)) (i0 : Int)
    (hr : getSoundIndexLoop h o l i0 ≠ -1) :
    getSoundIndexLoop h o (l ++ ext) i0 = getSoundIndexLoop h o l i0 := by
  induction l generalizing i0 with
  | nil => exact absurd rfl hr
  | cons e rest ih =>
    cases e with
    | none => exact absurd rfl hr
    | some s =>
      rw [List.cons_append]
      unfold getSoundIndexLoop at hr ⊢
      by_cases h1 : s.hashCode = h
      · rw [if_pos h1, if_pos h1]
      · by_cases h2 : o ≠ -1 ∧ s.hashCode = o
        · rw [if_neg h1, if_pos h2, if_neg h1, if_pos h2]
        · rw [if_neg h1, if_neg h2] at hr
          rw [if_neg h1, if_neg h2, if_neg h1, if_neg h2]
          exact ih (i0 + 1) hr

theorem ModulatorSamplerSoundPool.getSoundIndexLoop_append_new (h o : Int)
    (l ext : List (Option StreamingSamplerSound)) (a : StreamingSamplerSound) (i0 : Int)
    (hi0 : 0 ≤ i0) (hlive : ∀ e ∈ l, e.isSome = true)
    (hr : getSoundIndexLoop h o l i0 = -1) (ha : a.hashCode = h) :
    getSoundIndexLoop h o (l ++ some a :: ext) i0 = i0 + l.length := by
  induction l generalizing i0 with
  | nil => simp [getSoundIndexLoop, ha]
  | cons e rest ih =>
    cases e with
    | none =>
      have := hlive none (List.mem_cons_self _ _)
      simp at this
    | some s =>
      rw [List.cons_append]
      unfold getSoundIndexLoop at hr ⊢
      by_cases h1 : s.hashCode = h
      · rw [if_pos h1] at hr
        omega
      · by_cases h2 : o ≠ -1 ∧ s.hashCode = o
        · rw [if_neg h1, if_pos h2] at hr
          omega
        · rw [if_neg h1, if_neg h2] at hr
          rw [if_neg h1, if_neg h2, ih (i0 + 1) (by omega)
            (fun e he => hlive e (List.mem_cons_of_mem _ he)) hr]
          simp only [List.length_cons]
          push_cast
          omega

theorem ModulatorSamplerSoundPool.addSoundWithSingleMic_eq (env : PoolEnv) (L : FloatLib)
    (p : ModulatorSamplerSoundPool) (d : ValueTree) (index : Int) :
    addSoundWithSingleMic env L p d index false
      = { pool := (resolveReference env (isDuplicate d) p (fileNameOf env d.properties)).pool
          sound := (resolveReference env (isDuplicate d) p (fileNameOf env d.properties)).asset.map
            (fun a => ModulatorSamplerSound.new L a index)
          poolIndices := [(resolveReference env (isDuplicate d) p
            (fileNameOf env d.properties)).index]
          changeMessages := p.updateMessages } := by
  simp only [addSoundWithSingleMic, resolveReference, isDuplicate, fileNameOf,
    ValueTree.getProperty, Bool.false_eq_true, if_false]
  generalize (p.forcePoolSearch || (getNamedValue "Duplicate" (Var.bool true) d.properties).toBool)
    = b
  generalize (if b = true then p.getSoundIndexFromPool _ _ else -1) = i
  by_cases hC : b = true ∧ i ≠ -1
  · simp only [if_pos hC]
  · simp only [if_neg hC, Option.map]

theorem ModulatorSamplerSoundPool.addMultiMicChild_eq (env : PoolEnv) (d : ValueTree)
    (st : MultiMicState) (c : ValueTreeNode) :
    addMultiMicChild env d false st c
      = { pool := (resolveReference env (isDuplicate d) st.pool (fileNameOf env c.properties)).pool
          multiMicArray := st.multiMicArray ++
            [(resolveReference env (isDuplicate d) st.pool (fileNameOf env c.properties)).asset]
          poolIndices := st.poolIndices ++
            [(resolveReference env (isDuplicate d) st.pool (fileNameOf env c.properties)).index]
          changeMessages := st.changeMessages } := by
  simp only [addMultiMicChild, resolveReference, isDuplicate, fileNameOf,
    ValueTree.getProperty, Bool.false_eq_true, if_false]
  split_ifs <;> rfl

theorem ModulatorSamplerSoundPool.foldl_addMultiMicChild_eq (env : PoolEnv) (d : ValueTree)
    (cs : List ValueTreeNode) (st : MultiMicState) :
    cs.foldl (addMultiMicChild env d false) st
      = { pool := (resolveReferences env (isDuplicate d) st.pool
            (cs.map (fun c => fileNameOf env c.properties))).1
          multiMicArray := st.multiMicArray ++
            (resolveReferences env (isDuplicate d) st.pool
              (cs.map (fun c => fileNameOf env c.properties))).2.map Prod.snd
          poolIndices := st.poolIndices ++
            (resolveReferences env (isDuplicate d) st.pool
              (cs.map (fun c => fileNameOf env c.properties))).2.map Prod.fst
          changeMessages := st.changeMessages } := by
  induction cs generalizing st with
  | nil => simp [resolveReferences]
  | cons c cs ih =>
    rw [List.foldl_cons, ih, addMultiMicChild_eq]
    simp [resolveReferences]

theorem ModulatorSamplerSoundPool.addSound_eq (env : PoolEnv) (L : FloatLib)
    (p : ModulatorSamplerSoundPool) (d : ValueTree) (index : Int) :
    (addSound env L p d index false).pool
        = (resolveReferences env (isDuplicate d) p (fileNamesOf env d)).1 ∧
    (addSound env L p d index false).poolIndices
        = (resolveReferences env (isDuplicate d) p (fileNamesOf env d)).2.map Prod.fst ∧
    (addSound env L p d index false).sound
        = if d.children.length > 1 then
            (if ((resolveReferences env (isDuplicate d) p (fileNamesOf env d)).2.map
                Prod.snd).all Option.isSome then
              some (ModulatorSamplerSound.newMultiMic L
                (((resolveReferences env (isDuplicate d) p (fileNamesOf env d)).2.map
                  Prod.snd).filterMap id) index)
            else none)
          else
            (resolveReference env (isDuplicate d) p (fileNameOf env d.properties)).asset.map
              (fun a => ModulatorSamplerSound.new L a index) := by
  unfold addSound fileNamesOf
  by_cases hc : d.children.length > 1
  · simp only [hc, if_true, addSoundWithMultiMic, foldl_addMultiMicChild_eq, List.nil_append,
      and_self]
  · simp only [hc, if_false, addSoundWithSingleMic_eq, resolveReferences, List.map_cons,
      List.map_nil, and_self]

theorem ModulatorSamplerSoundPool.entry_of_get (p : ModulatorSamplerSoundPool) (k : ℕ)
    (a : StreamingSamplerSound) (h : p.pool.get? k = some (some a)) :
    p.entry ((0 : Int) + k) = some a := by
  have h2 : p.pool[k]? = some (some a) := by rw [← List.get?_eq_getElem?]; exact h
  simp [entry, h2]

theorem ModulatorSamplerSoundPool.resolveReference_found (env : PoolEnv) (dup : Bool)
    (p : ModulatorSamplerSoundPool) (w : String)
    (hsearch : (p.forcePoolSearch || dup) = true)
    (hi : p.getSoundIndexFromPool (env.hashCode64 (env.getFilePath w)) (env.hashCode64 w) ≠ -1) :
    resolveReference env dup p w
      = { pool := p
          index := p.getSoundIndexFromPool (env.hashCode64 (env.getFilePath w))
            (env.hashCode64 w)
          asset := p.entry (p.getSoundIndexFromPool (env.hashCode64 (env.getFilePath w))
            (env.hashCode64 w)) } := by
  simp only [resolveReference, hsearch, if_true, true_and]
  rw [if_pos hi]

theorem ModulatorSamplerSoundPool.resolveReference_created (env : PoolEnv) (dup : Bool)
    (p : ModulatorSamplerSoundPool) (w : String)
    (h : (p.forcePoolSearch || dup) = false ∨
      p.getSoundIndexFromPool (env.hashCode64 (env.getFilePath w)) (env.hashCode64 w) = -1) :
    resolveReference env dup p w
      = { pool := p.add (StreamingSamplerSound.fromFile env (env.getFilePath w))
          index := (p.pool.length : Int)
          asset := some (StreamingSamplerSound.fromFile env (env.getFilePath w)) } := by
  unfold resolveReference
  rcases h with h | h
  · simp [h]
  · by_cases hs : (p.forcePoolSearch || dup) = true
    · simp only [hs, if_true, true_and, h]
      simp
    · simp [hs]

theorem ModulatorSamplerSoundPool.resolveReference_cases (env : PoolEnv) (dup : Bool)
    (p : ModulatorSamplerSoundPool) (w : String) :
    ((p.forcePoolSearch || dup) = true ∧
      p.getSoundIndexFromPool (env.hashCode64 (env.getFilePath w)) (env.hashCode64 w) ≠ -1) ∨
    ((p.forcePoolSearch || dup) = false ∨
      p.getSoundIndexFromPool (env.hashCode64 (env.getFilePath w)) (env.hashCode64 w) = -1) := by
  by_cases hs : (p.forcePoolSearch || dup) = true
  · by_cases hi : p.getSoundIndexFromPool (env.hashCode64 (env.getFilePath w))
        (env.hashCode64 w) = -1
    · exact Or.inr (Or.inr hi)
    · exact Or.inl ⟨hs, hi⟩
  · exact Or.inr (Or.inl (by simpa using hs))

theorem ModulatorSamplerSoundPool.getSoundIndexFromPool_found (p : ModulatorSamplerSoundPool)
    (h o : Int) (hi : p.getSoundIndexFromPool h o ≠ -1) :
    p.searchPool = true ∧
      ∃ a : StreamingSamplerSound, p.entry (p.getSoundIndexFromPool h o) = some a ∧
        (a.hashCode = h ∨ a.hashCode = o) ∧
        0 ≤ p.getSoundIndexFromPool h o ∧
        p.getSoundIndexFromPool h o < p.pool.length := by
  unfold getSoundIndexFromPool at hi ⊢
  cases hs : p.searchPool
  · simp [hs] at hi
  · simp only [hs, Bool.not_true, Bool.false_eq_true, if_false] at hi ⊢
    obtain ⟨k, a, hk, hget, hm⟩ := getSoundIndexLoop_found h o p.pool 0 (le_refl _) hi
    refine ⟨trivial, a, ?_, hm, by omega, ?_⟩
    · rw [hk]
      exact entry_of_get p k a hget
    · have hlt : k < p.pool.length := by
        rw [List.get?_eq_some] at hget
        exact hget.1
      omega

/-- What resolving one reference does to the pool: the flags stay, the list of entries
grows by at most one entry at its end, a live one. -/
theorem ModulatorSamplerSoundPool.resolveReference_pool (env : PoolEnv) (dup : Bool)
    (p : ModulatorSamplerSoundPool) (w : String) :
    ∃ ext : List (Option StreamingSamplerSound),
      (resolveReference env dup p w).pool = { p with pool := p.pool ++ ext } ∧
      (∀ e ∈ ext, e.isSome = true) ∧ ext.length ≤ 1 := by
  rcases resolveReference_cases env dup p w with h | h
  · rw [resolveReference_found env dup p w h.1 h.2]
    exact ⟨[], by simp, by simp, by simp⟩
  · rw [resolveReference_created env dup p w h]
    exact ⟨[some (StreamingSamplerSound.fromFile env (env.getFilePath w))], rfl, by simp,
      by simp⟩

theorem ModulatorSamplerSoundPool.resolveReference_asset (env : PoolEnv) (dup : Bool)
    (p : ModulatorSamplerSoundPool) (w : String) :
    ∃ a : StreamingSamplerSound, (resolveReference env dup p w).asset = some a ∧
      matchesReference env w a ∧
      (resolveReference env dup p w).pool.entry (resolveReference env dup p w).index
        = some a := by
  rcases resolveReference_cases env dup p w with h | h
  · rw [resolveReference_found env dup p w h.1 h.2]
    obtain ⟨_, a, ha, hm, _, _⟩ := getSoundIndexFromPool_found p _ _ h.2
    exact ⟨a, ha, hm, ha⟩
  · rw [resolveReference_created env dup p w h]
    refine ⟨_, rfl, Or.inl rfl, ?_⟩
    simp [entry, ModulatorSamplerSoundPool.add]

theorem ModulatorSamplerSoundPool.getSoundIndexFromPool_eq_loop (p : ModulatorSamplerSoundPool)
    (h o : Int) (hs : p.searchPool = true) :
    p.getSoundIndexFromPool h o = getSoundIndexLoop h o p.pool 0 := by
  simp [getSoundIndexFromPool, hs]

/-- With pool search on and only live entries, the index found for a reference stays the
one every later search for it finds, however the pool grows at its end. -/
theorem ModulatorSamplerSoundPool.resolveReference_stable (env : PoolEnv) (dup : Bool)
    (p : ModulatorSamplerSoundPool) (w : String) (hs : p.searchPool = true)
    (hlive : ∀ e ∈ p.pool, e.isSome = true) (hsearch : (p.forcePoolSearch || dup) = true) :
    (resolveReference env dup p w).index ≠ -1 ∧
      ∀ ext : List (Option StreamingSamplerSound),
        getSoundIndexLoop (env.hashCode64 (env.getFilePath w)) (env.hashCode64 w)
            ((resolveReference env dup p w).pool.pool ++ ext) 0
          = (resolveReference env dup p w).index := by
  rcases resolveReference_cases env dup p w with h | h
  · rw [resolveReference_found env dup p w h.1 h.2]
    have hi := h.2
    rw [getSoundIndexFromPool_eq_loop p _ _ hs] at hi ⊢
    exact ⟨hi, fun ext => getSoundIndexLoop_append_found _ _ _ _ _ hi⟩
  · rw [resolveReference_created env dup p w h]
    have hi : getSoundIndexLoop (env.hashCode64 (env.getFilePath w)) (env.hashCode64 w)
        p.pool 0 = -1 := by
      rcases h with h | h
      · rw [hsearch] at h; cases h
      · rw [getSoundIndexFromPool_eq_loop p _ _ hs] at h; exact h
    refine ⟨by simp only [ne_eq]; omega, fun ext => ?_⟩
    simp only [ModulatorSamplerSoundPool.add, List.append_assoc, List.singleton_append]
    rw [getSoundIndexLoop_append_new _ _ _ _ _ 0 (le_refl _) hlive hi rfl]
    omega

theorem ModulatorSamplerSoundPool.resolveReference_reuses (env : PoolEnv) (dup : Bool)
    (p : ModulatorSamplerSoundPool) (w : String) (hs : p.searchPool = true)
    (hsearch : (p.forcePoolSearch || dup) = true) (i : Int) (hi : i ≠ -1)
    (hloop : getSoundIndexLoop (env.hashCode64 (env.getFilePath w)) (env.hashCode64 w)
      p.pool 0 = i) :
    resolveReference env dup p w = { pool := p, index := i, asset := p.entry i } := by
  have h1 : p.getSoundIndexFromPool (env.hashCode64 (env.getFilePath w)) (env.hashCode64 w)
      = i := by
    rw [getSoundIndexFromPool_eq_loop p _ _ hs, hloop]
  rw [resolveReference_found env dup p w hsearch (by rw [h1]; exact hi), h1]

theorem ModulatorSamplerSoundPool.resolveReferences_pool (env : PoolEnv) (dup : Bool)
    (ws : List String) (p : ModulatorSamplerSoundPool) :
    ∃ ext : List (Option StreamingSamplerSound),
      (resolveReferences env dup p ws).1 = { p with pool := p.pool ++ ext } ∧
      (∀ e ∈ ext, e.isSome = true) ∧ ext.length ≤ ws.length ∧
      (resolveReferences env dup p ws).2.length = ws.length := by
  induction ws generalizing p with
  | nil => exact ⟨[], by simp [resolveReferences], by simp, by simp, by simp [resolveReferences]⟩
  | cons w ws ih =>
    obtain ⟨e1, h1, l1, n1⟩ := resolveReference_pool env dup p w
    obtain ⟨e2, h2, l2, n2, m2⟩ := ih (resolveReference env dup p w).pool
    refine ⟨e1 ++ e2, ?_, ?_, ?_, ?_⟩
    · simp only [resolveReferences]
      rw [h2, h1]
      simp
    · intro e he
      rcases List.mem_append.1 he with h | h
      · exact l1 e h
      · exact l2 e h
    · simp only [List.length_append, List.length_cons]
      omega
    · simp only [resolveReferences, List.length_cons, m2]

theorem ModulatorSamplerSoundPool.resolveReferences_stable (env : PoolEnv) (dup : Bool)
    (ws : List String) (p : ModulatorSamplerSoundPool) (hs : p.searchPool = true)
    (hlive : ∀ e ∈ p.pool, e.isSome = true) (hsearch : (p.forcePoolSearch || dup) = true)
    (k : ℕ) (w : String) (hk : ws.get? k = some w) :
    ∃ i : Int, ((resolveReferences env dup p ws).2.map Prod.fst).get? k = some i ∧ i ≠ -1 ∧
      ∀ ext : List (Option StreamingSamplerSound),
        getSoundIndexLoop (env.hashCode64 (env.getFilePath w)) (env.hashCode64 w)
            ((resolveReferences env dup p ws).1.pool ++ ext) 0 = i := by
  induction ws generalizing p k with
  | nil => simp at hk
  | cons w0 ws ih =>
    obtain ⟨e1, h1, l1, _⟩ := resolveReference_pool env dup p w0
    have hs1 : (resolveReference env dup p w0).pool.searchPool = true := by rw [h1]; exact hs
    have hf1 : ((resolveReference env dup p w0).pool.forcePoolSearch || dup) = true := by
      rw [h1]; exact hsearch
    have hl1 : ∀ e ∈ (resolveReference env dup p w0).pool.pool, e.isSome = true := by
      rw [h1]
      intro e he
      rcases List.mem_append.1 he with h | h
      · exact hlive e h
      · exact l1 e h
    cases k with
    | zero =>
      simp only [List.get?_cons_zero, Option.some.injEq] at hk
      subst hk
      obtain ⟨hne, hst⟩ := resolveReference_stable env dup p w0 hs hlive hsearch
      obtain ⟨e2, h2, _, _, _⟩ := resolveReferences_pool env dup ws
        (resolveReference env dup p w0).pool
      refine ⟨_, by simp [resolveReferences], hne, fun ext => ?_⟩
      simp only [resolveReferences]
      rw [h2]
      simp only [List.append_assoc]
      exact hst (e2 ++ ext)
    | succ k =>
      simp only [List.get?_cons_succ] at hk
      obtain ⟨i, hi, hne, hst⟩ := ih (resolveReference env dup p w0).pool hs1 hl1 hf1 k hk
      exact ⟨i, by simpa [resolveReferences] using hi, hne, hst⟩

theorem ModulatorSamplerSoundPool.resolveReferences_reuses (env : PoolEnv) (dup : Bool)
    (base : List (Option StreamingSamplerSound)) (ws : List String)
    (p : ModulatorSamplerSoundPool) (e0 : List (Option StreamingSamplerSound))
    (hp : p.pool = base ++ e0) (hs : p.searchPool = true)
    (hsearch : (p.forcePoolSearch || dup) = true) (k : ℕ) (w : String) (i : Int)
    (hk : ws.get? k = some w) (hi : i ≠ -1)
    (hst : ∀ ext : List (Option StreamingSamplerSound),
      getSoundIndexLoop (env.hashCode64 (env.getFilePath w)) (env.hashCode64 w)
        (base ++ ext) 0 = i) :
    ((resolveReferences env dup p ws).2.map Prod.fst).get? k = some i := by
  induction ws generalizing p k e0 with
  | nil => simp at hk
  | cons w0 ws ih =>
    cases k with
    | zero =>
      simp only [List.get?_cons_zero, Option.some.injEq] at hk
      subst hk
      have hloop := hst e0
      rw [← hp] at hloop
      simp [resolveReferences, resolveReference_reuses env dup p w0 hs hsearch i hi hloop]
    | succ k =>
      simp only [List.get?_cons_succ] at hk
      obtain ⟨e1, h1, _, _⟩ := resolveReference_pool env dup p w0
      have hp1 : (resolveReference env dup p w0).pool.pool = base ++ (e0 ++ e1) := by
        rw [h1]; simp [hp]
      have hs1 : (resolveReference env dup p w0).pool.searchPool = true := by rw [h1]; exact hs
      have hf1 : ((resolveReference env dup p w0).pool.forcePoolSearch || dup) = true := by
        rw [h1]; exact hsearch
      have := ih (resolveReference env dup p w0).pool (e0 ++ e1) hp1 hs1 hf1 k hk
      simpa [resolveReferences] using this

theorem ModulatorSamplerSoundPool.resolveReferences_unchanged (env : PoolEnv) (dup : Bool)
    (base : List (Option StreamingSamplerSound)) (ws : List String)
    (p : ModulatorSamplerSoundPool) (e0 : List (Option StreamingSamplerSound))
    (hp : p.pool = base ++ e0) (hs : p.searchPool = true)
    (hsearch : (p.forcePoolSearch || dup) = true)
    (hall : ∀ w ∈ ws, ∃ i : Int, i ≠ -1 ∧ ∀ ext : List (Option StreamingSamplerSound),
      getSoundIndexLoop (env.hashCode64 (env.getFilePath w)) (env.hashCode64 w)
        (base ++ ext) 0 = i) :
    (resolveReferences env dup p ws).1 = p := by
  induction ws with
  | nil => rfl
  | cons w0 ws ih =>
    obtain ⟨i, hi, hst⟩ := hall w0 (List.mem_cons_self _ _)
    have hloop := hst e0
    rw [← hp] at hloop
    simp only [resolveReferences, resolveReference_reuses env dup p w0 hs hsearch i hi hloop]
    exact ih (fun w hw => hall w (List.mem_cons_of_mem _ hw))

theorem ModulatorSamplerSoundPool.entry_append (p : ModulatorSamplerSoundPool)
    (ext : List (Option StreamingSamplerSound)) (i : Int) (a : StreamingSamplerSound)
    (h : p.entry i = some a) :
    ({ p with pool := p.pool ++ ext } : ModulatorSamplerSoundPool).entry i = some a := by
  unfold entry at h ⊢
  by_cases hi : 0 ≤ i
  · simp only [hi, if_true] at h ⊢
    cases hg : p.pool.get? i.toNat with
    | none => rw [hg] at h; cases h
    | some x =>
      have hlt : i.toNat < p.pool.length := by
        rw [List.get?_eq_some] at hg
        exact hg.1
      have : (p.pool ++ ext).get? i.toNat = some x := by
        rw [List.get?_eq_getElem?, List.getElem?_append_left hlt, ← List.get?_eq_getElem?, hg]
      rw [this, ← hg]
      exact h
  · simp [hi] at h

theorem ModulatorSamplerSoundPool.resolveReferences_assets (env : PoolEnv) (dup : Bool)
    (ws : List String) (p : ModulatorSamplerSoundPool) :
    List.Forall₂
      (fun (w : String) (x : Int × Option StreamingSamplerSound) =>
        ∃ a : StreamingSamplerSound, x.2 = some a ∧ matchesReference env w a ∧
          (resolveReferences env dup p ws).1.entry x.1 = some a)
      ws (resolveReferences env dup p ws).2 := by
  induction ws generalizing p with
  | nil => simp [resolveReferences]
  | cons w ws ih =>
    obtain ⟨a, ha, hm, he⟩ := resolveReference_asset env dup p w
    obtain ⟨e2, h2, _, _, _⟩ := resolveReferences_pool env dup ws (resolveReference env dup p w).pool
    simp only [resolveReferences]
    refine List.Forall₂.cons ⟨a, ha, hm, ?_⟩ (ih _)
    rw [h2]
    exact entry_append _ _ _ _ he

theorem ModulatorSamplerSound.new_soundArray (L : FloatLib) (a : StreamingSamplerSound)
    (index : Int) :
    (ModulatorSamplerSound.new L a index).soundArray = [a] ∧
      (ModulatorSamplerSound.new L a index).isMultiMicSound = false ∧
      (ModulatorSamplerSound.new L a index).index = index := by
  simp [ModulatorSamplerSound.new, setProperty_fst, setPropertyInternal]

theorem ModulatorSamplerSound.newMultiMic_soundArray (L : FloatLib)
    (l : List StreamingSamplerSound) (index : Int) :
    (ModulatorSamplerSound.newMultiMic L l index).soundArray = l ∧
      (ModulatorSamplerSound.newMultiMic L l index).isMultiMicSound = true ∧
      (ModulatorSamplerSound.newMultiMic L l index).index = index := by
  simp [ModulatorSamplerSound.newMultiMic, setProperty_fst, setPropertyInternal]

theorem forall₂_assets_some {α : Type} (R : α → StreamingSamplerSound → Prop)
    (ws : List α) (xs : List (Int × Option StreamingSamplerSound))
    (h : List.Forall₂ (fun w x => ∃ a : StreamingSamplerSound, x.2 = some a ∧ R w a) ws xs) :
    ∃ l : List StreamingSamplerSound, xs.map Prod.snd = l.map some ∧ List.Forall₂ R ws l := by
  induction h with
  | nil => exact ⟨[], rfl, List.Forall₂.nil⟩
  | cons hx _ ih =>
    obtain ⟨a, ha, hr⟩ := hx
    obtain ⟨l, hl, hf⟩ := ih
    exact ⟨a :: l, by simp [ha, hl], List.Forall₂.cons hr hf⟩

/-- Without forced reuse `addSound` always hands back a sound; its assets are, in
channel order, the asset pointers of the resolved references, each a live entry of the
resulting pool at the index reported for it and matching its file reference. -/
theorem ModulatorSamplerSoundPool.addSound_sound (env : PoolEnv) (L : FloatLib)
    (p : ModulatorSamplerSoundPool) (d : ValueTree) (index : Int) :
    ∃ snd : ModulatorSamplerSound,
      (addSound env L p d index false).sound = some snd ∧
      snd.isMultiMicSound = decide (d.children.length > 1) ∧
      (resolveReferences env (isDuplicate d) p (fileNamesOf env d)).2.map Prod.snd
        = snd.soundArray.map some ∧
      List.Forall₂ (fun w a => matchesReference env w a) (fileNamesOf env d) snd.soundArray := by
  obtain ⟨_, _, hsound⟩ := addSound_eq env L p d index
  have hassets := resolveReferences_assets env (isDuplicate d) (fileNamesOf env d) p
  obtain ⟨l, hl, hf⟩ := forall₂_assets_some (fun w a => matchesReference env w a) _ _
    (hassets.imp (fun _ _ h => by
      obtain ⟨a, ha, hm, _⟩ := h
      exact ⟨a, ha, hm⟩))
  by_cases hc : d.children.length > 1
  · refine ⟨ModulatorSamplerSound.newMultiMic L l index, ?_, ?_, ?_, ?_⟩
    · rw [hsound, if_pos hc, hl]
      simp
    · simp [(newMultiMic_soundArray L l index).2.1, hc]
    · rw [(newMultiMic_soundArray L l index).1]; exact hl
    · rw [(newMultiMic_soundArray L l index).1]; exact hf
  · have hnames : fileNamesOf env d = [fileNameOf env d.properties] := by
      simp [fileNamesOf, hc]
    rw [hnames] at hl hf
    simp only [resolveReferences, List.map_cons, List.map_nil] at hl
    cases l with
    | nil => simp at hl
    | cons a l =>
      cases l with
      | cons b l => simp at hl
      | nil =>
        simp only [List.map_cons, List.map_nil, List.cons.injEq, and_true] at hl
        refine ⟨ModulatorSamplerSound.new L a index, ?_, ?_, ?_, ?_⟩
        · rw [hsound, if_neg hc, hl]
          rfl
        · simp [(new_soundArray L a index).2.1, hc]
        · rw [(new_soundArray L a index).1, hnames]
          simp [resolveReferences, hl]
        · rw [(new_soundArray L a index).1, hnames]
          exact hf

theorem forall₂_get {α β : Type} (R : α → β → Prop) (l1 : List α) (l2 : List β)
    (h : List.Forall₂ R l1 l2) (k : ℕ) (x : α) (hx : l1.get? k = some x) :
    ∃ y, l2.get? k = some y ∧ R x y := by
  induction h generalizing k with
  | nil => simp at hx
  | cons hr _ ih =>
    cases k with
    | zero =>
      simp only [List.get?_cons_zero, Option.some.injEq] at hx
      subst hx
      exact ⟨_, rfl, hr⟩
    | succ k => exact ih k hx

theorem ModulatorSamplerSoundPool.resolveReferences_fresh (env : PoolEnv)
    (ws : List String) (p : ModulatorSamplerSoundPool) (hf : p.forcePoolSearch = false) :
    (resolveReferences env false p ws).1
        = { p with pool := p.pool ++
              ws.map (fun w => some (StreamingSamplerSound.fromFile env (env.getFilePath w))) } ∧
    (resolveReferences env false p ws).2.map Prod.snd
        = ws.map (fun w => some (StreamingSamplerSound.fromFile env (env.getFilePath w))) ∧
    (resolveReferences env false p ws).2.map Prod.fst
        = (List.range ws.length).map (fun k => ((p.pool.length + k : ℕ) : Int)) := by
  induction ws generalizing p with
  | nil => simp [resolveReferences]
  | cons w ws ih =>
    have hstep := resolveReference_created env false p w (Or.inl (by simp [hf]))
    have hf1 : (p.add (StreamingSamplerSound.fromFile env (env.getFilePath w))).forcePoolSearch
        = false := hf
    obtain ⟨h1, h2, h3⟩ := ih (p.add (StreamingSamplerSound.fromFile env (env.getFilePath w))) hf1
    simp only [resolveReferences, hstep]
    refine ⟨?_, ?_, ?_⟩
    · rw [h1]
      simp [ModulatorSamplerSoundPool.add]
    · simp [h2]
    · simp only [List.map_cons, h3, List.length_cons, List.range_succ_eq_map, List.map_map]
      simp only [ModulatorSamplerSoundPool.add, List.length_append, List.length_singleton,
        List.cons.injEq, Nat.add_zero, true_and]
      apply List.map_congr_left
      intro k _
      simp only [Function.comp]
      push_cast
      omega

set_option maxRecDepth 100000 in
/-- C15 (as stated) fails: a descriptor without any Duplicate hint, added with forced
search off to a pool that already holds the asset of its file, reuses that asset (pool
index 0) and the pool does not grow; only with Duplicate = false is a second asset
appended. -/
theorem addSound_no_hint_counterexample :
    poolWithA.forcePoolSearch = false ∧ plainDescriptor.hasProperty "Duplicate" = false ∧
    (addSound exampleEnv FloatLib.linear poolWithA plainDescriptor 7 false).poolIndices = [0] ∧
    (addSound exampleEnv FloatLib.linear poolWithA plainDescriptor 7 false).pool = poolWithA ∧
    (addSound exampleEnv FloatLib.linear poolWithA uniqueDescriptor 7 false).poolIndices = [1] ∧
    (addSound exampleEnv FloatLib.linear poolWithA uniqueDescriptor 7 false).pool.pool.length
      = 2 := by
  decide

/-- C15 (amended): for addSound called without forceReuse, a descriptor counts as marked
duplicate when its Duplicate property is true or when it has no Duplicate property at
all. For every descriptor that does not count as duplicate (Duplicate = false), with
pool-wide forced search off, one fresh asset per file reference is created and appended
to the pool in channel order, whatever the pool already holds, and the new sound is made
of exactly these assets; so an asset already in the pool is reused only if the descriptor
counts as duplicate or forced search is on. -/
theorem addSound_fresh_unless_duplicate (env : PoolEnv) (L : FloatLib)
    (p : ModulatorSamplerSoundPool) (d : ValueTree) (index : Int)
    (hforce : p.forcePoolSearch = false) (hdup : isDuplicate d = false) :
    d.hasProperty "Duplicate" = true ∧
    (addSound env L p d index false).pool
      = { p with pool := p.pool ++ (fileNamesOf env d).map
                           (fun w => some (StreamingSamplerSound.fromFile env (env.getFilePath w))) } ∧
    (addSound env L p d index false).poolIndices
      = (List.range (fileNamesOf env d).length).map (fun k => ((p.pool.length + k : ℕ) : Int)) ∧
    ∃ snd : ModulatorSamplerSound,
      (addSound env L p d index false).sound = some snd ∧
      snd.soundArray = (fileNamesOf env d).map
        (fun w => StreamingSamplerSound.fromFile env (env.getFilePath w)) := by
  obtain ⟨hp, hi, _⟩ := addSound_eq env L p d index
  obtain ⟨h1, h2, h3⟩ := resolveReferences_fresh env (fileNamesOf env d) p hforce
  obtain ⟨snd, hs, _, ha, _⟩ := addSound_sound env L p d index
  rw [hdup] at hp hi ha
  refine ⟨?_, by rw [hp, h1], by rw [hi, h3], snd, hs, ?_⟩
  · by_contra hno
    have hnone : ∀ (l : List (String × Var)),
        l.any (fun nx => decide (nx.1 = "Duplicate")) = false →
        getNamedValue "Duplicate" (Var.bool true) l = Var.bool true := by
      intro l
      induction l with
      | nil => intro _; rfl
      | cons x l ih =>
        obtain ⟨n, v⟩ := x
        intro hx
        simp only [List.any_cons, Bool.or_eq_false_iff, decide_eq_false_iff_not] at hx
        simp only [getNamedValue, if_neg hx.1]
        exact ih hx.2
    have : isDuplicate d = true := by
      simp only [isDuplicate, ValueTree.getProperty]
      have hno2 : d.hasProperty "Duplicate" = false := by
        cases hb : d.hasProperty "Duplicate"
        · rfl
        · exact absurd hb hno
      rw [hnone d.properties hno2]
      rfl
    rw [hdup] at this
    cases this
  · rw [h2] at ha
    have hinj : Function.Injective (some : StreamingSamplerSound → Option StreamingSamplerSound) :=
      Option.some_injective _
    apply List.map_injective_iff.2 hinj
    rw [← ha, List.map_map]
    rfl

set_option maxRecDepth 100000 in
theorem addSound_fresh_unless_duplicate_witness :
    poolWithA.forcePoolSearch = false ∧ isDuplicate uniqueDescriptor = false ∧
      ∃ snd : ModulatorSamplerSound,
        (addSound exampleEnv FloatLib.linear poolWithA uniqueDescriptor 7 false).sound
          = some snd ∧
        snd.soundArray = (fileNamesOf exampleEnv uniqueDescriptor).map
          (fun w => StreamingSamplerSound.fromFile exampleEnv (exampleEnv.getFilePath w)) :=
  ⟨by decide, by decide,
    (addSound_fresh_unless_duplicate exampleEnv FloatLib.linear poolWithA uniqueDescriptor 7
      (by decide) (by decide)).2.2.2⟩

theorem get?_map_fst_snd {α β : Type} (l : List (α × β)) (k : ℕ) (x : α × β)
    (h : l.get? k = some x) :
    (l.map Prod.fst).get? k = some x.1 ∧ (l.map Prod.snd).get? k = some x.2 := by
  rw [List.get?_eq_getElem?] at h
  simp only [List.get?_eq_getElem?, List.getElem?_map, h, Option.map_some', and_self]

theorem get?_of_map_some {α : Type} (l : List α) (k : ℕ) (a : α)
    (h : (l.map some).get? k = some (some a)) : l.get? k = some a := by
  rw [List.get?_eq_getElem?, List.getElem?_map] at h
  rw [List.get?_eq_getElem?]
  cases hl : l[k]? with
  | none => rw [hl] at h; simp at h
  | some b =>
    rw [hl] at h
    simp only [Option.map_some', Option.some.injEq] at h
    rw [h]

/-- The shared-asset fact behind `addSound` with a searching pool: resolving the names
`ws1` and then the names `ws2` gives, wherever both lists name the same file reference,
the same pool index and the same asset. -/
theorem ModulatorSamplerSoundPool.resolveReferences_share (env : PoolEnv) (dup1 dup2 : Bool)
    (ws1 ws2 : List String) (p : ModulatorSamplerSoundPool) (hs : p.searchPool = true)
    (hlive : ∀ e ∈ p.pool, e.isSome = true)
    (h1 : (p.forcePoolSearch || dup1) = true) (h2 : (p.forcePoolSearch || dup2) = true)
    (k1 k2 : ℕ) (w : String) (hk1 : ws1.get? k1 = some w) (hk2 : ws2.get? k2 = some w) :
    ∃ (i : Int) (a : StreamingSamplerSound), i ≠ -1 ∧
      ((resolveReferences env dup1 p ws1).2.map Prod.fst).get? k1 = some i ∧
      ((resolveReferences env dup2 (resolveReferences env dup1 p ws1).1 ws2).2.map
        Prod.fst).get? k2 = some i ∧
      ((resolveReferences env dup1 p ws1).2.map Prod.snd).get? k1 = some (some a) ∧
      ((resolveReferences env dup2 (resolveReferences env dup1 p ws1).1 ws2).2.map
        Prod.snd).get? k2 = some (some a) ∧
      (resolveReferences env dup2 (resolveReferences env dup1 p ws1).1 ws2).1.entry i
        = some a := by
  obtain ⟨ext1, he1, _, _, _⟩ := resolveReferences_pool env dup1 ws1 p
  have hsP : (resolveReferences env dup1 p ws1).1.searchPool = true := by rw [he1]; exact hs
  have hfP : ((resolveReferences env dup1 p ws1).1.forcePoolSearch || dup2) = true := by
    rw [he1]; exact h2
  obtain ⟨i, hidx1, hne, hst⟩ := resolveReferences_stable env dup1 ws1 p hs hlive h1 k1 w hk1
  have hidx2 := resolveReferences_reuses env dup2 (resolveReferences env dup1 p ws1).1.pool ws2
    (resolveReferences env dup1 p ws1).1 [] (by simp) hsP hfP k2 w i hk2 hne hst
  obtain ⟨x, hx, a1, hxa, _, hent1⟩ :=
    forall₂_get _ _ _ (resolveReferences_assets env dup1 ws1 p) k1 w hk1
  obtain ⟨y, hy, a2, hya, _, hent2⟩ :=
    forall₂_get _ _ _
      (resolveReferences_assets env dup2 ws2 (resolveReferences env dup1 p ws1).1) k2 w hk2
  obtain ⟨hx1, hx2⟩ := get?_map_fst_snd _ _ _ hx
  obtain ⟨hy1, hy2⟩ := get?_map_fst_snd _ _ _ hy
  have hxi : x.1 = i := by
    rw [hx1] at hidx1
    exact Option.some.inj hidx1
  have hyi : y.1 = i := by
    rw [hy1] at hidx2
    exact Option.some.inj hidx2
  rw [hxi] at hent1
  rw [hyi] at hent2
  obtain ⟨ext2, he2, _, _, _⟩ :=
    resolveReferences_pool env dup2 ws2 (resolveReferences env dup1 p ws1).1
  have hent3 := entry_append (resolveReferences env dup1 p ws1).1 ext2 i a1 hent1
  rw [← he2, hent2] at hent3
  have ha : a2 = a1 := Option.some.inj hent3
  subst ha
  refine ⟨i, a2, hne, hidx1, hidx2, ?_, ?_, hent2⟩
  · rw [hx2, hxa]
  · rw [hy2, hya]

/-- Resolving names that were all resolved just before leaves the pool as it is. -/
theorem ModulatorSamplerSoundPool.resolveReferences_again (env : PoolEnv) (dup1 dup2 : Bool)
    (ws1 ws2 : List String) (p : ModulatorSamplerSoundPool) (hs : p.searchPool = true)
    (hlive : ∀ e ∈ p.pool, e.isSome = true)
    (h1 : (p.forcePoolSearch || dup1) = true) (h2 : (p.forcePoolSearch || dup2) = true)
    (hsub : ∀ w ∈ ws2, w ∈ ws1) :
    (resolveReferences env dup2 (resolveReferences env dup1 p ws1).1 ws2).1
      = (resolveReferences env dup1 p ws1).1 := by
  obtain ⟨ext1, he1, _, _, _⟩ := resolveReferences_pool env dup1 ws1 p
  have hsP : (resolveReferences env dup1 p ws1).1.searchPool = true := by rw [he1]; exact hs
  have hfP : ((resolveReferences env dup1 p ws1).1.forcePoolSearch || dup2) = true := by
    rw [he1]; exact h2
  apply resolveReferences_unchanged env dup2 (resolveReferences env dup1 p ws1).1.pool ws2
    (resolveReferences env dup1 p ws1).1 [] (by simp) hsP hfP
  intro w hw
  obtain ⟨k, hk⟩ := List.mem_iff_get?.1 (hsub w hw)
  obtain ⟨i, _, hne, hst⟩ := resolveReferences_stable env dup1 ws1 p hs hlive h1 k w hk
  exact ⟨i, hne, hst⟩

set_option maxRecDepth 100000 in
/-- C16 (as stated) fails for some pool states: with pool search switched off, or with a
dead entry in front, two descriptors for the same file that both carry Duplicate = true
get two different pool entries (indices 0 and 1, resp. 1 and 2) and the pool gains two
assets for the one path. -/
theorem addSound_duplicates_counterexample :
    isDuplicate duplicateDescriptor = true ∧
    (addSound exampleEnv FloatLib.linear { searchPool := false } duplicateDescriptor 0
      false).poolIndices = [0] ∧
    (addSound exampleEnv FloatLib.linear
      (addSound exampleEnv FloatLib.linear { searchPool := false } duplicateDescriptor 0
        false).pool duplicateDescriptor 1 false).poolIndices = [1] ∧
    (addSound exampleEnv FloatLib.linear
      (addSound exampleEnv FloatLib.linear { searchPool := false } duplicateDescriptor 0
        false).pool duplicateDescriptor 1 false).pool.pool.length = 2 ∧
    (addSound exampleEnv FloatLib.linear { pool := [none] } duplicateDescriptor 0
      false).poolIndices = [1] ∧
    (addSound exampleEnv FloatLib.linear
      (addSound exampleEnv FloatLib.linear { pool := [none] } duplicateDescriptor 0
        false).pool duplicateDescriptor 1 false).poolIndices = [2] ∧
    (addSound exampleEnv FloatLib.linear
      (addSound exampleEnv FloatLib.linear { pool := [none] } duplicateDescriptor 0
        false).pool duplicateDescriptor 1 false).pool.pool.length = 3 := by
  decide

/-- C16 (amended): for every pool whose search is enabled and whose entries are all
alive, and every two descriptors that count as duplicate, adding them one after the other
with addSound (without forceReuse) yields two sounds; wherever a channel of the first and
a channel of the second name the same file reference, both sounds hold the same asset
there, which is one and the same pool entry (same pool index, not -1). When every file
reference of the second descriptor occurs in the first, the second call leaves the pool
unchanged, and the first call adds at most one asset per file reference. -/
theorem addSound_duplicates_share_entry (env : PoolEnv) (L : FloatLib)
    (p : ModulatorSamplerSoundPool) (d1 d2 : ValueTree) (index1 index2 : Int)
    (hs : p.searchPool = true) (hlive : ∀ e ∈ p.pool, e.isSome = true)
    (hd1 : isDuplicate d1 = true) (hd2 : isDuplicate d2 = true) :
    ∃ snd1 snd2 : ModulatorSamplerSound,
      (addSound env L p d1 index1 false).sound = some snd1 ∧
      (addSound env L (addSound env L p d1 index1 false).pool d2 index2 false).sound
        = some snd2 ∧
      (∀ (k1 k2 : ℕ) (w : String), (fileNamesOf env d1).get? k1 = some w →
        (fileNamesOf env d2).get? k2 = some w →
        ∃ (i : Int) (a : StreamingSamplerSound), i ≠ -1 ∧
          (addSound env L p d1 index1 false).poolIndices.get? k1 = some i ∧
          (addSound env L (addSound env L p d1 index1 false).pool d2 index2
            false).poolIndices.get? k2 = some i ∧
          snd1.soundArray.get? k1 = some a ∧ snd2.soundArray.get? k2 = some a ∧
          (addSound env L (addSound env L p d1 index1 false).pool d2 index2
            false).pool.entry i = some a) ∧
      ((∀ w ∈ fileNamesOf env d2, w ∈ fileNamesOf env d1) →
        (addSound env L (addSound env L p d1 index1 false).pool d2 index2 false).pool
          = (addSound env L p d1 index1 false).pool) ∧
      (addSound env L p d1 index1 false).pool.pool.length
        ≤ p.pool.length + (fileNamesOf env d1).length := by
  obtain ⟨hp1, hi1, _⟩ := addSound_eq env L p d1 index1
  obtain ⟨snd1, hs1, _, ha1, _⟩ := addSound_sound env L p d1 index1
  obtain ⟨hp2, hi2, _⟩ := addSound_eq env L (addSound env L p d1 index1 false).pool d2 index2
  obtain ⟨snd2, hs2, _, ha2, _⟩ :=
    addSound_sound env L (addSound env L p d1 index1 false).pool d2 index2
  have h1 : (p.forcePoolSearch || isDuplicate d1) = true := by rw [hd1]; simp
  have h2 : (p.forcePoolSearch || isDuplicate d2) = true := by rw [hd2]; simp
  rw [hp1] at hp2 hi2 ha2 hs2 ⊢
  refine ⟨snd1, snd2, hs1, hs2, ?_, ?_, ?_⟩
  · intro k1 k2 w hk1 hk2
    obtain ⟨i, a, hne, hx1, hx2, hy1, hy2, hent⟩ :=
      resolveReferences_share env (isDuplicate d1) (isDuplicate d2) (fileNamesOf env d1)
        (fileNamesOf env d2) p hs hlive h1 h2 k1 k2 w hk1 hk2
    rw [ha1] at hy1
    rw [ha2] at hy2
    refine ⟨i, a, hne, ?_, ?_, get?_of_map_some _ _ _ hy1, get?_of_map_some _ _ _ hy2, ?_⟩
    · rw [hi1]; exact hx1
    · rw [hi2]; exact hx2
    · rw [hp2]; exact hent
  · intro hsub
    rw [hp2]
    exact resolveReferences_again env (isDuplicate d1) (isDuplicate d2) (fileNamesOf env d1)
      (fileNamesOf env d2) p hs hlive h1 h2 hsub
  · obtain ⟨ext, he, _, hlen, _⟩ :=
      resolveReferences_pool env (isDuplicate d1) (fileNamesOf env d1) p
    rw [he]
    simp only [List.length_append]
    omega

set_option maxRecDepth 100000 in
theorem addSound_duplicates_share_entry_witness :
    poolWithA.searchPool = true ∧ (∀ e ∈ poolWithA.pool, e.isSome = true) ∧
    isDuplicate twoChildDescriptor = true ∧ isDuplicate duplicateDescriptor = true ∧
    (fileNamesOf exampleEnv twoChildDescriptor).get? 0 = some "a.wav" ∧
    (fileNamesOf exampleEnv duplicateDescriptor).get? 0 = some "a.wav" ∧
    ∃ snd1 snd2 : ModulatorSamplerSound,
      (addSound exampleEnv FloatLib.linear poolWithA twoChildDescriptor 0 false).sound
        = some snd1 ∧
      (addSound exampleEnv FloatLib.linear
        (addSound exampleEnv FloatLib.linear poolWithA twoChildDescriptor 0 false).pool
        duplicateDescriptor 1 false).sound = some snd2 ∧
      ∃ (i : Int) (a : StreamingSamplerSound), i ≠ -1 ∧
        snd1.soundArray.get? 0 = some a ∧ snd2.soundArray.get? 0 = some a ∧
        (addSound exampleEnv FloatLib.linear
          (addSound exampleEnv FloatLib.linear poolWithA twoChildDescriptor 0 false).pool
          duplicateDescriptor 1 false).pool.entry i = some a := by
  refine ⟨by decide, by decide, by decide, by decide, by decide, by decide, ?_⟩
  obtain ⟨snd1, snd2, h1, h2, hshare, _, _⟩ :=
    addSound_duplicates_share_entry exampleEnv FloatLib.linear poolWithA twoChildDescriptor
      duplicateDescriptor 0 1 (by decide) (by decide) (by decide) (by decide)
  obtain ⟨i, a, hne, _, _, ha1, ha2, hent⟩ := hshare 0 0 "a.wav" (by decide) (by decide)
  exact ⟨snd1, snd2, h1, h2, i, a, hne, ha1, ha2, hent⟩

theorem ModulatorSamplerSoundPool.addMultiMicChild_length (env : PoolEnv) (d : ValueTree)
    ( forceReuse : Bool) (st : MultiMicState) (c : ValueTreeNode) :
    (addMultiMicChild env d forceReuse st c).multiMicArray.length
      = st.multiMicArray.length + 1 := by
  simp only [addMultiMicChild]
  split_ifs <;> simp

theorem ModulatorSamplerSoundPool.foldl_addMultiMicChild_length (env : PoolEnv)
    (d : ValueTree) ( forceReuse : Bool) (cs : List ValueTreeNode) (st : MultiMicState) :
    (cs.foldl (addMultiMicChild env d forceReuse) st).multiMicArray.length
      = st.multiMicArray.length + cs.length := by
  induction cs generalizing st with
  | nil => simp
  | cons c cs ih =>
    rw [List.foldl_cons, ih, addMultiMicChild_length, List.length_cons]
    omega

theorem length_filterMap_id_of_all_isSome {α : Type} (l : List (Option α))
    (h : l.all Option.isSome = true) : (l.filterMap id).length = l.length := by
  induction l with
  | nil => rfl
  | cons x l ih =>
    cases x with
    | none => simp at h
    | some a =>
      simp only [List.all_cons, Option.isSome_some, Bool.true_and] at h
      simp [List.filterMap_cons, ih h]

theorem ModulatorSamplerSoundPool.addSoundWithSingleMic_kind (env : PoolEnv) (L : FloatLib)
    (p : ModulatorSamplerSoundPool) (d : ValueTree) (index : Int) ( forceReuse : Bool)
    (snd : ModulatorSamplerSound)
    (h : (addSoundWithSingleMic env L p d index forceReuse).sound = some snd) :
    ∃ a : StreamingSamplerSound, snd = ModulatorSamplerSound.new L a index := by
  simp only [addSoundWithSingleMic] at h
  split_ifs at h
  all_goals first
    | (simp only [Option.map_eq_some'] at h
       obtain ⟨a, _, ha⟩ := h
       exact ⟨a, ha.symm⟩)
    | (simp only [Option.some.injEq] at h
       exact ⟨_, h.symm⟩)


theorem ModulatorSamplerSoundPool.addSound_kind (env : PoolEnv) (L : FloatLib)
    (p : ModulatorSamplerSoundPool) (d : ValueTree) (index : Int) ( forceReuse : Bool)
    (snd : ModulatorSamplerSound)
    (h : (addSound env L p d index forceReuse).sound = some snd) :
    snd.isMultiMicSound = decide (d.children.length > 1) ∧
      snd.soundArray.length = (fileNamesOf env d).length ∧ snd.index = index := by
  by_cases hc : d.children.length > 1
  · simp only [addSound, if_pos hc, addSoundWithMultiMic] at h
    split_ifs at h with hall
    simp only [Option.some.injEq] at h
    subst h
    obtain ⟨h1, h2, h3⟩ := newMultiMic_soundArray L
      ((d.children.foldl (addMultiMicChild env d forceReuse)
        { pool := p, multiMicArray := [], poolIndices := [],
          changeMessages := 0 }).multiMicArray.filterMap id) index
    rw [h1, h2, h3, length_filterMap_id_of_all_isSome _ hall, foldl_addMultiMicChild_length]
    simp [fileNamesOf, hc]
  · simp only [addSound, if_neg hc] at h
    obtain ⟨a, ha⟩ := addSoundWithSingleMic_kind env L p d index forceReuse snd h
    subst ha
    obtain ⟨h1, h2, h3⟩ := new_soundArray L a index
    rw [h1, h2, h3]
    simp [fileNamesOf, hc]

theorem ModulatorSamplerSoundPool.loadMultiMicAssets_snd (env : PoolEnv) (files : List String)
    (i : Int) (js : List ℕ) (p : ModulatorSamplerSoundPool)
    (arr : List StreamingSamplerSound) :
    (loadMultiMicAssets env files i js p arr).2
      = arr ++ js.map (fun (j : ℕ) => env.monolithAsset files (j : Int) i) := by
  induction js generalizing p arr with
  | nil => simp [loadMultiMicAssets]
  | cons j js ih => simp [loadMultiMicAssets, ih]

/-- The sound that the loop of `loadMonolithicData` makes for entry `i` of the map. -/
theorem ModulatorSamplerSoundPool.loadSamples_sounds (env : PoolEnv) (L : FloatLib)
    (files : List String) (sampleMap : List ValueTree) (i : ℕ)
    (p : ModulatorSamplerSoundPool) (sounds : List ModulatorSamplerSound) :
    (loadSamples env L files i sampleMap p sounds).2.length = sounds.length + sampleMap.length ∧
    (∀ k, k < sounds.length →
      (loadSamples env L files i sampleMap p sounds).2.get? k = sounds.get? k) ∧
    ∀ (k : ℕ) (sample : ValueTree), sampleMap.get? k = some sample →
      (loadSamples env L files i sampleMap p sounds).2.get? (sounds.length + k)
        = some (if sample.children.length = 0 then
            ModulatorSamplerSound.new L (env.monolithAsset files 0 ((i + k : ℕ) : Int))
              ((i + k : ℕ) : Int)
          else
            ModulatorSamplerSound.newMultiMic L
              ((List.range sample.children.length).map
                (fun (j : ℕ) => env.monolithAsset files (j : Int) ((i + k : ℕ) : Int)))
              ((i + k : ℕ) : Int)) := by
  induction sampleMap generalizing i p sounds with
  | nil => simp [loadSamples]
  | cons s rest ih =>
    by_cases hc : s.children.length = 0
    · simp only [loadSamples, if_pos hc]
      obtain ⟨h1, h2, h3⟩ := ih (i + 1) (p.addMonolithAsset (env.monolithAsset files 0 i))
        (sounds ++ [ModulatorSamplerSound.new L (env.monolithAsset files 0 i) i])
      refine ⟨?_, ?_, ?_⟩
      · rw [h1]; simp; omega
      · intro k hk
        rw [h2 k (by simp; omega), List.get?_eq_getElem?, List.get?_eq_getElem?,
          List.getElem?_append_left hk]
      · intro k sample hk
        cases k with
        | zero =>
          simp only [List.get?_cons_zero, Option.some.injEq] at hk
          subst hk
          simp only [Nat.add_zero]
          rw [h2 _ (by simp), List.get?_eq_getElem?,
            List.getElem?_append_right (le_refl _)]
          simp [hc]
        | succ k =>
          have := h3 k sample hk
          simp only [List.length_append, List.length_singleton] at this
          rw [show sounds.length + (k + 1) = sounds.length + 1 + k by omega, this,
            show i + 1 + k = i + (k + 1) by omega]
    · simp only [loadSamples, if_neg hc, loadMultiMicAssets_snd, List.nil_append]
      obtain ⟨h1, h2, h3⟩ := ih (i + 1)
        (loadMultiMicAssets env files i (List.range s.children.length) p []).1
        (sounds ++ [ModulatorSamplerSound.newMultiMic L
          ((List.range s.children.length).map (fun (j : ℕ) => env.monolithAsset files (j : Int) i)) i])
      refine ⟨?_, ?_, ?_⟩
      · rw [h1]; simp; omega
      · intro k hk
        rw [h2 k (by simp; omega), List.get?_eq_getElem?, List.get?_eq_getElem?,
          List.getElem?_append_left hk]
      · intro k sample hk
        cases k with
        | zero =>
          simp only [List.get?_cons_zero, Option.some.injEq] at hk
          subst hk
          simp only [Nat.add_zero]
          rw [h2 _ (by simp), List.get?_eq_getElem?,
            List.getElem?_append_right (le_refl _)]
          simp [hc]
        | succ k =>
          have := h3 k sample hk
          simp only [List.length_append, List.length_singleton] at this
          rw [show sounds.length + (k + 1) = sounds.length + 1 + k by omega, this,
            show i + 1 + k = i + (k + 1) by omega]

set_option maxRecDepth 100000 in
/-- C14 (as stated) fails for loadMonolithicData: a map entry with exactly one child
entry is loaded as a multi-mic sound (with one asset), while addSound turns the same
descriptor into a single-mic sound. -/
theorem loadMonolithicData_one_child_counterexample :
    oneChildDescriptor.children.length = 1 ∧
    (loadMonolithicData exampleEnv FloatLib.linear {} false [oneChildDescriptor] ["m.ch1"]
        []).map (fun r => (r.ok, r.sounds.map (fun s => (s.isMultiMicSound, s.soundArray.length))))
      = some (true, [(true, 1)]) ∧
    (addSound exampleEnv FloatLib.linear {} oneChildDescriptor 0 false).sound.map
        (fun s => (s.isMultiMicSound, s.soundArray.length))
      = some (false, 1) := by
  decide

/-- C14 (amended): addSound turns a descriptor with more than one child entry into a
multi-mic sound with one asset per child, in child order, and a descriptor with at most
one child entry into a single-mic sound with one asset; without forceReuse it always
returns a sound and each asset matches the file reference of its channel.
loadMonolithicData, when the metadata scan succeeds, appends one sound per map entry, in
order: a single-mic sound with the asset of channel 0 for an entry without child entries,
and a multi-mic sound with one asset per child index, in child order, for an entry with
one or more child entries. -/
theorem descriptor_children_decide_kind (env : PoolEnv) (L : FloatLib)
    (p : ModulatorSamplerSoundPool) (d : ValueTree) (index : Int) ( forceReuse : Bool)
    (voicesActive : Bool) (sampleMap : List ValueTree) (files : List String)
    (sounds : List ModulatorSamplerSound)
    (hscan : env.fillMetadataInfo files sampleMap = none) :
    (∀ snd : ModulatorSamplerSound, (addSound env L p d index forceReuse).sound = some snd →
      snd.isMultiMicSound = decide (d.children.length > 1) ∧
      snd.soundArray.length = (if d.children.length > 1 then d.children.length else 1)) ∧
    (∃ snd : ModulatorSamplerSound, (addSound env L p d index false).sound = some snd ∧
      List.Forall₂ (fun w a => matchesReference env w a) (fileNamesOf env d) snd.soundArray) ∧
    ∃ r : LoadResult,
      loadMonolithicData env L p voicesActive sampleMap files sounds = some r ∧
      r.ok = true ∧ r.sounds.length = sounds.length + sampleMap.length ∧
      ∀ (k : ℕ) (sample : ValueTree), sampleMap.get? k = some sample →
        ∃ snd : ModulatorSamplerSound, r.sounds.get? (sounds.length + k) = some snd ∧
          snd.index = (k : Int) ∧
          snd.isMultiMicSound = decide (sample.children.length ≠ 0) ∧
          snd.soundArray =
            (if sample.children.length = 0 then [env.monolithAsset files 0 (k : Int)]
             else (List.range sample.children.length).map
               (fun (j : ℕ) => env.monolithAsset files (j : Int) (k : Int))) := by
  refine ⟨?_, ?_, ?_⟩
  · intro snd h
    obtain ⟨h1, h2, _⟩ := addSound_kind env L p d index forceReuse snd h
    refine ⟨h1, ?_⟩
    rw [h2]
    simp only [fileNamesOf]
    split_ifs <;> simp
  · obtain ⟨snd, h1, _, _, h4⟩ := addSound_sound env L p d index
    exact ⟨snd, h1, h4⟩
  · rw [loadMonolithicData_success env L p voicesActive sampleMap files sounds hscan]
    obtain ⟨h1, _, h3⟩ := loadSamples_sounds env L files sampleMap 0
      { p with loadedMonoliths :=
          p.loadedMonoliths.filter (fun m => decide (m.referenceCount ≠ 2))
            ++ [{ files := files }] } sounds
    refine ⟨_, rfl, rfl, h1, ?_⟩
    intro k sample hk
    refine ⟨_, h3 k sample hk, ?_⟩
    simp only [Nat.zero_add]
    by_cases hc : sample.children.length = 0
    · simp only [if_pos hc]
      obtain ⟨h1, h2, h3⟩ := new_soundArray L (env.monolithAsset files 0 (k : Int)) (k : Int)
      simp [h1, h2, h3, hc]
    · simp only [if_neg hc]
      obtain ⟨h1, h2, h3⟩ := newMultiMic_soundArray L
        ((List.range sample.children.length).map
          (fun (j : ℕ) => env.monolithAsset files (j : Int) (k : Int))) (k : Int)
      simp [h1, h2, h3, hc]

set_option maxRecDepth 100000 in
theorem descriptor_children_decide_kind_witness :
    exampleEnv.fillMetadataInfo ["m.ch1"] [plainDescriptor, twoChildDescriptor] = none ∧
    (∃ snd : ModulatorSamplerSound,
      (addSound exampleEnv FloatLib.linear poolWithA twoChildDescriptor 3 false).sound
        = some snd ∧
      List.Forall₂ (fun w a => matchesReference exampleEnv w a)
        (fileNamesOf exampleEnv twoChildDescriptor) snd.soundArray) :=
  ⟨by decide,
    (descriptor_children_decide_kind exampleEnv FloatLib.linear poolWithA twoChildDescriptor 3
      false false [plainDescriptor, twoChildDescriptor] ["m.ch1"] [] (by decide)).2.1⟩

/-! ### Legal ranges and the fade bound (C23, C26) -/

theorem ModulatorSamplerSound.setPropertyInternal_velocity_frame (L : FloatLib)
    (s : ModulatorSamplerSound) (p : Property) (v : Int)
    (hp : p ≠ .VeloLow ∧ p ≠ .VeloHigh ∧ p ≠ .UpperVelocityXFade ∧ p ≠ .LowerVelocityXFade) :
    (s.setPropertyInternal L p v).velocityRange = s.velocityRange ∧
    (s.setPropertyInternal L p v).upperVeloXFadeValue = s.upperVeloXFadeValue ∧
    (s.setPropertyInternal L p v).lowerVeloXFadeValue = s.lowerVeloXFadeValue := by
  obtain ⟨h1, h2, h3, h4⟩ := hp
  cases p <;>
    first
    | exact absurd rfl h1
    | exact absurd rfl h2
    | exact absurd rfl h3
    | exact absurd rfl h4
    | exact ⟨rfl, rfl, rfl⟩
    | (simp only [setPropertyInternal, calculateNormalizedPeak]
       split_ifs <;> exact ⟨rfl, rfl, rfl⟩)

theorem ModulatorSamplerSound.getPropertyRange_upper (L : FloatLib) (s : ModulatorSamplerSound)
    (hs : s.soundArray ≠ []) :
    s.getPropertyRange L .UpperVelocityXFade
      = Range.new 0 (getHighestBit s.velocityRange
          - (findNextSetBit s.velocityRange 0 + s.lowerVeloXFadeValue)) := by
  obtain ⟨a, rest, has⟩ := List.exists_cons_of_ne_nil hs
  simp [getPropertyRange, getProperty, has, Var.toInt]

theorem ModulatorSamplerSound.getPropertyRange_lower (L : FloatLib) (s : ModulatorSamplerSound)
    (hs : s.soundArray ≠ []) :
    s.getPropertyRange L .LowerVelocityXFade
      = Range.new 0 (getHighestBit s.velocityRange - s.upperVeloXFadeValue
          - findNextSetBit s.velocityRange 0) := by
  obtain ⟨a, rest, has⟩ := List.exists_cons_of_ne_nil hs
  simp [getPropertyRange, getProperty, has, Var.toInt]

set_option maxRecDepth 100000 in
/-- C23 (as stated) fails: the sound mapped to velocities [0, 127] is reachable, and so is
the state after setVelocityXFade (200, false) and the state after
setProperty (LowerVelocityXFade, 200); in both the sum of the fade lengths is 200, above
the width 127 of the velocity range. -/
theorem fade_bound_counterexample :
    Reachable FloatLib.linear (fullRangeSound.setVelocityXFade 200 false) ∧
    ¬ fadesFitVelocityRange (fullRangeSound.setVelocityXFade 200 false) ∧
    Reachable FloatLib.linear
      (fullRangeSound.setProperty FloatLib.linear .LowerVelocityXFade 200 true).1 ∧
    ¬ fadesFitVelocityRange
      (fullRangeSound.setProperty FloatLib.linear .LowerVelocityXFade 200 true).1 := by
  have hr : Reachable FloatLib.linear fullRangeSound :=
    Reachable.setMappingData _ _ (Reachable.construct exampleAsset 0)
  exact ⟨Reachable.setVelocityXFade _ _ _ hr, by decide,
    Reachable.setProperty _ _ _ _ hr, by decide⟩

/-- C23 (amended): the sound stores whatever fade length it is given, so the bound
`upperVeloXFade + lowerVeloXFade <= VeloHigh - VeloLow` is kept only by writes that
respect the legal range. For every sound with an asset in which both fade lengths are
`>= 0` and the bound holds: after setProperty of UpperVelocityXFade or LowerVelocityXFade
with a value inside the range getPropertyRange reports for that property, and after
setVelocityXFade with a length inside the range reported for the field it writes, both
lengths are `>= 0` and the bound holds; so it does after setProperty of any property
other than the two velocity bounds and the two fade lengths. -/
theorem fade_bound_kept_by_legal_writes (L : FloatLib) (s : ModulatorSamplerSound)
    (p : Property) (v : Int) (notify isUpper : Bool)
    (hs : s.soundArray ≠ []) (hu : 0 ≤ s.upperVeloXFadeValue)
    (hl : 0 ≤ s.lowerVeloXFadeValue) (hfit : fadesFitVelocityRange s) :
    ((p = .UpperVelocityXFade ∨ p = .LowerVelocityXFade) →
      (s.getPropertyRange L p).start ≤ v → v ≤ (s.getPropertyRange L p).stop →
      0 ≤ (s.setProperty L p v notify).1.upperVeloXFadeValue ∧
      0 ≤ (s.setProperty L p v notify).1.lowerVeloXFadeValue ∧
      fadesFitVelocityRange (s.setProperty L p v notify).1) ∧
    ((s.getPropertyRange L
          (if isUpper then .LowerVelocityXFade else .UpperVelocityXFade)).start ≤ v →
      v ≤ (s.getPropertyRange L
          (if isUpper then .LowerVelocityXFade else .UpperVelocityXFade)).stop →
      0 ≤ (s.setVelocityXFade v isUpper).upperVeloXFadeValue ∧
      0 ≤ (s.setVelocityXFade v isUpper).lowerVeloXFadeValue ∧
      fadesFitVelocityRange (s.setVelocityXFade v isUpper)) ∧
    ((p ≠ .VeloLow ∧ p ≠ .VeloHigh ∧ p ≠ .UpperVelocityXFade ∧ p ≠ .LowerVelocityXFade) →
      0 ≤ (s.setProperty L p v notify).1.upperVeloXFadeValue ∧
      0 ≤ (s.setProperty L p v notify).1.lowerVeloXFadeValue ∧
      fadesFitVelocityRange (s.setProperty L p v notify).1) := by
  have hU := getPropertyRange_upper L s hs
  have hL := getPropertyRange_lower L s hs
  unfold fadesFitVelocityRange at hfit ⊢
  refine ⟨?_, ?_, ?_⟩
  · rintro (rfl | rfl) h0 h1
    · rw [hU] at h0 h1
      simp only [Range.new] at h0 h1
      rw [setProperty_fst]
      simp only [setPropertyInternal]
      rw [max_eq_right (by omega)] at h1
      exact ⟨h0, hl, by omega⟩
    · rw [hL] at h0 h1
      simp only [Range.new] at h0 h1
      rw [setProperty_fst]
      simp only [setPropertyInternal]
      rw [max_eq_right (by omega)] at h1
      exact ⟨hu, h0, by omega⟩
  · cases isUpper
    · intro h0 h1
      simp only [Bool.false_eq_true, if_false] at h0 h1
      rw [hU] at h0 h1
      simp only [Range.new] at h0 h1
      rw [max_eq_right (by omega)] at h1
      simp only [setVelocityXFade, Bool.false_eq_true, if_false]
      exact ⟨h0, hl, by omega⟩
    · intro h0 h1
      simp only [if_true] at h0 h1
      rw [hL] at h0 h1
      simp only [Range.new] at h0 h1
      rw [max_eq_right (by omega)] at h1
      simp only [setVelocityXFade, if_true]
      exact ⟨hu, h0, by omega⟩
  · intro hp
    rw [setProperty_fst]
    obtain ⟨h1, h2, h3⟩ := setPropertyInternal_velocity_frame L s p v hp
    rw [h1, h2, h3]
    exact ⟨hu, hl, hfit⟩

set_option maxRecDepth 100000 in
theorem fade_bound_kept_by_legal_writes_witness :
    bothFadeSound.soundArray ≠ [] ∧ 0 ≤ bothFadeSound.upperVeloXFadeValue ∧
    0 ≤ bothFadeSound.lowerVeloXFadeValue ∧ fadesFitVelocityRange bothFadeSound ∧
    (bothFadeSound.getPropertyRange FloatLib.linear .UpperVelocityXFade).start ≤ 122 ∧
    122 ≤ (bothFadeSound.getPropertyRange FloatLib.linear .UpperVelocityXFade).stop ∧
    fadesFitVelocityRange
      (bothFadeSound.setProperty FloatLib.linear .UpperVelocityXFade 122 true).1 :=
  ⟨by decide, by decide, by decide, by decide, by decide, by decide,
    ((fade_bound_kept_by_legal_writes FloatLib.linear bothFadeSound .UpperVelocityXFade 122
      true false (by decide) (by decide) (by decide) (by decide)).1 (Or.inl rfl)
      (by decide) (by decide)).2.2⟩

/-- C26: for every sound with an asset, getPropertyRange (LoopStart) is the range from
`sampleStart + loopCrossfade` to `loopEnd - loopCrossfade` of the first asset's current
values (an end below the start gives the empty range at the start), and right after a
write of SampleStart, LoopXFade or LoopEnd the query gives the range of the new values;
the range of UpperVelocityXFade is from 0 to `VeloHigh - (VeloLow + lowerVeloXFade)`, the
range of LowerVelocityXFade from 0 to `VeloHigh - upperVeloXFade - VeloLow`, and each
follows a write of the other fade length. -/
theorem legal_ranges_follow_current_values (L : FloatLib) (s : ModulatorSamplerSound)
    (first : StreamingSamplerSound) (rest : List StreamingSamplerSound)
    (hs : s.soundArray = first :: rest) (v : Int) (notify : Bool) :
    s.getPropertyRange L .LoopStart
      = Range.new (first.sampleStart + first.loopCrossfade)
          (first.loopEnd - first.loopCrossfade) ∧
    (s.getPropertyRange L .LoopStart).start = first.sampleStart + first.loopCrossfade ∧
    (first.sampleStart + first.loopCrossfade ≤ first.loopEnd - first.loopCrossfade →
      (s.getPropertyRange L .LoopStart).stop = first.loopEnd - first.loopCrossfade) ∧
    (s.setProperty L .SampleStart v notify).1.getPropertyRange L .LoopStart
      = Range.new (v + first.loopCrossfade) (first.loopEnd - first.loopCrossfade) ∧
    (s.setProperty L .LoopXFade v notify).1.getPropertyRange L .LoopStart
      = Range.new (first.sampleStart + v) (first.loopEnd - v) ∧
    (s.setProperty L .LoopEnd v notify).1.getPropertyRange L .LoopStart
      = Range.new (first.sampleStart + first.loopCrossfade) (v - first.loopCrossfade) ∧
    s.getPropertyRange L .UpperVelocityXFade
      = Range.new 0 ((s.getProperty L .VeloHigh).toInt
          - ((s.getProperty L .VeloLow).toInt + s.lowerVeloXFadeValue)) ∧
    s.getPropertyRange L .LowerVelocityXFade
      = Range.new 0 ((s.getProperty L .VeloHigh).toInt - s.upperVeloXFadeValue
          - (s.getProperty L .VeloLow).toInt) ∧
    (s.setProperty L .LowerVelocityXFade v notify).1.getPropertyRange L .UpperVelocityXFade
      = Range.new 0 ((s.getProperty L .VeloHigh).toInt
          - ((s.getProperty L .VeloLow).toInt + v)) ∧
    (s.setProperty L .UpperVelocityXFade v notify).1.getPropertyRange L .LowerVelocityXFade
      = Range.new 0 ((s.getProperty L .VeloHigh).toInt - v
          - (s.getProperty L .VeloLow).toInt) := by
  have h0 : s.getPropertyRange L .LoopStart
      = Range.new (first.sampleStart + first.loopCrossfade)
          (first.loopEnd - first.loopCrossfade) := by
    simp [getPropertyRange, hs]
  refine ⟨h0, by rw [h0]; rfl, ?_, ?_, ?_, ?_, ?_, ?_, ?_, ?_⟩
  · intro hle
    rw [h0]
    exact max_eq_right hle
  · rw [setProperty_fst]
    simp [getPropertyRange, setPropertyInternal, forEverySound, hs,
      StreamingSamplerSound.setSampleStart]
  · rw [setProperty_fst]
    simp [getPropertyRange, setPropertyInternal, forEverySound, hs,
      StreamingSamplerSound.setLoopCrossfade]
  · rw [setProperty_fst]
    simp [getPropertyRange, setPropertyInternal, forEverySound, hs,
      StreamingSamplerSound.setLoopEnd]
  · simp [getPropertyRange, hs]
  · simp [getPropertyRange, hs]
  · rw [setProperty_fst]
    simp [getPropertyRange, getProperty, setPropertyInternal, hs]
  · rw [setProperty_fst]
    simp [getPropertyRange, getProperty, setPropertyInternal, hs]

set_option maxRecDepth 100000 in
theorem legal_ranges_follow_current_values_witness :
    loopedSound.soundArray
        = [{ fileName := "a.wav", sampleEnd := 1000, loopEnabled := true, loopStart := 100,
             loopEnd := 900, loopCrossfade := 50 }] ∧
    loopedSound.getPropertyRange FloatLib.linear .LoopStart = ⟨50, 850⟩ ∧
    (loopedSound.setProperty FloatLib.linear .SampleStart 20 true).1.getPropertyRange
        FloatLib.linear .LoopStart = ⟨70, 850⟩ :=
  ⟨by decide, by decide,
    (legal_ranges_follow_current_values FloatLib.linear loopedSound
      { fileName := "a.wav", sampleEnd := 1000, loopEnabled := true, loopStart := 100,
        loopEnd := 900, loopCrossfade := 50 } [] (by decide) 20 true).2.2.2.1⟩

/-! ### Safety of the crossfade gain (C28) -/

set_option maxRecDepth 100000 in
theorem wideFadeSound_facts :
    getHighestBit wideFadeSound.velocityRange = 127 ∧
    findNextSetBit wideFadeSound.velocityRange 0 = 0 ∧
    wideFadeSound.upperVeloXFadeValue = 200 ∧ wideFadeSound.lowerVeloXFadeValue = 200 := by
  decide

theorem Range.length_pos_of_contains (a b v : Int) (h : (Range.new a b).contains v = true) :
    0 < (Range.new a b).getLength ∧ a ≤ v ∧ v < b := by
  simp only [Range.new, Range.contains, Bool.and_eq_true, decide_eq_true_eq] at h
  simp only [Range.new, Range.getLength]
  omega

/-- C28: for every sound state (any velocity range, any two fade lengths, zero, negative
and longer than the range included) and every velocity, getGainValueForVelocityXFade
divides only by the length of a zone that contains the velocity, which is then at least
1, and returns a gain `g` with `0 <= g <= 1`; a velocity lying in both zones gets the
value of the falling ramp of the top zone. With both fade lengths 200 on the range
[0, 127], velocity 50 lies in both zones and gets 1 - (50 + 73) / 200. -/
theorem gain_within_unit_interval (s : ModulatorSamplerSound) (v : Int) :
    ((Range.new (getHighestBit s.velocityRange - s.upperVeloXFadeValue)
        (getHighestBit s.velocityRange)).contains v = true →
      0 < (Range.new (getHighestBit s.velocityRange - s.upperVeloXFadeValue)
        (getHighestBit s.velocityRange)).getLength) ∧
    ((Range.new (findNextSetBit s.velocityRange 0)
        (findNextSetBit s.velocityRange 0 + s.lowerVeloXFadeValue)).contains v = true →
      0 < (Range.new (findNextSetBit s.velocityRange 0)
        (findNextSetBit s.velocityRange 0 + s.lowerVeloXFadeValue)).getLength) ∧
    0 ≤ s.getGainValueForVelocityXFade v ∧ s.getGainValueForVelocityXFade v ≤ 1 ∧
    ((Range.new (getHighestBit s.velocityRange - s.upperVeloXFadeValue)
        (getHighestBit s.velocityRange)).contains v = true →
      (Range.new (findNextSetBit s.velocityRange 0)
        (findNextSetBit s.velocityRange 0 + s.lowerVeloXFadeValue)).contains v = true →
      s.getGainValueForVelocityXFade v
        = interpolateLinear 1 0
            (((v - (getHighestBit s.velocityRange - s.upperVeloXFadeValue) : Int) : ℚ)
              / (s.upperVeloXFadeValue : ℚ))) ∧
    wideFadeSound.getGainValueForVelocityXFade 50 = 77 / 200 := by
  have hbounds : 0 ≤ s.getGainValueForVelocityXFade v ∧ s.getGainValueForVelocityXFade v ≤ 1 := by
    by_cases htop : getHighestBit s.velocityRange - s.upperVeloXFadeValue ≤ v ∧
        v < getHighestBit s.velocityRange
    · rw [gain_top_ramp s v htop]
      have hu : (0 : ℚ) < (s.upperVeloXFadeValue : ℚ) := by
        have : 0 < s.upperVeloXFadeValue := by omega
        exact_mod_cast this
      have h0 : (0 : ℚ) ≤ ((v - (getHighestBit s.velocityRange - s.upperVeloXFadeValue) : Int) : ℚ) := by
        have : 0 ≤ v - (getHighestBit s.velocityRange - s.upperVeloXFadeValue) := by omega
        exact_mod_cast this
      have h1 : ((v - (getHighestBit s.velocityRange - s.upperVeloXFadeValue) : Int) : ℚ)
          ≤ (s.upperVeloXFadeValue : ℚ) := by
        have : v - (getHighestBit s.velocityRange - s.upperVeloXFadeValue)
            ≤ s.upperVeloXFadeValue := by omega
        exact_mod_cast this
      have hd0 := div_nonneg h0 (le_of_lt hu)
      have hd1 := (div_le_one hu).2 h1
      constructor <;> linarith
    · by_cases hbot : findNextSetBit s.velocityRange 0 ≤ v ∧
          v < findNextSetBit s.velocityRange 0 + s.lowerVeloXFadeValue
      · rw [gain_bottom_ramp s v htop hbot]
        have hu : (0 : ℚ) < (s.lowerVeloXFadeValue : ℚ) := by
          have : 0 < s.lowerVeloXFadeValue := by omega
          exact_mod_cast this
        have h0 : (0 : ℚ) ≤ ((v - findNextSetBit s.velocityRange 0 : Int) : ℚ) := by
          have : 0 ≤ v - findNextSetBit s.velocityRange 0 := by omega
          exact_mod_cast this
        have h1 : ((v - findNextSetBit s.velocityRange 0 : Int) : ℚ)
            ≤ (s.lowerVeloXFadeValue : ℚ) := by
          have : v - findNextSetBit s.velocityRange 0 ≤ s.lowerVeloXFadeValue := by omega
          exact_mod_cast this
        exact ⟨div_nonneg h0 (le_of_lt hu), (div_le_one hu).2 h1⟩
      · rw [gain_outside_both s v htop hbot]
        exact ⟨by norm_num, le_refl _⟩
  refine ⟨fun h => (Range.length_pos_of_contains _ _ _ h).1,
    fun h => (Range.length_pos_of_contains _ _ _ h).1, hbounds.1, hbounds.2, ?_, ?_⟩
  · intro htop _
    obtain ⟨_, h1, h2⟩ := Range.length_pos_of_contains _ _ _ htop
    rw [gain_top_ramp s v ⟨h1, h2⟩]
    simp only [interpolateLinear]
    ring
  · obtain ⟨h1, h2, h3, h4⟩ := wideFadeSound_facts
    rw [gain_top_ramp _ _ (by rw [h1, h3]; omega), h1, h3]
    norm_num

/-! ### The pool lookup and the monolith load (C27, C29) -/

theorem ModulatorSamplerSoundPool.getSoundIndexLoop_cons_skip (h o : Int)
    (b : StreamingSamplerSound) (l : List (Option StreamingSamplerSound)) (i0 : Int)
    (hb : hashMatches h o b = false) :
    getSoundIndexLoop h o (some b :: l) i0 = getSoundIndexLoop h o l (i0 + 1) := by
  simp only [hashMatches, Bool.or_eq_false_iff, decide_eq_false_iff_not, Bool.and_eq_false_imp,
    decide_eq_true_eq] at hb
  simp only [getSoundIndexLoop, if_neg hb.1]
  rw [if_neg]
  rintro ⟨h1, h2⟩
  exact hb.2 h1 h2

theorem ModulatorSamplerSoundPool.getSoundIndexLoop_cons_hit (h o : Int)
    (b : StreamingSamplerSound) (l : List (Option StreamingSamplerSound)) (i0 : Int)
    (hb : hashMatches h o b = true) :
    getSoundIndexLoop h o (some b :: l) i0 = i0 := by
  simp only [hashMatches, Bool.or_eq_true, decide_eq_true_eq, Bool.and_eq_true] at hb
  simp only [getSoundIndexLoop]
  rcases hb with hb | hb
  · rw [if_pos hb]
  · split_ifs <;> rfl

/-- What the scan returns, by the first entry that is dead or matches. -/
theorem ModulatorSamplerSoundPool.getSoundIndexLoop_scan (h o : Int)
    (l : List (Option StreamingSamplerSound)) (i0 : Int) :
    (∀ (k : ℕ) (a : StreamingSamplerSound), l.get? k = some (some a) →
      hashMatches h o a = true →
      (∀ j < k, ∃ b, l.get? j = some (some b) ∧ hashMatches h o b = false) →
      getSoundIndexLoop h o l i0 = i0 + k) ∧
    (∀ k : ℕ, l.get? k = some none →
      (∀ j < k, ∃ b, l.get? j = some (some b) ∧ hashMatches h o b = false) →
      getSoundIndexLoop h o l i0 = -1) ∧
    ((∀ j < l.length, ∃ b, l.get? j = some (some b) ∧ hashMatches h o b = false) →
      getSoundIndexLoop h o l i0 = -1) := by
  induction l generalizing i0 with
  | nil =>
    refine ⟨?_, ?_, ?_⟩
    · intro k a hk
      simp at hk
    · intro k hk
      simp at hk
    · intro _
      rfl
  | cons e rest ih =>
    obtain ⟨ih1, ih2, ih3⟩ := ih (i0 + 1)
    refine ⟨?_, ?_, ?_⟩
    · intro k a hk hm hbefore
      cases k with
      | zero =>
        simp only [List.get?_cons_zero, Option.some.injEq] at hk
        subst hk
        rw [getSoundIndexLoop_cons_hit h o a rest i0 hm]
        simp
      | succ k =>
        obtain ⟨b, hb, hbm⟩ := hbefore 0 (Nat.succ_pos k)
        simp only [List.get?_cons_zero, Option.some.injEq] at hb
        subst hb
        rw [getSoundIndexLoop_cons_skip h o b rest i0 hbm,
          ih1 k a hk hm (fun j hj => hbefore (j + 1) (Nat.succ_lt_succ hj))]
        push_cast
        ring
    · intro k hk hbefore
      cases k with
      | zero =>
        simp only [List.get?_cons_zero, Option.some.injEq] at hk
        subst hk
        rfl
      | succ k =>
        obtain ⟨b, hb, hbm⟩ := hbefore 0 (Nat.succ_pos k)
        simp only [List.get?_cons_zero, Option.some.injEq] at hb
        subst hb
        rw [getSoundIndexLoop_cons_skip h o b rest i0 hbm]
        exact ih2 k hk (fun j hj => hbefore (j + 1) (Nat.succ_lt_succ hj))
    · intro hall
      obtain ⟨b, hb, hbm⟩ := hall 0 (Nat.succ_pos _)
      simp only [List.get?_cons_zero, Option.some.injEq] at hb
      subst hb
      rw [getSoundIndexLoop_cons_skip h o b rest i0 hbm]
      exact ih3 (fun j hj => hall (j + 1) (Nat.succ_lt_succ hj))

/-- C27: getSoundIndexFromPool returns -1 whenever pool search is disabled. With search
enabled it returns the index of the first entry whose hash is `hash`, or is `otherHash`
when `otherHash` is not -1, if every entry before it is live and matches neither; it
returns -1 if a dead entry comes before any match, and if all entries are live and none
matches. Whenever the result is not -1 it is a valid index, the entry there is live and
its hash is one of the two hashes. -/
theorem getSoundIndexFromPool_first_match (p : ModulatorSamplerSoundPool) (hash otherHash : Int) :
    (p.searchPool = false → p.getSoundIndexFromPool hash otherHash = -1) ∧
    (p.searchPool = true →
      (∀ (k : ℕ) (a : StreamingSamplerSound), p.pool.get? k = some (some a) →
        hashMatches hash otherHash a = true →
        (∀ j < k, ∃ b, p.pool.get? j = some (some b) ∧ hashMatches hash otherHash b = false) →
        p.getSoundIndexFromPool hash otherHash = (k : Int)) ∧
      (∀ k : ℕ, p.pool.get? k = some none →
        (∀ j < k, ∃ b, p.pool.get? j = some (some b) ∧ hashMatches hash otherHash b = false) →
        p.getSoundIndexFromPool hash otherHash = -1) ∧
      ((∀ j < p.pool.length,
          ∃ b, p.pool.get? j = some (some b) ∧ hashMatches hash otherHash b = false) →
        p.getSoundIndexFromPool hash otherHash = -1)) ∧
    (p.getSoundIndexFromPool hash otherHash ≠ -1 →
      0 ≤ p.getSoundIndexFromPool hash otherHash ∧
      p.getSoundIndexFromPool hash otherHash < p.pool.length ∧
      ∃ a : StreamingSamplerSound,
        p.entry (p.getSoundIndexFromPool hash otherHash) = some a ∧
        (a.hashCode = hash ∨ a.hashCode = otherHash)) := by
  refine ⟨?_, ?_, ?_⟩
  · intro hs
    simp [getSoundIndexFromPool, hs]
  · intro hs
    obtain ⟨h1, h2, h3⟩ := getSoundIndexLoop_scan hash otherHash p.pool 0
    rw [getSoundIndexFromPool_eq_loop p hash otherHash hs]
    refine ⟨?_, h2, h3⟩
    intro k a hk hm hbefore
    rw [h1 k a hk hm hbefore]
    simp
  · intro hne
    obtain ⟨_, a, ha, hm, h0, hlt⟩ := getSoundIndexFromPool_found p hash otherHash hne
    exact ⟨h0, hlt, a, ha, hm⟩

set_option maxRecDepth 100000 in
theorem getSoundIndexFromPool_first_match_witness :
    poolWithA.searchPool = true ∧
    poolWithA.getSoundIndexFromPool (exampleEnv.hashCode64 "/samples/a.wav") (-1) = 0 ∧
    ({ pool := [none, some (StreamingSamplerSound.fromFile exampleEnv "/samples/a.wav")] } :
      ModulatorSamplerSoundPool).getSoundIndexFromPool
        (exampleEnv.hashCode64 "/samples/a.wav") (-1) = -1 :=
  ⟨by decide,
    ((getSoundIndexFromPool_first_match poolWithA (exampleEnv.hashCode64 "/samples/a.wav")
      (-1)).2.1 (by decide)).1 0 (StreamingSamplerSound.fromFile exampleEnv "/samples/a.wav")
      (by decide) (by decide) (fun j hj => absurd hj (Nat.not_lt_zero j)),
    ((getSoundIndexFromPool_first_match
      ({ pool := [none, some (StreamingSamplerSound.fromFile exampleEnv "/samples/a.wav")] } :
        ModulatorSamplerSoundPool) (exampleEnv.hashCode64 "/samples/a.wav")
      (-1)).2.1 (by decide)).2.1 0 (by decide) (fun j hj => absurd hj (Nat.not_lt_zero j))⟩

theorem ModulatorSamplerSoundPool.loadMultiMicAssets_pool (env : PoolEnv) (files : List String)
    (i : Int) (js : List ℕ) (p : ModulatorSamplerSoundPool)
    (arr : List StreamingSamplerSound) :
    (loadMultiMicAssets env files i js p arr).1.pool
      = p.pool ++ js.map (fun (j : ℕ) => some (env.monolithAsset files (j : Int) i)) := by
  induction js generalizing p arr with
  | nil => simp [loadMultiMicAssets]
  | cons j js ih => simp [loadMultiMicAssets, ih, addMonolithAsset]

theorem ModulatorSamplerSoundPool.loadSamples_pool (env : PoolEnv) (L : FloatLib)
    (files : List String) (sampleMap : List ValueTree) (i : ℕ)
    (p : ModulatorSamplerSoundPool) (sounds : List ModulatorSamplerSound) :
    (loadSamples env L files i sampleMap p sounds).1.pool
      = p.pool ++ (monolithAssetsFrom env files i sampleMap).map some := by
  induction sampleMap generalizing i p sounds with
  | nil => simp [loadSamples, monolithAssetsFrom]
  | cons s rest ih =>
    by_cases hc : s.children.length = 0
    · simp only [loadSamples, if_pos hc, ih, monolithAssetsFrom, monolithAssetsOf]
      simp [addMonolithAsset]
    · simp only [loadSamples, if_neg hc, ih, monolithAssetsFrom, monolithAssetsOf,
        loadMultiMicAssets_pool]
      simp [List.map_append, Function.comp]

theorem ModulatorSamplerSoundPool.monolithAssetsFrom_length (env : PoolEnv)
    (files : List String) (sampleMap : List ValueTree) (i : ℕ) :
    (monolithAssetsFrom env files i sampleMap).length
      = (sampleMap.map (fun sample => max 1 sample.children.length)).sum := by
  induction sampleMap generalizing i with
  | nil => rfl
  | cons s rest ih =>
    simp only [monolithAssetsFrom, List.length_append, ih, List.map_cons, List.sum_cons,
      monolithAssetsOf]
    by_cases hc : s.children.length = 0
    · simp [hc]
    · rw [if_neg hc]
      simp only [List.length_map, List.length_range]
      rw [max_eq_right (by omega)]

/-- C29: when the metadata scan succeeds, loadMonolithicData on a sample map with `n`
entries returns true, keeps the sounds already in the output array and appends exactly
`n` sounds in entry order; the sound made from entry `i` has index `i`, it has `c` assets
for an entry with `c >= 1` children and one asset for an entry without children; the
pool's asset list is the old list followed by the new assets, entry after entry (no
entry already there is looked up or replaced), so it grows by the sum over all entries
of `max (1, c)`. -/
theorem loadMonolithicData_appends_per_entry (env : PoolEnv) (L : FloatLib)
    (p : ModulatorSamplerSoundPool) (voicesActive : Bool) (sampleMap : List ValueTree)
    (files : List String) (sounds : List ModulatorSamplerSound)
    (hscan : env.fillMetadataInfo files sampleMap = none) :
    ∃ r : LoadResult,
      loadMonolithicData env L p voicesActive sampleMap files sounds = some r ∧
      r.ok = true ∧
      r.sounds.length = sounds.length + sampleMap.length ∧
      (∀ k, k < sounds.length → r.sounds.get? k = sounds.get? k) ∧
      (∀ (i : ℕ) (sample : ValueTree), sampleMap.get? i = some sample →
        ∃ snd : ModulatorSamplerSound, r.sounds.get? (sounds.length + i) = some snd ∧
          snd.index = (i : Int) ∧
          snd.soundArray = monolithAssetsOf env files i sample ∧
          snd.soundArray.length = max 1 sample.children.length) ∧
      r.pool.pool = p.pool ++ (monolithAssetsFrom env files 0 sampleMap).map some ∧
      r.pool.pool.length
        = p.pool.length + (sampleMap.map (fun sample => max 1 sample.children.length)).sum := by
  rw [loadMonolithicData_success env L p voicesActive sampleMap files sounds hscan]
  obtain ⟨h1, h2, h3⟩ := loadSamples_sounds env L files sampleMap 0
    { p with loadedMonoliths :=
        p.loadedMonoliths.filter (fun m => decide (m.referenceCount ≠ 2))
          ++ [{ files := files }] } sounds
  have hpool := loadSamples_pool env L files sampleMap 0
    { p with loadedMonoliths :=
        p.loadedMonoliths.filter (fun m => decide (m.referenceCount ≠ 2))
          ++ [{ files := files }] } sounds
  refine ⟨_, rfl, rfl, h1, h2, ?_, hpool, ?_⟩
  · intro i sample hi
    refine ⟨_, h3 i sample hi, ?_⟩
    simp only [Nat.zero_add, monolithAssetsOf]
    by_cases hc : sample.children.length = 0
    · simp only [if_pos hc]
      obtain ⟨e1, _, e3⟩ := new_soundArray L (env.monolithAsset files 0 (i : Int)) (i : Int)
      simp [e1, e3, hc]
    · simp only [if_neg hc]
      obtain ⟨e1, _, e3⟩ := newMultiMic_soundArray L
        ((List.range sample.children.length).map
          (fun (j : ℕ) => env.monolithAsset files (j : Int) (i : Int))) (i : Int)
      rw [e1, e3]
      refine ⟨rfl, rfl, ?_⟩
      simp only [List.length_map, List.length_range]
      rw [max_eq_right (by omega)]
  · simp only [hpool, List.length_append, List.length_map, monolithAssetsFrom_length]

set_option maxRecDepth 100000 in
theorem loadMonolithicData_appends_per_entry_witness :
    exampleEnv.fillMetadataInfo ["m.ch1"] [plainDescriptor, twoChildDescriptor] = none ∧
    ∃ r : LoadResult,
      loadMonolithicData exampleEnv FloatLib.linear poolWithA false
        [plainDescriptor, twoChildDescriptor] ["m.ch1"] [] = some r ∧
      r.ok = true ∧ r.sounds.length = 0 + 2 ∧ r.pool.pool.length = 1 + 3 := by
  obtain ⟨r, h1, h2, h3, _, _, _, h4⟩ :=
    loadMonolithicData_appends_per_entry exampleEnv FloatLib.linear poolWithA false
      [plainDescriptor, twoChildDescriptor] ["m.ch1"] [] (by decide)
  exact ⟨by decide, r, h1, h2, h3, h4⟩

/-! ### Pitch conversions of the scripting engine (C25) -/

theorem DoubleLib.rational_log2_pow (x : ℚ) :
    DoubleLib.rational.log2 (DoubleLib.rational.pow 2 x) = x := by
  simp only [DoubleLib.rational]
  by_cases hx : 0 ≤ x
  · rw [if_pos hx, if_pos (by linarith)]
    ring
  · have hx1 : 0 < 1 - x := by linarith
    have hlt : 1 / (1 - x) < 1 := by
      rw [div_lt_one hx1]
      linarith
    rw [if_neg hx, if_neg (by linarith)]
    field_simp

/-- C25 (what the code computes): getSemitonesFromPitchRatio returns `1200 * log2 (ratio)`,
a value in cents. Whenever `log2` is the base-2 logarithm of the library (it undoes
`pow (2, .)`, `log2 (2) = 1`, `log2 (1/2) = -1`), ratio 2.0 gives 1200 and ratio 0.5
gives -1200, not 12 and -12, and applying it to getPitchRatioFromSemitones (s) gives
`100 * s` for every `s`, which is `s` only for `s = 0`. -/
theorem getSemitonesFromPitchRatio_returns_cents (M : DoubleLib) (s : ℚ)
    (hinv : ∀ x : ℚ, M.log2 (M.pow 2 x) = x) (h2 : M.log2 2 = 1) (hhalf : M.log2 (1 / 2) = -1) :
    ScriptingApi.Engine.getSemitonesFromPitchRatio M 2 = 1200 ∧
    ScriptingApi.Engine.getSemitonesFromPitchRatio M (1 / 2) = -1200 ∧
    ScriptingApi.Engine.getSemitonesFromPitchRatio M
      (ScriptingApi.Engine.getPitchRatioFromSemitones M s) = 100 * s ∧
    (ScriptingApi.Engine.getSemitonesFromPitchRatio M
      (ScriptingApi.Engine.getPitchRatioFromSemitones M s) = s ↔ s = 0) := by
  have h3 : ScriptingApi.Engine.getSemitonesFromPitchRatio M
      (ScriptingApi.Engine.getPitchRatioFromSemitones M s) = 100 * s := by
    simp only [ScriptingApi.Engine.getSemitonesFromPitchRatio,
      ScriptingApi.Engine.getPitchRatioFromSemitones, hinv]
    ring
  refine ⟨?_, ?_, h3, ?_⟩
  · simp only [ScriptingApi.Engine.getSemitonesFromPitchRatio, h2]
    norm_num
  · simp only [ScriptingApi.Engine.getSemitonesFromPitchRatio, hhalf]
    norm_num
  · rw [h3]
    constructor
    · intro h
      linarith
    · intro h
      rw [h]
      norm_num

theorem getSemitonesFromPitchRatio_returns_cents_witness :
    (∀ x : ℚ, DoubleLib.rational.log2 (DoubleLib.rational.pow 2 x) = x) ∧
    DoubleLib.rational.log2 2 = 1 ∧ DoubleLib.rational.log2 (1 / 2) = -1 ∧
    ScriptingApi.Engine.getSemitonesFromPitchRatio DoubleLib.rational 2 = 1200 ∧
    ScriptingApi.Engine.getSemitonesFromPitchRatio DoubleLib.rational
      (ScriptingApi.Engine.getPitchRatioFromSemitones DoubleLib.rational 12) = 100 * 12 :=
  ⟨DoubleLib.rational_log2_pow, by norm_num [DoubleLib.rational],
    by norm_num [DoubleLib.rational],
    (getSemitonesFromPitchRatio_returns_cents DoubleLib.rational 12 DoubleLib.rational_log2_pow
      (by norm_num [DoubleLib.rational]) (by norm_num [DoubleLib.rational])).1,
    (getSemitonesFromPitchRatio_returns_cents DoubleLib.rational 12 DoubleLib.rational_log2_pow
      (by norm_num [DoubleLib.rational]) (by norm_num [DoubleLib.rational])).2.2.1⟩

/-! ### Selection by regular expression (C21, C22) -/

theorem JuceString.strip_sub (P : String) :
    JuceString.startsWith ("sub:" ++ P) "sub:" = true ∧
    JuceString.fromFirstOccurrenceOf ("sub:" ++ P) "sub:" false true = P := by
  have hd : ("sub:" ++ P).data = 's' :: 'u' :: 'b' :: ':' :: P.data := by
    rw [String.data_append]
    rfl
  have hs : ("sub:" : String).data = ['s', 'u', 'b', ':'] := rfl
  refine ⟨?_, ?_⟩
  · simp [JuceString.startsWith, hd, hs, JuceString.matchesAt, JuceString.sameChar]
  · have hm : JuceString.matchesAt true ['s', 'u', 'b', ':']
        ('s' :: 'u' :: 'b' :: ':' :: P.data) = true := by
      simp only [JuceString.matchesAt, JuceString.sameChar, if_true, Bool.and_true,
        Bool.and_eq_true]
      exact ⟨by decide, by decide, by decide, by decide⟩
    simp only [JuceString.fromFirstOccurrenceOf, hd, hs, JuceString.indexOfLoop, hm, if_true,
      Bool.false_eq_true, if_false]
    rfl

theorem JuceString.strip_add (P : String) :
    JuceString.startsWith ("add:" ++ P) "sub:" = false ∧
    JuceString.startsWith ("add:" ++ P) "add:" = true ∧
    JuceString.fromFirstOccurrenceOf ("add:" ++ P) "add:" false true = P := by
  have hd : ("add:" ++ P).data = 'a' :: 'd' :: 'd' :: ':' :: P.data := by
    rw [String.data_append]
    rfl
  have hs : ("add:" : String).data = ['a', 'd', 'd', ':'] := rfl
  have hs2 : ("sub:" : String).data = ['s', 'u', 'b', ':'] := rfl
  refine ⟨?_, ?_, ?_⟩
  · simp [JuceString.startsWith, hd, hs2, JuceString.matchesAt, JuceString.sameChar]
  · simp [JuceString.startsWith, hd, hs, JuceString.matchesAt, JuceString.sameChar]
  · have hm : JuceString.matchesAt true ['a', 'd', 'd', ':']
        ('a' :: 'd' :: 'd' :: ':' :: P.data) = true := by
      simp only [JuceString.matchesAt, JuceString.sameChar, if_true, Bool.and_true,
        Bool.and_eq_true]
      exact ⟨by decide, by decide, by decide, by decide⟩
    simp only [JuceString.fromFirstOccurrenceOf, hd, hs, JuceString.indexOfLoop, hm, if_true,
      Bool.false_eq_true, if_false]
    rfl

theorem ModulatorSamplerSound.selectSoundsBasedOnRegex_sub (L : FloatLib) (T : TextLib)
    (R : RegexLib) (P : String) (sampler : ModulatorSampler) (set : SelectedItemSet) :
    selectSoundsBasedOnRegex L T R ("sub:" ++ P) sampler set
      = match R.compile P with
        | .ok reg => (selectLoop L T reg true sampler.sounds.enum set, [])
        | .error what => (set, [what]) := by
  obtain ⟨h1, h2⟩ := JuceString.strip_sub P
  simp only [selectSoundsBasedOnRegex, h1, h2, if_true, Bool.true_or]

theorem ModulatorSamplerSound.selectSoundsBasedOnRegex_add (L : FloatLib) (T : TextLib)
    (R : RegexLib) (P : String) (sampler : ModulatorSampler) (set : SelectedItemSet) :
    selectSoundsBasedOnRegex L T R ("add:" ++ P) sampler set
      = match R.compile P with
        | .ok reg => (selectLoop L T reg false sampler.sounds.enum set, [])
        | .error what => (set, [what]) := by
  obtain ⟨h1, h2, h3⟩ := JuceString.strip_add P
  simp only [selectSoundsBasedOnRegex, h1, h2, h3, if_true, Bool.not_false, Bool.true_and,
    Bool.false_or, Bool.false_eq_true, if_false]

theorem ModulatorSamplerSound.selectSoundsBasedOnRegex_plain (L : FloatLib) (T : TextLib)
    (R : RegexLib) (P : String) (sampler : ModulatorSampler) (set : SelectedItemSet)
    (hsub : JuceString.startsWith P "sub:" = false)
    (hadd : JuceString.startsWith P "add:" = false) :
    selectSoundsBasedOnRegex L T R P sampler set
      = match R.compile P with
        | .ok reg => (selectLoop L T reg false sampler.sounds.enum [], [])
        | .error what => ([], [what]) := by
  simp only [selectSoundsBasedOnRegex, hsub, hadd, Bool.not_false, Bool.and_false,
    Bool.or_false, Bool.false_eq_true, if_false, SelectedItemSet.deselectAll]

set_option maxRecDepth 100000 in
/-- C21 (as stated) fails without a prefix: with the sound at position 1 selected, the
malformed pattern `(` leaves the selection empty, while `add:(` and `sub:(` leave it as
it was; all three only log the error. -/
theorem selectSoundsBasedOnRegex_malformed_counterexample :
    exampleRegex.compile "(" = .error "regex_error" ∧
    selectSoundsBasedOnRegex FloatLib.linear exampleText exampleRegex "(" exampleSampler [1]
      = ([], ["regex_error"]) ∧
    selectSoundsBasedOnRegex FloatLib.linear exampleText exampleRegex "add:(" exampleSampler [1]
      = ([1], ["regex_error"]) ∧
    selectSoundsBasedOnRegex FloatLib.linear exampleText exampleRegex "sub:(" exampleSampler [1]
      = ([1], ["regex_error"]) := by
  refine ⟨rfl, ?_, ?_, ?_⟩ <;> decide

/-- C21 (amended): for every selection set and every malformed pattern `P` (the regex
constructor throws), selectSoundsBasedOnRegex with `add:P` or `sub:P` leaves the selection
set exactly as it was; with the unprefixed pattern `P` the selection was emptied before
the pattern is compiled and stays empty. In all three cases no sound is added and the
error text is logged. -/
theorem selectSoundsBasedOnRegex_malformed (L : FloatLib) (T : TextLib) (R : RegexLib)
    (P what : String) (sampler : ModulatorSampler) (set : SelectedItemSet)
    (hbad : R.compile P = .error what) :
    selectSoundsBasedOnRegex L T R ("add:" ++ P) sampler set = (set, [what]) ∧
    selectSoundsBasedOnRegex L T R ("sub:" ++ P) sampler set = (set, [what]) ∧
    (JuceString.startsWith P "sub:" = false → JuceString.startsWith P "add:" = false →
      selectSoundsBasedOnRegex L T R P sampler set = ([], [what])) := by
  refine ⟨?_, ?_, ?_⟩
  · rw [selectSoundsBasedOnRegex_add, hbad]
  · rw [selectSoundsBasedOnRegex_sub, hbad]
  · intro h1 h2
    rw [selectSoundsBasedOnRegex_plain L T R P sampler set h1 h2, hbad]

set_option maxRecDepth 100000 in
theorem selectSoundsBasedOnRegex_malformed_witness :
    exampleRegex.compile "(" = .error "regex_error" ∧
    selectSoundsBasedOnRegex FloatLib.linear exampleText exampleRegex ("add:" ++ "(")
      exampleSampler [2, 0] = ([2, 0], ["regex_error"]) :=
  ⟨rfl,
    (selectSoundsBasedOnRegex_malformed FloatLib.linear exampleText exampleRegex "("
      "regex_error" exampleSampler [2, 0] rfl).1⟩

theorem ModulatorSamplerSound.selectLoop_add (L : FloatLib) (T : TextLib)
    (reg : String → Bool) (rest : List (ℕ × ModulatorSamplerSound)) (set : SelectedItemSet)
    (hset : set.Nodup) :
    (selectLoop L T reg false rest set).Nodup ∧
    ∀ j, j ∈ selectLoop L T reg false rest set ↔
      (j ∈ set ∨ ∃ sound, (j, sound) ∈ rest ∧
        reg (sound.getPropertyAsString L T .FileName) = true) := by
  induction rest generalizing set with
  | nil => exact ⟨hset, fun j => by simp [selectLoop]⟩
  | cons x rest ih =>
    obtain ⟨i, sound⟩ := x
    by_cases hm : reg (sound.getPropertyAsString L T .FileName) = true
    · have hnd : (SelectedItemSet.addToSelection set i).Nodup := by
        unfold SelectedItemSet.addToSelection
        split_ifs with hi
        · exact hset
        · exact List.Nodup.append hset (List.nodup_singleton i) (by simpa using hi)
      have hmem : ∀ j, j ∈ SelectedItemSet.addToSelection set i ↔ (j ∈ set ∨ j = i) := by
        intro j
        unfold SelectedItemSet.addToSelection
        split_ifs with hi
        · constructor
          · exact Or.inl
          · rintro (h | h)
            · exact h
            · rw [h]; exact hi
        · simp
      obtain ⟨h1, h2⟩ := ih (SelectedItemSet.addToSelection set i) hnd
      simp only [selectLoop, if_pos hm, Bool.false_eq_true, if_false]
      refine ⟨h1, fun j => ?_⟩
      rw [h2 j, hmem j]
      constructor
      · rintro ((h | h) | ⟨snd, h, hr⟩)
        · exact Or.inl h
        · exact Or.inr ⟨sound, by rw [h]; exact List.mem_cons_self _ _, hm⟩
        · exact Or.inr ⟨snd, List.mem_cons_of_mem _ h, hr⟩
      · rintro (h | ⟨snd, h, hr⟩)
        · exact Or.inl (Or.inl h)
        · rcases List.mem_cons.1 h with h | h
          · exact Or.inl (Or.inr (Prod.mk.inj h).1)
          · exact Or.inr ⟨snd, h, hr⟩
    · obtain ⟨h1, h2⟩ := ih set hset
      simp only [selectLoop, if_neg hm]
      refine ⟨h1, fun j => ?_⟩
      rw [h2 j]
      constructor
      · rintro (h | ⟨snd, h, hr⟩)
        · exact Or.inl h
        · exact Or.inr ⟨snd, List.mem_cons_of_mem _ h, hr⟩
      · rintro (h | ⟨snd, h, hr⟩)
        · exact Or.inl h
        · rcases List.mem_cons.1 h with h | h
          · rw [(Prod.mk.inj h).2] at hr
            exact absurd hr hm
          · exact Or.inr ⟨snd, h, hr⟩

theorem ModulatorSamplerSound.selectLoop_sub (L : FloatLib) (T : TextLib)
    (reg : String → Bool) (rest : List (ℕ × ModulatorSamplerSound)) (set : SelectedItemSet)
    (hset : set.Nodup) :
    (selectLoop L T reg true rest set).Nodup ∧
    ∀ j, j ∈ selectLoop L T reg true rest set ↔
      (j ∈ set ∧ ¬ ∃ sound, (j, sound) ∈ rest ∧
        reg (sound.getPropertyAsString L T .FileName) = true) := by
  induction rest generalizing set with
  | nil => exact ⟨hset, fun j => by simp [selectLoop]⟩
  | cons x rest ih =>
    obtain ⟨i, sound⟩ := x
    by_cases hm : reg (sound.getPropertyAsString L T .FileName) = true
    · have hnd : (SelectedItemSet.deselect set i).Nodup := List.Nodup.erase i hset
      have hmem : ∀ j, j ∈ SelectedItemSet.deselect set i ↔ (j ≠ i ∧ j ∈ set) :=
        fun j => List.Nodup.mem_erase_iff hset
      obtain ⟨h1, h2⟩ := ih (SelectedItemSet.deselect set i) hnd
      simp only [selectLoop, if_pos hm, if_true]
      refine ⟨h1, fun j => ?_⟩
      rw [h2 j, hmem j]
      constructor
      · rintro ⟨⟨hne, hj⟩, hno⟩
        refine ⟨hj, ?_⟩
        rintro ⟨snd, h, hr⟩
        rcases List.mem_cons.1 h with h | h
        · exact hne (Prod.mk.inj h).1
        · exact hno ⟨snd, h, hr⟩
      · rintro ⟨hj, hno⟩
        refine ⟨⟨?_, hj⟩, ?_⟩
        · intro hji
          exact hno ⟨sound, by rw [hji]; exact List.mem_cons_self _ _, hm⟩
        · rintro ⟨snd, h, hr⟩
          exact hno ⟨snd, List.mem_cons_of_mem _ h, hr⟩
    · obtain ⟨h1, h2⟩ := ih set hset
      simp only [selectLoop, if_neg hm]
      refine ⟨h1, fun j => ?_⟩
      rw [h2 j]
      constructor
      · rintro ⟨hj, hno⟩
        refine ⟨hj, ?_⟩
        rintro ⟨snd, h, hr⟩
        rcases List.mem_cons.1 h with h | h
        · rw [(Prod.mk.inj h).2] at hr
          exact hm hr
        · exact hno ⟨snd, h, hr⟩
      · rintro ⟨hj, hno⟩
        refine ⟨hj, ?_⟩
        rintro ⟨snd, h, hr⟩
        exact hno ⟨snd, List.mem_cons_of_mem _ h, hr⟩

theorem ModulatorSampler.matched_iff (L : FloatLib) (T : TextLib) (reg : String → Bool)
    (sampler : ModulatorSampler) (j : ℕ) :
    (∃ sound, (j, sound) ∈ sampler.sounds.enum ∧
        reg (sound.getPropertyAsString L T .FileName) = true)
      ↔ sampler.matched L T reg j := by
  unfold ModulatorSampler.matched
  constructor
  · rintro ⟨snd, h, hr⟩
    exact ⟨snd, by rw [List.get?_eq_getElem?]; exact List.mk_mem_enum_iff_getElem?.1 h, hr⟩
  · rintro ⟨snd, h, hr⟩
    rw [List.get?_eq_getElem?] at h
    exact ⟨snd, List.mk_mem_enum_iff_getElem?.2 h, hr⟩

/-- C22: for a well-formed pattern `P` and a sampler, with `M` the sounds of the sampler
whose display name (the FileName property as text) contains a match of `P`:
selectSoundsBasedOnRegex with `add:P` turns the selection `X` into `X ∪ M`, with `sub:P`
into `X \ M`, and with `P` itself (a pattern that starts with neither prefix) into
exactly `M`. The pattern that is compiled and matched is `P`, without the prefix;
nothing is logged and the selection still holds each sound once. -/
theorem selectSoundsBasedOnRegex_modes (L : FloatLib) (T : TextLib) (R : RegexLib)
    (P : String) (reg : String → Bool) (sampler : ModulatorSampler) (X : SelectedItemSet)
    (hP : R.compile P = .ok reg) (hX : X.Nodup) :
    ((selectSoundsBasedOnRegex L T R ("add:" ++ P) sampler X).2 = [] ∧
      (selectSoundsBasedOnRegex L T R ("add:" ++ P) sampler X).1.Nodup ∧
      ∀ j, j ∈ (selectSoundsBasedOnRegex L T R ("add:" ++ P) sampler X).1 ↔
        (j ∈ X ∨ sampler.matched L T reg j)) ∧
    ((selectSoundsBasedOnRegex L T R ("sub:" ++ P) sampler X).2 = [] ∧
      (selectSoundsBasedOnRegex L T R ("sub:" ++ P) sampler X).1.Nodup ∧
      ∀ j, j ∈ (selectSoundsBasedOnRegex L T R ("sub:" ++ P) sampler X).1 ↔
        (j ∈ X ∧ ¬ sampler.matched L T reg j)) ∧
    (JuceString.startsWith P "sub:" = false → JuceString.startsWith P "add:" = false →
      (selectSoundsBasedOnRegex L T R P sampler X).2 = [] ∧
      (selectSoundsBasedOnRegex L T R P sampler X).1.Nodup ∧
      ∀ j, j ∈ (selectSoundsBasedOnRegex L T R P sampler X).1 ↔ sampler.matched L T reg j) := by
  refine ⟨?_, ?_, ?_⟩
  · rw [selectSoundsBasedOnRegex_add, hP]
    obtain ⟨h1, h2⟩ := selectLoop_add L T reg sampler.sounds.enum X hX
    refine ⟨rfl, h1, fun j => ?_⟩
    rw [← ModulatorSampler.matched_iff]
    exact h2 j
  · rw [selectSoundsBasedOnRegex_sub, hP]
    obtain ⟨h1, h2⟩ := selectLoop_sub L T reg sampler.sounds.enum X hX
    refine ⟨rfl, h1, fun j => ?_⟩
    rw [← ModulatorSampler.matched_iff]
    exact h2 j
  · intro hs ha
    rw [selectSoundsBasedOnRegex_plain L T R P sampler X hs ha, hP]
    obtain ⟨h1, h2⟩ := selectLoop_add L T reg sampler.sounds.enum [] List.nodup_nil
    refine ⟨rfl, h1, fun j => ?_⟩
    rw [← ModulatorSampler.matched_iff]
    simpa using h2 j

set_option maxRecDepth 100000 in
theorem selectSoundsBasedOnRegex_modes_witness :
    exampleRegex.compile "kick"
        = .ok (fun text =>
            (JuceString.indexOfLoop false ("kick" : String).data text.data 0).isSome) ∧
    ([1, 0] : SelectedItemSet).Nodup ∧
    selectSoundsBasedOnRegex FloatLib.linear exampleText exampleRegex "add:kick"
        exampleSampler [1, 0] = ([1, 0, 2], []) ∧
    selectSoundsBasedOnRegex FloatLib.linear exampleText exampleRegex "sub:kick"
        exampleSampler [1, 0] = ([1], []) ∧
    selectSoundsBasedOnRegex FloatLib.linear exampleText exampleRegex "kick"
        exampleSampler [1, 0] = ([0, 2], []) ∧
    (∀ j, j ∈ (selectSoundsBasedOnRegex FloatLib.linear exampleText exampleRegex
        ("sub:" ++ "kick") exampleSampler [1, 0]).1 ↔
      (j ∈ ([1, 0] : SelectedItemSet) ∧
        ¬ exampleSampler.matched FloatLib.linear exampleText
          (fun text => (JuceString.indexOfLoop false ("kick" : String).data text.data 0).isSome)
          j)) :=
  ⟨rfl, by decide, by decide, by decide, by decide,
    (selectSoundsBasedOnRegex_modes FloatLib.linear exampleText exampleRegex "kick"
      (fun text => (JuceString.indexOfLoop false ("kick" : String).data text.data 0).isSome)
      exampleSampler [1, 0] rfl (by decide)).2.1.2.2⟩

/-! ### Deferred writes and the render thread (C24) -/

/-- C24: a write to a deferred property (sample window, loop window, both fade lengths,
purge state) made through setProperty while asynchronous change is enabled, from any
thread and whether or not voices are sounding, runs setPropertyInternal exactly once, on
the sample loading thread (never the audio thread) and with every voice suspended; the
sound afterwards and the events sent are those of setProperty, and the calling thread
and the voices are as before once the call is over. (With asynchronous change disabled
the same write runs on the calling thread, voices sounding or not.) -/
theorem deferred_write_runs_suspended (L : FloatLib) (e : Engine) (p : Property) (v : Int)
    (notify : Bool) (hasync : e.sound.enableAsyncPropertyChange = true)
    (hp : isAsyncProperty p = true) :
    (Engine.setProperty L p v notify e).writes
      = e.writes ++ [⟨p, v, ThreadId.sampleLoadingThread, false⟩] ∧
    (∀ w ∈ (Engine.setProperty L p v notify e).writes, w ∉ e.writes →
      w.thread ≠ ThreadId.audioThread ∧ w.voicesActive = false) ∧
    (Engine.setProperty L p v notify e).sound = (e.sound.setProperty L p v notify).1 ∧
    (Engine.setProperty L p v notify e).sound = e.sound.setPropertyInternal L p v ∧
    (Engine.setProperty L p v notify e).events
      = e.events ++ (e.sound.setProperty L p v notify).2 ∧
    (Engine.setProperty L p v notify e).currentThread = e.currentThread ∧
    (Engine.setProperty L p v notify e).voicesActive = e.voicesActive ∧
    (Engine.setProperty L p v notify
        { e with sound := { e.sound with enableAsyncPropertyChange := false } }).writes
      = e.writes ++ [⟨p, v, e.currentThread, e.voicesActive⟩] := by
  have hw : (Engine.setProperty L p v notify e).writes
      = e.writes ++ [⟨p, v, ThreadId.sampleLoadingThread, false⟩] := by
    simp only [Engine.setProperty, hasync, hp, and_self, if_true, Engine.killVoicesAndCall,
      Engine.setPreloadPropertyInternal, Engine.killAllVoicesAndCall,
      Engine.setPropertyInternal, Engine.sendChangeMessage]
    cases notify <;> rfl
  refine ⟨hw, ?_, ?_, ?_, ?_, ?_, ?_, ?_⟩
  · intro w hmem hnot
    rw [hw, List.mem_append, List.mem_singleton] at hmem
    rcases hmem with h | h
    · exact absurd h hnot
    · rw [h]
      exact ⟨fun hc => ThreadId.noConfusion hc, rfl⟩
  · rw [setProperty_fst]
    simp only [Engine.setProperty, hasync, hp, and_self, if_true, Engine.killVoicesAndCall,
      Engine.setPreloadPropertyInternal, Engine.killAllVoicesAndCall,
      Engine.setPropertyInternal, Engine.sendChangeMessage]
    cases notify <;> rfl
  · simp only [Engine.setProperty, hasync, hp, and_self, if_true, Engine.killVoicesAndCall,
      Engine.setPreloadPropertyInternal, Engine.killAllVoicesAndCall,
      Engine.setPropertyInternal, Engine.sendChangeMessage]
    cases notify <;> rfl
  · simp only [Engine.setProperty, ModulatorSamplerSound.setProperty,
      ModulatorSamplerSound.setPreloadPropertyInternal, hasync, hp, and_self, if_true,
      Engine.killVoicesAndCall, Engine.setPreloadPropertyInternal, Engine.killAllVoicesAndCall,
      Engine.setPropertyInternal, Engine.sendChangeMessage]
    cases notify <;> simp
  · simp only [Engine.setProperty, hasync, hp, and_self, if_true, Engine.killVoicesAndCall]
  · simp only [Engine.setProperty, hasync, hp, and_self, if_true, Engine.killVoicesAndCall]
  · simp only [Engine.setProperty, Bool.false_eq_true, false_and, if_false,
      Engine.setPropertyInternal, Engine.sendChangeMessage]
    cases notify <;> rfl

set_option maxRecDepth 100000 in
theorem deferred_write_runs_suspended_witness :
    loopedSound.enableAsyncPropertyChange = true ∧ isAsyncProperty .LoopStart = true ∧
    (Engine.setProperty FloatLib.linear .LoopStart 200 true
        { sound := loopedSound, currentThread := .audioThread, voicesActive := true }).writes
      = [] ++ [⟨.LoopStart, 200, ThreadId.sampleLoadingThread, false⟩] ∧
    (Engine.setProperty FloatLib.linear .LoopStart 200 true
        { sound := { loopedSound with enableAsyncPropertyChange := false },
          currentThread := .audioThread, voicesActive := true }).writes
      = [⟨.LoopStart, 200, ThreadId.audioThread, true⟩] :=
  ⟨by decide, by decide,
    (deferred_write_runs_suspended FloatLib.linear
      { sound := loopedSound, currentThread := .audioThread, voicesActive := true }
      .LoopStart 200 true (by decide) (by decide)).1,
    by decide⟩

open BigInteger ModulatorSamplerSound ModulatorSamplerSoundPool JavascriptProcessor

/-! ### Merging and parsing the script callbacks (C30) -/

end HISE
